import Mathlib

/-!
# Asteroid game: the simulation and collision loop of `src/game.js`

A shallow embedding of the classes `Game`, `Player`, `Asteroid`, `Bullet` and
`Particle`.

Conventions of the embedding.

* JavaScript numbers that hold coordinates, speeds and angles are elements of a
  linearly ordered field `α` with a floor function (exact arithmetic: the
  rounding of IEEE doubles is not modelled; decimal literals such as `0.99`
  are the exact fractions `99/100`).
* Counters and clock readings (`score`, `level`, `comboCount`, `life`,
  milliseconds) are integers.
* The ambient collaborators `Math.sqrt`, `Math.cos`, `Math.sin`, `Math.PI`,
  `Math.random` and `Date.now` are the fields of a `Host`.  `Math.random()` and
  `Date.now()` are read through call counters kept in the game state
  (`randomCalls`, `nowCalls`): the `n`-th call returns `random n`, `now n`.
* Arrays are lists; `Array.prototype.forEach` and `splice` follow ECMAScript:
  `forEach` fixes the length before the first visit, skips an index that is
  no longer present, and reads the element found at the index when visited.
* Calls to `playSound` and `saveHighScore` are recorded in the logs
  `soundCalls` and `savedHighScores`.  Writes to the DOM and to the canvas do
  not feed back into the simulation and are left out.
* `localStorage` is the field `storage` of the game state: the two entries the
  program uses, and a flag that is false when every access throws.  NaN, as
  `parseInt` returns it, is `none`.
-/

set_option linter.unusedSectionVars false
set_option linter.unusedVariables false

namespace AsteroidGame

/-- The collaborators the simulation reads from its environment. -/
structure Host (α : Type) where
  sqrt : α → α
  cos : α → α
  sin : α → α
  pi : α
  random : Nat → α
  now : Nat → Int

/-- An object literal with fields x and y. -/
structure Vec (α : Type) where
  x : α
  y : α

/-- Size class of an asteroid: the strings large, medium, and any other. -/
inductive Size where
  | large
  | medium
  | small
  deriving DecidableEq, Repr

/-- The difficulty setting, one of the three options of the settings panel. -/
inductive Difficulty where
  | easy
  | normal
  | hard
  deriving DecidableEq, Repr

/-- The event names passed to playSound. -/
inductive Sound where
  | shoot
  | explosion
  | hit
  | thrust
  | combo
  | levelup
  | powerup
  deriving DecidableEq, Repr

structure Asteroid (α : Type) where
  x : α
  y : α
  size : Size
  radius : α
  velocity : Vec α
  rotation : α
  rotationSpeed : α
  vertices : List (Vec α)

structure Bullet (α : Type) where
  x : α
  y : α
  velocity : Vec α
  life : Int

/-- A particle; color holds the hue of the hsl colour string. -/
structure Particle (α : Type) where
  x : α
  y : α
  velocity : Vec α
  life : Int
  maxLife : Int
  color : α

/-- The ship.  The fields boostTime and boostDuration are not set by the
constructor (undefined, here none); null is none as well. -/
structure Player (α : Type) where
  x : α
  y : α
  angle : α
  velocity : Vec α
  radius : α
  thrust : α
  friction : α
  color : String
  boostTime : Option Int
  boostDuration : Option Int

structure Settings (α : Type) where
  sound : Bool
  music : Bool
  musicVolume : α
  particles : Bool
  showFPS : Bool
  shipColor : String
  difficulty : Difficulty

/-- The two localStorage entries of the game; available is false when access
to localStorage throws. -/
structure Storage (α : Type) where
  available : Bool
  asteroidGameSettings : Option (Settings α)
  asteroidGameHighScore : Option String

structure Game (α : Type) where
  width : α
  height : α
  player : Player α
  asteroids : List (Asteroid α)
  bullets : List (Bullet α)
  score : Int
  level : Int
  gameOver : Bool
  paused : Bool
  keys : String → Bool
  startTime : Int
  elapsedTime : Int
  timeBonus : Int
  settings : Settings α
  highScore : Option Int
  particles : List (Particle α)
  fps : Int
  frameCount : Int
  lastFPSUpdate : Int
  audioContext : Bool
  thrustSound : Bool
  comboCount : Int
  lastHitTime : Int
  storage : Storage α
  randomCalls : Nat
  nowCalls : Nat
  soundCalls : List Sound
  savedHighScores : List Int

section Model

variable {α : Type} [LinearOrderedField α] [FloorRing α]

/-- ECMAScript forEach from index i with n indices left: an index beyond the
current length is skipped, the element is read when it is visited. -/
def forEachFrom {σ β : Type} (arr : σ → List β) (f : β → Nat → σ → σ) :
    Nat → Nat → σ → σ
  | 0, _, s => s
  | n + 1, i, s =>
    match (arr s)[i]? with
    | none => forEachFrom arr f n (i + 1) s
    | some e => forEachFrom arr f n (i + 1) (f e i s)

/-- The call arr.forEach(f): the length is read once, before the first visit. -/
def forEach {σ β : Type} (arr : σ → List β) (f : β → Nat → σ → σ) (s : σ) : σ :=
  forEachFrom arr f (arr s).length 0 s

/-! ### Entities -/

/-- The radius assigned by the Asteroid constructor. -/
def Asteroid.radiusOf (size : Size) : α :=
  if size = Size.large then 40 else if size = Size.medium then 25 else 15

/-- The loop of Asteroid.generateVertices from index i, with n indices left and
r calls of Math.random made so far. -/
def Asteroid.generateVerticesFrom (H : Host α) (radius : α) (numVertices : Int) :
    Nat → Nat → Nat → List (Vec α) × Nat
  | 0, _, r => ([], r)
  | n + 1, i, r =>
    let angle := ((i : α) / (numVertices : α)) * H.pi * 2
    let variance := 8 / 10 + H.random r * (4 / 10)
    let vertex : Vec α :=
      { x := H.cos angle * radius * variance, y := H.sin angle * radius * variance }
    let rest := Asteroid.generateVerticesFrom H radius numVertices n (i + 1) (r + 1)
    (vertex :: rest.1, rest.2)

/-- Asteroid.generateVertices, returning the vertices and the new count of
Math.random calls. -/
def Asteroid.generateVertices (H : Host α) (radius : α) (r : Nat) : List (Vec α) × Nat :=
  let numVertices : Int := 8 + ⌊H.random r * 5⌋
  Asteroid.generateVerticesFrom H radius numVertices numVertices.toNat 0 (r + 1)

/-- The Asteroid constructor, returning the asteroid and the new count of
Math.random calls. -/
def Asteroid.constructor (H : Host α) (x y : α) (size : Size) (r : Nat) : Asteroid α × Nat :=
  let radius : α := Asteroid.radiusOf size
  let velocity : Vec α :=
    { x := (H.random r - 1 / 2) * 3, y := (H.random (r + 1) - 1 / 2) * 3 }
  let rotationSpeed := (H.random (r + 2) - 1 / 2) * (5 / 100)
  let vs := Asteroid.generateVertices H radius (r + 3)
  ({ x := x, y := y, size := size, radius := radius, velocity := velocity,
     rotation := 0, rotationSpeed := rotationSpeed, vertices := vs.1 }, vs.2)

def Asteroid.update (canvasWidth canvasHeight : α) (a : Asteroid α) : Asteroid α :=
  let a := { a with x := a.x + a.velocity.x }
  let a := { a with y := a.y + a.velocity.y }
  let a := { a with rotation := a.rotation + a.rotationSpeed }
  let a := if a.x < -a.radius then { a with x := canvasWidth + a.radius } else a
  let a := if a.x > canvasWidth + a.radius then { a with x := -a.radius } else a
  let a := if a.y < -a.radius then { a with y := canvasHeight + a.radius } else a
  let a := if a.y > canvasHeight + a.radius then { a with y := -a.radius } else a
  a

def Bullet.constructor (x y vx vy : α) : Bullet α :=
  { x := x, y := y, velocity := { x := vx, y := vy }, life := 40 }

def Bullet.update (b : Bullet α) : Bullet α :=
  { b with x := b.x + b.velocity.x, y := b.y + b.velocity.y, life := b.life - 1 }

/-- The Particle constructor, with the new count of Math.random calls. -/
def Particle.constructor (H : Host α) (x y : α) (r : Nat) : Particle α × Nat :=
  ({ x := x, y := y,
     velocity := { x := (H.random r - 1 / 2) * 8, y := (H.random (r + 1) - 1 / 2) * 8 },
     life := 30, maxLife := 30, color := H.random (r + 2) * 60 + 10 }, r + 3)

def Particle.update (p : Particle α) : Particle α :=
  { p with
    x := p.x + p.velocity.x
    y := p.y + p.velocity.y
    velocity := { x := p.velocity.x * (98 / 100), y := p.velocity.y * (98 / 100) }
    life := p.life - 1 }

def Player.constructor (x y : α) : Player α :=
  { x := x, y := y, angle := 0, velocity := { x := 0, y := 0 }, radius := 10,
    thrust := 1 / 2, friction := 99 / 100, color := "#4ecdc4",
    boostTime := none, boostDuration := none }

/-- Truthiness of the field boostTime: a number other than 0. -/
def Player.boostTimeTruthy (p : Player α) : Bool :=
  match p.boostTime with
  | some t => decide (t ≠ 0)
  | none => false

/-- The test Date.now() - this.boostTime > this.boostDuration; a comparison
with undefined is false. -/
def Player.boostElapsed (p : Player α) (now : Int) : Bool :=
  match p.boostTime, p.boostDuration with
  | some t, some d => decide (now - t > d)
  | _, _ => false

/-- The boost check that opens Player.update: when boostTime is truthy and the
boost has run for more than boostDuration, thrust is reset to 0.4 and boostTime
to null. -/
def Player.expireBoost (p : Player α) (now : Int) : Player α :=
  if p.boostTimeTruthy && p.boostElapsed now
  then { p with thrust := 4 / 10, boostTime := none } else p

/-- One turn statement of Player.update: this.angle += delta when the key is held. -/
def Player.turn (held : Bool) (delta : α) (p : Player α) : Player α :=
  if held then { p with angle := p.angle + delta } else p

/-- One thrust statement of Player.update: the velocity gains thrust along the
heading when the key is held. -/
def Player.accelerate (H : Host α) (held : Bool) (p : Player α) : Player α :=
  if held then
    { p with velocity := { x := p.velocity.x + H.cos p.angle * p.thrust,
                           y := p.velocity.y + H.sin p.angle * p.thrust } }
  else p

/-- Friction and integration of the position in Player.update. -/
def Player.move (p : Player α) : Player α :=
  let v : Vec α := { x := p.velocity.x * p.friction, y := p.velocity.y * p.friction }
  { p with velocity := v, x := p.x + v.x, y := p.y + v.y }

/-- The two statements of Player.update that wrap x. -/
def Player.wrapX (canvasWidth : α) (p : Player α) : Player α :=
  let p1 := if p.x < 0 then { p with x := canvasWidth } else p
  if p1.x > canvasWidth then { p1 with x := 0 } else p1

/-- The two statements of Player.update that wrap y. -/
def Player.wrapY (canvasHeight : α) (p : Player α) : Player α :=
  let p1 := if p.y < 0 then { p with y := canvasHeight } else p
  if p1.y > canvasHeight then { p1 with y := 0 } else p1

/-- Player.update(keys, canvasWidth, canvasHeight), statement by statement; the
argument nowCalls is the count of Date.now() calls made so far, returned
updated (the call is made only when boostTime is truthy). -/
def Player.update (H : Host α) (keys : String → Bool) (canvasWidth canvasHeight : α)
    (p : Player α) (nowCalls : Nat) : Player α × Nat :=
  let nowCalls1 := if p.boostTimeTruthy then nowCalls + 1 else nowCalls
  let p1 := p.expireBoost (H.now nowCalls)
  let p2 := Player.turn (keys "arrowleft") (-(1 / 10)) p1
  let p3 := Player.turn (keys "arrowright") (1 / 10) p2
  let p4 := Player.accelerate H (keys "arrowup") p3
  let p5 := Player.turn (keys "a") (-(1 / 10)) p4
  let p6 := Player.turn (keys "d") (1 / 10) p5
  let p7 := Player.accelerate H (keys "w") p6
  (Player.wrapY canvasHeight (Player.wrapX canvasWidth p7.move), nowCalls1)

/-! ### Game -/

/-- The table of speed multipliers: 0.7, 1 and 1.5. -/
def speedMultiplier : Difficulty → α
  | Difficulty.easy => 7 / 10
  | Difficulty.normal => 1
  | Difficulty.hard => 3 / 2

/-- Game.playSound(type).  The call is logged; of the sounds only the thrust
sound touches the game state: createThrustSound arms the timer thrustSound when
audio is on and no timer is pending. -/
def Game.playSound (type : Sound) (g : Game α) : Game α :=
  { g with
    soundCalls := g.soundCalls ++ [type]
    thrustSound := g.thrustSound ||
      (g.audioContext && g.settings.sound && decide (type = Sound.thrust)) }

def Game.getAsteroidCount (g : Game α) : Int :=
  ⌊(5 : α) * speedMultiplier g.settings.difficulty⌋

def Game.distance (H : Host α) (x1 y1 x2 y2 : α) : α :=
  H.sqrt ((x2 - x1) ^ 2 + (y2 - y1) ^ 2)

/-- Game.saveHighScore(score): setItem stores the decimal string unless the
storage throws. -/
def Game.saveHighScore (score : Int) (g : Game α) : Game α :=
  { g with
    savedHighScores := g.savedHighScores ++ [score]
    storage := if g.storage.available
      then { g.storage with asteroidGameHighScore := some (toString score) }
      else g.storage }

/-- The comparison totalScore > this.highScore; it is false when highScore is
NaN (none). -/
def Game.isNewHighScore (totalScore : Int) (g : Game α) : Bool :=
  match g.highScore with
  | some h => decide (totalScore > h)
  | none => false

def Game.endGame (g : Game α) : Game α :=
  let g1 := { g with gameOver := true }
  let totalScore := g1.score + g1.timeBonus
  if g1.isNewHighScore totalScore then
    Game.saveHighScore totalScore { g1 with highScore := some totalScore }
  else g1

/-- The do-while loop of createAsteroids: draw x and y until the point is at
least 100 away from the ship.  The loop is run for at most fuel rounds; r is
the count of Math.random calls made so far. -/
def Game.samplePosition (H : Host α) (g : Game α) : Nat → Nat → Option (α × α × Nat)
  | 0, _ => none
  | fuel + 1, r =>
    let x := H.random r * g.width
    let y := H.random (r + 1) * g.height
    if Game.distance H x y g.player.x g.player.y < 100
    then Game.samplePosition H g fuel (r + 2)
    else some (x, y, r + 2)

/-- The statement this.asteroids.push(new Asteroid(x, y, size)). -/
def Game.pushAsteroid (H : Host α) (x y : α) (size : Size) (g : Game α) : Game α :=
  let ar := Asteroid.constructor H x y size g.randomCalls
  { g with asteroids := g.asteroids ++ [ar.1], randomCalls := ar.2 }

/-- Game.createAsteroids: the for loop with count rounds left. -/
def Game.createAsteroidsLoop (H : Host α) (fuel : Nat) : Nat → Game α → Option (Game α)
  | 0, g => some g
  | count + 1, g =>
    match Game.samplePosition H g fuel g.randomCalls with
    | none => none
    | some (x, y, r) =>
      Game.createAsteroidsLoop H fuel count
        (Game.pushAsteroid H x y Size.large { g with randomCalls := r })

/-- Game.createAsteroids(count); none when a sampling loop does not end within
fuel rounds. -/
def Game.createAsteroids (H : Host α) (fuel : Nat) (count : Int) (g : Game α) :
    Option (Game α) :=
  Game.createAsteroidsLoop H fuel count.toNat g

/-- The loop of createExplosion with n particles left. -/
def Game.createExplosionLoop (H : Host α) (x y : α) : Nat → Game α → Game α
  | 0, g => g
  | n + 1, g =>
    let pr := Particle.constructor H x y g.randomCalls
    Game.createExplosionLoop H x y n
      { g with particles := g.particles ++ [pr.1], randomCalls := pr.2 }

def Game.createExplosion (H : Host α) (x y radius : α) (g : Game α) : Game α :=
  Game.createExplosionLoop H x y ⌊radius / 2⌋.toNat g

/-- The points of a hit before the combo multiplier. -/
def Game.points (size : Size) : Int :=
  if size = Size.large then 20 else if size = Size.medium then 50 else 100

/-- The fragments pushed by a hit: two medium for large, two small for medium,
none otherwise. -/
def Game.pushFragments (H : Host α) (asteroid : Asteroid α) (g : Game α) : Game α :=
  if asteroid.size = Size.large then
    Game.pushAsteroid H asteroid.x asteroid.y Size.medium
      (Game.pushAsteroid H asteroid.x asteroid.y Size.medium g)
  else if asteroid.size = Size.medium then
    Game.pushAsteroid H asteroid.x asteroid.y Size.small
      (Game.pushAsteroid H asteroid.x asteroid.y Size.small g)
  else g

/-- First statements of a hit: the bullet at bulletIndex is spliced out and the
explosion particles are created when particles are on. -/
def Game.hitRemoveBullet (H : Host α) (asteroid : Asteroid α) (bulletIndex : Nat)
    (g : Game α) : Game α :=
  let g1 := { g with bullets := g.bullets.eraseIdx bulletIndex }
  if g1.settings.particles
  then Game.createExplosion H asteroid.x asteroid.y asteroid.radius g1 else g1

/-- The combo update of a hit: comboCount++, lastHitTime = Date.now(), then the
combo and explosion sounds. -/
def Game.hitCombo (H : Host α) (g : Game α) : Game α :=
  let g1 := { g with comboCount := g.comboCount + 1, lastHitTime := H.now g.nowCalls,
                     nowCalls := g.nowCalls + 1 }
  let g2 := if g1.comboCount > 1 then Game.playSound Sound.combo g1 else g1
  Game.playSound Sound.explosion g2

/-- The scoring of a hit: points times min(comboCount, 5), then the powerup
sound at combo 5 and 10. -/
def Game.hitScore (size : Size) (g : Game α) : Game α :=
  let comboMultiplier := min g.comboCount 5
  let g1 := { g with score := g.score + Game.points size * comboMultiplier }
  if g1.comboCount = 5 ∨ g1.comboCount = 10 then Game.playSound Sound.powerup g1 else g1

/-- The body of the if of the projectile scan in checkCollisions, for the
bullet of index bulletIndex and the asteroid read at asteroidIndex. -/
def Game.resolveHit (H : Host α) (asteroid : Asteroid α) (bulletIndex asteroidIndex : Nat)
    (g : Game α) : Game α :=
  let g1 := Game.hitRemoveBullet H asteroid bulletIndex g
  let g2 := Game.hitCombo H g1
  let g3 := Game.pushFragments H asteroid g2
  let g4 := Game.hitScore asteroid.size g3
  { g4 with asteroids := g4.asteroids.eraseIdx asteroidIndex }

/-- The callback of the inner forEach of checkCollisions. -/
def Game.checkPair (H : Host α) (bullet : Bullet α) (bulletIndex : Nat)
    (asteroid : Asteroid α) (asteroidIndex : Nat) (g : Game α) : Game α :=
  if Game.distance H bullet.x bullet.y asteroid.x asteroid.y < asteroid.radius
  then Game.resolveHit H asteroid bulletIndex asteroidIndex g else g

/-- The callback of the outer forEach of checkCollisions: the scan of the
asteroids for one bullet. -/
def Game.checkBullet (H : Host α) (bullet : Bullet α) (bulletIndex : Nat) (g : Game α) :
    Game α :=
  forEach Game.asteroids (Game.checkPair H bullet bulletIndex) g

/-- The first forEach of checkCollisions: projectiles against asteroids. -/
def Game.checkProjectiles (H : Host α) (g : Game α) : Game α :=
  forEach Game.bullets (Game.checkBullet H) g

/-- The callback of the second forEach of checkCollisions. -/
def Game.checkShipAgainst (H : Host α) (asteroid : Asteroid α) (_index : Nat) (g : Game α) :
    Game α :=
  if Game.distance H g.player.x g.player.y asteroid.x asteroid.y < asteroid.radius + 10
  then Game.endGame (Game.playSound Sound.hit g) else g

/-- The second forEach of checkCollisions: the ship against asteroids. -/
def Game.checkShip (H : Host α) (g : Game α) : Game α :=
  forEach Game.asteroids (Game.checkShipAgainst H) g

def Game.checkCollisions (H : Host α) (g : Game α) : Game α :=
  Game.checkShip H (Game.checkProjectiles H g)

/-- The target speed of updateDifficulty: 2, 3 or 4 by size, times the
multiplier. -/
def Game.targetSpeed (d : Difficulty) (size : Size) : α :=
  (if size = Size.large then 2 else if size = Size.medium then 3 else 4) * speedMultiplier d

/-- The callback of the forEach of updateDifficulty, on one asteroid. -/
def Game.rescale (H : Host α) (d : Difficulty) (asteroid : Asteroid α) : Asteroid α :=
  let currentSpeed := H.sqrt (asteroid.velocity.x ^ 2 + asteroid.velocity.y ^ 2)
  if currentSpeed > 0 then
    let ratio := Game.targetSpeed d asteroid.size / currentSpeed
    { asteroid with velocity := { x := asteroid.velocity.x * ratio,
                                  y := asteroid.velocity.y * ratio } }
  else asteroid

/-- Game.updateDifficulty: the callback changes each asteroid in place and
leaves the array as it is, so that the forEach is a map. -/
def Game.updateDifficulty (H : Host α) (g : Game α) : Game α :=
  { g with asteroids := g.asteroids.map (Game.rescale H g.settings.difficulty) }

/-- Opening of a running update: elapsedTime and timeBonus from the first
Date.now() of the tick. -/
def Game.updateTime (H : Host α) (g : Game α) : Game α :=
  let elapsedTime := H.now g.nowCalls - g.startTime
  { g with elapsedTime := elapsedTime, timeBonus := Int.fdiv elapsedTime 1000 * 2,
           nowCalls := g.nowCalls + 1 }

/-- The frame counter of update: frameCount++, then the second Date.now() of
the tick is read into now and the counter is folded into fps once a second. -/
def Game.updateFPS (H : Host α) (g : Game α) : Game α :=
  let now := H.now g.nowCalls
  let g1 := { g with frameCount := g.frameCount + 1, nowCalls := g.nowCalls + 1 }
  if now - g1.lastFPSUpdate ≥ 1000
  then { g1 with fps := g1.frameCount, frameCount := 0, lastFPSUpdate := now } else g1

/-- The statement this.player.update(this.keys, this.width, this.height). -/
def Game.updatePlayer (H : Host α) (g : Game α) : Game α :=
  let pn := Player.update H g.keys g.width g.height g.player g.nowCalls
  { g with player := pn.1, nowCalls := pn.2 }

/-- The thrust sound of update. -/
def Game.updateThrustSound (g : Game α) : Game α :=
  if (g.keys "arrowup" || g.keys "w") && !g.thrustSound
  then Game.playSound Sound.thrust g else g

/-- The test of the bullet filter of update, on a bullet already advanced. -/
def Game.bulletAlive (g : Game α) (bullet : Bullet α) : Bool :=
  decide (bullet.life > 0) && decide (bullet.x > 0) && decide (bullet.x < g.width) &&
    decide (bullet.y > 0) && decide (bullet.y < g.height)

/-- The bullet filter of update: every bullet is advanced, those that pass the
test are kept. -/
def Game.updateBullets (g : Game α) : Game α :=
  { g with bullets := (g.bullets.map Bullet.update).filter g.bulletAlive }

/-- The asteroid forEach of update: each asteroid is advanced in place. -/
def Game.updateAsteroids (g : Game α) : Game α :=
  { g with asteroids := g.asteroids.map (Asteroid.update g.width g.height) }

/-- The particle filter of update, run when particles are on. -/
def Game.updateParticles (g : Game α) : Game α :=
  if g.settings.particles then
    { g with particles :=
        (g.particles.map Particle.update).filter (fun particle => decide (particle.life > 0)) }
  else g

/-- The combo reset of update; now is the second Date.now() of the tick. -/
def Game.resetCombo (now : Int) (g : Game α) : Game α :=
  if now - g.lastHitTime > 2000 then { g with comboCount := 0 } else g

/-- The level-up block of update. -/
def Game.levelUp (H : Host α) (fuel : Nat) (g : Game α) : Option (Game α) :=
  if g.asteroids.length = 0 then
    let g1 := Game.playSound Sound.levelup { g with level := g.level + 1 }
    let asteroidCount := min 8 (g1.getAsteroidCount + Int.fdiv g1.level 2)
    Game.createAsteroids H fuel asteroidCount g1
  else some g

/-- The reading of Date.now() that update stores in now: the second call of
the tick. -/
def Game.tickNow (H : Host α) (g : Game α) : Int :=
  H.now (g.nowCalls + 1)

/-- The running update from the clock readings to the particle filter: the
state on which checkCollisions is called. -/
def Game.updateEntities (H : Host α) (g : Game α) : Game α :=
  Game.updateParticles (Game.updateAsteroids (Game.updateBullets
    (Game.updateThrustSound (Game.updatePlayer H (Game.updateFPS H (Game.updateTime H g))))))

/-- The running update up to and including checkCollisions. -/
def Game.updateToCollisions (H : Host α) (g : Game α) : Game α :=
  Game.checkCollisions H (Game.updateEntities H g)

/-- Game.update().  The sampling loops of createAsteroids are run for at most
fuel rounds each; none when one of them does not end within them. -/
def Game.update (H : Host α) (fuel : Nat) (g : Game α) : Option (Game α) :=
  if g.gameOver || g.paused then some g
  else
    match Game.levelUp H fuel (Game.resetCombo (Game.tickNow H g) (Game.updateToCollisions H g)) with
    | none => none
    | some g1 => some (Game.updateDifficulty H g1)

/-- Game.gameLoop(), the simulation step of it (draw is left out and the next
frame is requested by the host). -/
def Game.gameLoop (H : Host α) (fuel : Nat) (g : Game α) : Option (Game α) :=
  if !g.paused && !g.gameOver then Game.update H fuel g else some g

/-! ### Settings, storage, restart and live difficulty change -/

/-- The default settings of loadSettings. -/
def defaultSettings : Settings α :=
  { sound := true, music := true, musicVolume := 1 / 2, particles := true, showFPS := false,
    shipColor := "#4ecdc4", difficulty := Difficulty.normal }

/-- Game.loadSettings().  The stored entry is a complete settings object, as
saveSettings writes it, or none when it is absent or JSON.parse throws on it;
when the storage itself throws, or the entry is none, the defaults are
returned. -/
def Game.loadSettings (g : Game α) : Settings α :=
  if g.storage.available then
    match g.storage.asteroidGameSettings with
    | some saved => saved
    | none => defaultSettings
  else defaultSettings

/-- Game.saveSettings(): setItem stores the settings unless the storage
throws. -/
def Game.saveSettings (g : Game α) : Game α :=
  if g.storage.available
  then { g with storage := { g.storage with asteroidGameSettings := some g.settings } }
  else g

/-- The code points parseInt skips at the start of its argument: WhiteSpace and
LineTerminator of ECMAScript. -/
def isStrWhiteSpaceChar (c : Char) : Bool :=
  c.toNat == 0x9 || c.toNat == 0xA || c.toNat == 0xB || c.toNat == 0xC || c.toNat == 0xD ||
  c.toNat == 0x20 || c.toNat == 0xA0 || c.toNat == 0x1680 ||
  (decide (0x2000 ≤ c.toNat) && decide (c.toNat ≤ 0x200A)) ||
  c.toNat == 0x2028 || c.toNat == 0x2029 || c.toNat == 0x202F || c.toNat == 0x205F ||
  c.toNat == 0x3000 || c.toNat == 0xFEFF

/-- Value of a character as a digit of the given radix, none when it is not
one. -/
def radixDigit (radix : Nat) (c : Char) : Option Nat :=
  let v : Option Nat :=
    if decide (48 ≤ c.toNat) && decide (c.toNat ≤ 57) then some (c.toNat - 48)
    else if decide (97 ≤ c.toNat) && decide (c.toNat ≤ 122) then some (c.toNat - 87)
    else if decide (65 ≤ c.toNat) && decide (c.toNat ≤ 90) then some (c.toNat - 55)
    else none
  v.filter (fun d => decide (d < radix))

/-- The global parseInt(string) of ECMAScript with no radix argument: leading
white space is skipped, a sign is read, a prefix 0x or 0X selects radix 16, and
the longest run of digits is evaluated; none is NaN, returned when the run is
empty.  The value is the exact integer (rounding to a double is not
modelled). -/
def parseInt (input : String) : Option Int :=
  let s := input.toList.dropWhile isStrWhiteSpaceChar
  let sign : Int := match s with
    | '-' :: _ => -1
    | _ => 1
  let s1 := match s with
    | '-' :: t => t
    | '+' :: t => t
    | _ => s
  let rs : Nat × List Char := match s1 with
    | '0' :: 'x' :: t => (16, t)
    | '0' :: 'X' :: t => (16, t)
    | _ => (10, s1)
  let z := rs.2.takeWhile (fun c => (radixDigit rs.1 c).isSome)
  if z.isEmpty then none
  else some (sign * ((z.foldl (fun acc c => acc * rs.1 + (radixDigit rs.1 c).getD 0) 0 : Nat) : Int))

/-- Game.loadHighScore(): parseInt of the stored string, of the string 0 when
the entry is absent or empty, and 0 when the storage throws; none is NaN. -/
def Game.loadHighScore (g : Game α) : Option Int :=
  if g.storage.available then
    match g.storage.asteroidGameHighScore with
    | some stored => parseInt (if stored = "" then "0" else stored)
    | none => parseInt "0"
  else some 0

/-- The thrustPower column of the table of applyDifficultySettings. -/
def thrustPower : Difficulty → α
  | Difficulty.easy => 6 / 10
  | Difficulty.normal => 5 / 10
  | Difficulty.hard => 4 / 10

/-- The boostPower entry of the hard row of the table of
applyDifficultySettings. -/
def boostPower : α := 8 / 10

/-- Game.applyDifficultySettings(): thrust and colour of the ship are set and,
when the difficulty is hard, the thrust is raised to boostPower, boostTime is
set to Date.now() and the powerup sound is played. -/
def Game.applyDifficultySettings (H : Host α) (g : Game α) : Game α :=
  let p1 : Player α :=
    { g.player with thrust := thrustPower g.settings.difficulty, color := g.settings.shipColor }
  if g.settings.difficulty = Difficulty.hard then
    Game.playSound Sound.powerup
      { g with player := { p1 with thrust := boostPower, boostTime := some (H.now g.nowCalls) },
               nowCalls := g.nowCalls + 1 }
  else { g with player := p1 }

/-- The statements of restart from the reload of the settings to
applyDifficultySettings. -/
def Game.resetState (H : Host α) (g : Game α) : Game α :=
  Game.applyDifficultySettings H
    { g with
      settings := g.loadSettings
      player := Player.constructor (g.width / 2) (g.height / 2)
      asteroids := []
      bullets := []
      particles := []
      score := 0
      level := 1
      gameOver := false
      paused := false
      keys := fun _ => false
      startTime := H.now g.nowCalls
      nowCalls := g.nowCalls + 1
      elapsedTime := 0
      timeBonus := 0
      comboCount := 0
      lastHitTime := 0 }

/-- The state restart hands to gameLoop: the reset state with the asteroids of
createAsteroids(getAsteroidCount()). -/
def Game.restartReset (H : Host α) (fuel : Nat) (g : Game α) : Option (Game α) :=
  Game.createAsteroids H fuel (Game.resetState H g).getAsteroidCount (Game.resetState H g)

/-- Game.restart(): the reset, the new asteroids and the call of gameLoop, which
runs the first update. -/
def Game.restart (H : Host α) (fuel : Nat) (g : Game α) : Option (Game α) :=
  match Game.restartReset H fuel g with
  | none => none
  | some g1 => Game.gameLoop H fuel g1

/-- The table asteroidCountSettings of applyDifficulty, read at the current
difficulty. -/
def Game.targetCount (g : Game α) : Int :=
  match g.settings.difficulty with
  | Difficulty.easy => ⌊(5 : α) * (7 / 10)⌋
  | Difficulty.normal => 5
  | Difficulty.hard => ⌊(5 : α) * (3 / 2)⌋

/-- The new asteroid of the adding loop of applyDifficulty: a large asteroid
whose velocity is multiplied by the speed multiplier, with the new count of
Math.random calls. -/
def Game.newAsteroid (H : Host α) (x y speedMultiplier : α) (r : Nat) : Asteroid α × Nat :=
  let ar := Asteroid.constructor H x y Size.large r
  ({ ar.1 with velocity := { x := ar.1.velocity.x * speedMultiplier,
                             y := ar.1.velocity.y * speedMultiplier } }, ar.2)

/-- The for loop of applyDifficulty that adds asteroids, with n rounds left:
a position is sampled as in createAsteroids and the new asteroid is pushed. -/
def Game.addAsteroidsLoop (H : Host α) (fuel : Nat) : Nat → Game α → Option (Game α)
  | 0, g => some g
  | n + 1, g =>
    match Game.samplePosition H g fuel g.randomCalls with
    | none => none
    | some (x, y, r) =>
      let ar := Game.newAsteroid H x y (speedMultiplier g.settings.difficulty) r
      Game.addAsteroidsLoop H fuel n
        { g with asteroids := g.asteroids ++ [ar.1], randomCalls := ar.2 }

/-- The last block of applyDifficulty: asteroids are added up to the target
count, or the array is cut at the target count by splice(targetCount). -/
def Game.adjustPopulation (H : Host α) (fuel : Nat) (g : Game α) : Option (Game α) :=
  let targetCount := g.targetCount
  let currentCount : Int := g.asteroids.length
  if currentCount < targetCount then
    Game.addAsteroidsLoop H fuel (targetCount - currentCount).toNat g
  else if currentCount > targetCount then
    some { g with asteroids := g.asteroids.take targetCount.toNat }
  else some g

/-- Game.applyDifficulty(): applyDifficultySettings, the rescaling of the
asteroids (the forEach of updateDifficulty, statement for statement), and the
adjustment of the population. -/
def Game.applyDifficulty (H : Host α) (fuel : Nat) (g : Game α) : Option (Game α) :=
  Game.adjustPopulation H fuel (Game.updateDifficulty H (Game.applyDifficultySettings H g))

/-- The change listener of the difficulty selector. -/
def Game.onDifficultyChange (H : Host α) (fuel : Nat) (value : Difficulty) (g : Game α) :
    Option (Game α) :=
  Game.applyDifficulty H fuel
    (Game.saveSettings { g with settings := { g.settings with difficulty := value } })

/-! ### Vocabulary of the properties and sample inputs -/

/-- Sizes of the fragments a destroyed asteroid of the given size leaves. -/
def fragmentSizes : Size → List Size
  | Size.large => [Size.medium, Size.medium]
  | Size.medium => [Size.small, Size.small]
  | Size.small => []

/-- The test of the ship phase for one asteroid. -/
def shipOverlaps (H : Host α) (p : Player α) (a : Asteroid α) : Prop :=
  Game.distance H p.x p.y a.x a.y < a.radius + 10

instance (H : Host α) (p : Player α) (a : Asteroid α) : Decidable (shipOverlaps H p a) := by
  unfold shipOverlaps
  infer_instance

/-- The test of the projectile scan for one bullet and one asteroid. -/
def bulletOverlaps (H : Host α) (b : Bullet α) (a : Asteroid α) : Prop :=
  Game.distance H b.x b.y a.x a.y < a.radius

/-- Every sampling loop of createAsteroids ends within fuel rounds, wherever it
starts in the sequence of Math.random values. -/
def Game.samplingEnds (H : Host α) (fuel : Nat) (g : Game α) : Prop :=
  ∀ r, (Game.samplePosition H g fuel r).isSome = true

/-- The fields no step of a running update before checkCollisions writes, the
same in both states. -/
def Game.sameCounters (g g1 : Game α) : Prop :=
  g1.width = g.width ∧ g1.height = g.height ∧ g1.level = g.level ∧
  g1.settings = g.settings ∧ g1.comboCount = g.comboCount ∧
  g1.lastHitTime = g.lastHitTime ∧ g1.score = g.score ∧ g1.gameOver = g.gameOver ∧
  g1.paused = g.paused ∧ g1.highScore = g.highScore

/-- The fields checkCollisions never writes, the same in both states. -/
def Game.sameWorld (g g1 : Game α) : Prop :=
  g1.width = g.width ∧ g1.height = g.height ∧ g1.player = g.player ∧
  g1.level = g.level ∧ g1.settings = g.settings ∧ g1.paused = g.paused

/-- A host with the given mathematical functions whose Math.random always
returns 0 and whose n-th Date.now() is 1000 + n. -/
def sampleHost (sqrt cos sin : α → α) (pi : α) : Host α :=
  { sqrt := sqrt, cos := cos, sin := sin, pi := pi, random := fun _ => 0,
    now := fun n => 1000 + (n : Int) }

/-- A game on an 800 by 600 canvas as the constructor leaves it, before any
asteroid is created: ship at the centre, default settings, no stored data. -/
def sampleGame : Game α :=
  { width := 800, height := 600, player := Player.constructor 400 300, asteroids := [],
    bullets := [], score := 0, level := 1, gameOver := false, paused := false,
    keys := fun _ => false, startTime := 0, elapsedTime := 0, timeBonus := 0,
    settings := defaultSettings, highScore := some 0, particles := [], fps := 0,
    frameCount := 0, lastFPSUpdate := 0, audioContext := true, thrustSound := false,
    comboCount := 0, lastHitTime := 0,
    storage := { available := true, asteroidGameSettings := none,
                 asteroidGameHighScore := none },
    randomCalls := 0, nowCalls := 0, soundCalls := [], savedHighScores := [] }

/-- The sample game with two large asteroids, created at (100, 100) and at
(600, 100), and one bullet at the centre of the first. -/
def collisionSample (H : Host α) : Game α :=
  { (sampleGame : Game α) with
    asteroids := [(Asteroid.constructor H 100 100 Size.large 0).1,
                  (Asteroid.constructor H 600 100 Size.large 12).1]
    bullets := [Bullet.constructor 100 100 10 0]
    randomCalls := 24 }

/-- The sample game 2000 ms after a hit that brought the combo counter to 3,
with one large asteroid created at (600, 100) and one bullet shot at
(100, 100): the second Date.now() of the next tick is 2001. -/
def calmSample (H : Host α) : Game α :=
  { (sampleGame : Game α) with
    asteroids := [(Asteroid.constructor H 600 100 Size.large 0).1]
    bullets := [Bullet.constructor 100 100 10 0]
    comboCount := 3
    lastHitTime := 0
    nowCalls := 1000
    randomCalls := 12 }

/-- The input state in which exactly the keys of the list are held. -/
def keysHeld (held : List String) : String → Bool :=
  fun key => decide (key ∈ held)

/-- The sample game whose stored settings select the difficulty hard. -/
def hardSample : Game α :=
  { (sampleGame : Game α) with
    storage := { available := true
                 asteroidGameSettings := some { (defaultSettings : Settings α) with
                                                difficulty := Difficulty.hard }
                 asteroidGameHighScore := none } }

/-- The sample game with the string abc stored as high score. -/
def corruptSample : Game α :=
  { (sampleGame : Game α) with
    storage := { available := true, asteroidGameSettings := none,
                 asteroidGameHighScore := some "abc" } }

/-- The sample game with a small asteroid created at (100, 100), a large one
created at (600, 100), and two bullets, one at the centre of each. -/
def skipSample (H : Host α) : Game α :=
  { (sampleGame : Game α) with
    asteroids := [(Asteroid.constructor H 100 100 Size.small 0).1,
                  (Asteroid.constructor H 600 100 Size.large 12).1]
    bullets := [Bullet.constructor 100 100 10 0, Bullet.constructor 600 100 10 0]
    randomCalls := 24 }

/-- An asteroid as createAsteroids makes it on a canvas of the given size, for a
ship at (px, py): large, radius 40, position a pair of Math.random values scaled
by the canvas size and not closer than 100 to the ship, velocity components
of the form (Math.random() - 0.5) * 3. -/
def Asteroid.spawned (H : Host α) (width height px py : α) (a : Asteroid α) : Prop :=
  a.size = Size.large ∧ a.radius = 40 ∧
  (∃ i, a.x = H.random i * width) ∧ (∃ i, a.y = H.random i * height) ∧
  (∃ i, a.velocity.x = (H.random i - 1 / 2) * 3) ∧
  (∃ i, a.velocity.y = (H.random i - 1 / 2) * 3) ∧
  ¬ Game.distance H a.x a.y px py < 100

/-- The state after n consecutive updates of a game that is running before each
of them; none when the game is over or paused before one of them, or when one
of them does not return. -/
def Game.runningUpdates (H : Host α) (fuel : Nat) : Nat → Game α → Option (Game α)
  | 0, g => some g
  | n + 1, g =>
    if g.gameOver = false ∧ g.paused = false then
      match Game.update H fuel g with
      | none => none
      | some g1 => Game.runningUpdates H fuel n g1
    else none

/-- The sample game in a window of 100 by 100: canvas 100 by 100, ship at the
centre (50, 50), no asteroid, difficulty normal. -/
def smallSample : Game α :=
  { (sampleGame : Game α) with width := 100, height := 100, player := Player.constructor 50 50 }

/-- A host like the sample host, except that the Math.random calls number k and
k + 1 return 0.5: a sampling loop that starts at call k first draws the centre
of the canvas, and draws the corner (0, 0) next. -/
def retryHost (sqrt cos sin : α → α) (pi : α) (k : Nat) : Host α :=
  { sqrt := sqrt, cos := cos, sin := sin, pi := pi,
    random := fun n => if n = k ∨ n = k + 1 then 1 / 2 else 0,
    now := fun n => 1000 + (n : Int) }

end Model

/-! ## Properties -/

section Lemmas

variable {α : Type} [LinearOrderedField α] [FloorRing α]

/-! ### The asteroid constructor and the pushes -/

@[simp] theorem Asteroid.constructor_x (H : Host α) (x y : α) (size : Size) (r : Nat) :
    (Asteroid.constructor H x y size r).1.x = x := rfl

@[simp] theorem Asteroid.constructor_y (H : Host α) (x y : α) (size : Size) (r : Nat) :
    (Asteroid.constructor H x y size r).1.y = y := rfl

@[simp] theorem Asteroid.constructor_size (H : Host α) (x y : α) (size : Size) (r : Nat) :
    (Asteroid.constructor H x y size r).1.size = size := rfl

@[simp] theorem Asteroid.constructor_radius (H : Host α) (x y : α) (size : Size) (r : Nat) :
    (Asteroid.constructor H x y size r).1.radius = Asteroid.radiusOf size := rfl

/-- The explosion loop only appends particles and advances the count of
Math.random calls. -/
theorem Game.createExplosionLoop_eq (H : Host α) (x y : α) (n : Nat) (g : Game α) :
    ∃ ps r, Game.createExplosionLoop H x y n g =
      { g with particles := g.particles ++ ps, randomCalls := r } := by
  induction n generalizing g with
  | zero => exact ⟨[], g.randomCalls, by simp [Game.createExplosionLoop]⟩
  | succ n ih =>
    obtain ⟨ps, r, h⟩ := ih
      { g with particles := g.particles ++ [(Particle.constructor H x y g.randomCalls).1],
               randomCalls := (Particle.constructor H x y g.randomCalls).2 }
    refine ⟨(Particle.constructor H x y g.randomCalls).1 :: ps, r, ?_⟩
    simp only [Game.createExplosionLoop]
    rw [h]
    simp

/-- The first statements of a hit change the bullets, the particles and the
count of Math.random calls only. -/
theorem Game.hitRemoveBullet_eq (H : Host α) (a : Asteroid α) (k : Nat) (g : Game α) :
    ∃ ps r, Game.hitRemoveBullet H a k g =
      { g with bullets := g.bullets.eraseIdx k, particles := g.particles ++ ps,
               randomCalls := r } := by
  unfold Game.hitRemoveBullet
  by_cases hp : g.settings.particles = true
  · obtain ⟨ps, r, h⟩ := Game.createExplosionLoop_eq H a.x a.y ⌊a.radius / 2⌋.toNat
      { g with bullets := g.bullets.eraseIdx k }
    refine ⟨ps, r, ?_⟩
    simp only [hp, if_true, Game.createExplosion]
    rw [h]
  · refine ⟨[], g.randomCalls, ?_⟩
    simp [hp]

/-- The fragment pushes append asteroids of the fragment sizes, at the position
of the destroyed asteroid, and advance the count of Math.random calls. -/
theorem Game.pushFragments_eq (H : Host α) (a : Asteroid α) (g : Game α) :
    ∃ frags r, Game.pushFragments H a g =
        { g with asteroids := g.asteroids ++ frags, randomCalls := r } ∧
      frags.map Asteroid.size = fragmentSizes a.size ∧
      ∀ f ∈ frags, f.x = a.x ∧ f.y = a.y ∧ f.radius = Asteroid.radiusOf f.size := by
  unfold Game.pushFragments
  cases hs : a.size with
  | large =>
    refine ⟨[(Asteroid.constructor H a.x a.y Size.medium g.randomCalls).1,
      (Asteroid.constructor H a.x a.y Size.medium
        (Asteroid.constructor H a.x a.y Size.medium g.randomCalls).2).1],
      (Asteroid.constructor H a.x a.y Size.medium
        (Asteroid.constructor H a.x a.y Size.medium g.randomCalls).2).2, ?_, ?_, ?_⟩
    · simp [Game.pushAsteroid]
    · simp [fragmentSizes]
    · simp
  | medium =>
    refine ⟨[(Asteroid.constructor H a.x a.y Size.small g.randomCalls).1,
      (Asteroid.constructor H a.x a.y Size.small
        (Asteroid.constructor H a.x a.y Size.small g.randomCalls).2).1],
      (Asteroid.constructor H a.x a.y Size.small
        (Asteroid.constructor H a.x a.y Size.small g.randomCalls).2).2, ?_, ?_, ?_⟩
    · simp [Game.pushAsteroid]
    · simp [fragmentSizes]
    · simp
  | small =>
    refine ⟨[], g.randomCalls, ?_, ?_, ?_⟩
    · simp
    · simp [fragmentSizes]
    · simp

/-- Normal form of a hit: what resolveHit changes, field by field. -/
theorem Game.resolveHit_eq (H : Host α) (a : Asteroid α) (k j : Nat) (g : Game α) :
    ∃ ps r frags snds, Game.resolveHit H a k j g =
        { g with
          bullets := g.bullets.eraseIdx k
          particles := g.particles ++ ps
          randomCalls := r
          comboCount := g.comboCount + 1
          lastHitTime := H.now g.nowCalls
          nowCalls := g.nowCalls + 1
          soundCalls := g.soundCalls ++ snds
          asteroids := (g.asteroids ++ frags).eraseIdx j
          score := g.score + Game.points a.size * min (g.comboCount + 1) 5 } ∧
      frags.map Asteroid.size = fragmentSizes a.size ∧
      (∀ f ∈ frags, f.x = a.x ∧ f.y = a.y ∧ f.radius = Asteroid.radiusOf f.size) ∧
      snds.count Sound.explosion = 1 := by
  obtain ⟨ps, r1, h1⟩ := Game.hitRemoveBullet_eq H a k g
  obtain ⟨frags, r2, h3, hsz, hpos⟩ := Game.pushFragments_eq H a
    (Game.hitCombo H (Game.hitRemoveBullet H a k g))
  refine ⟨ps, r2, frags,
    (if g.comboCount + 1 > 1 then [Sound.combo] else []) ++ [Sound.explosion] ++
      (if g.comboCount + 1 = 5 ∨ g.comboCount + 1 = 10 then [Sound.powerup] else []),
    ?_, hsz, hpos, ?_⟩
  · unfold Game.resolveHit
    simp only [h3]
    rw [h1]
    by_cases hc : g.comboCount + 1 > 1 <;>
      by_cases hp : g.comboCount + 1 = 5 ∨ g.comboCount + 1 = 10 <;>
      simp [Game.hitCombo, Game.hitScore, Game.playSound, hc, hp]
  · by_cases hc : g.comboCount + 1 > 1 <;>
      by_cases hp : g.comboCount + 1 = 5 ∨ g.comboCount + 1 = 10 <;>
      simp [hc, hp, List.count_cons, List.count_append]

/-! ### forEach -/

/-- A forEach whose callback changes nothing at the elements it meets changes
nothing. -/
theorem forEachFrom_id {σ β : Type} (arr : σ → List β) (f : β → Nat → σ → σ) (s : σ)
    (hf : ∀ i e, (arr s)[i]? = some e → f e i s = s) (n i : Nat) :
    forEachFrom arr f n i s = s := by
  induction n generalizing i with
  | zero => rfl
  | succ n ih =>
    unfold forEachFrom
    cases he : (arr s)[i]? with
    | none => exact ih (i + 1)
    | some e => simp only [hf i e he]; exact ih (i + 1)

/-- A forEach over a one-element array calls the callback once, at index 0. -/
theorem forEach_singleton {σ β : Type} (arr : σ → List β) (f : β → Nat → σ → σ) (s : σ)
    (e : β) (h : arr s = [e]) : forEach arr f s = f e 0 s := by
  simp [forEach, h, forEachFrom]

/-! ### The ship phase -/

theorem Game.endGame_asteroids (g : Game α) : (Game.endGame g).asteroids = g.asteroids := by
  simp only [Game.endGame]
  split <;> simp [Game.saveHighScore]

theorem Game.endGame_player (g : Game α) : (Game.endGame g).player = g.player := by
  simp only [Game.endGame]
  split <;> simp [Game.saveHighScore]

theorem Game.endGame_gameOver (g : Game α) : (Game.endGame g).gameOver = true := by
  simp only [Game.endGame]
  split <;> simp [Game.saveHighScore]

/-- The ship scan from index i, n indices left: asteroids and ship are kept,
and gameOver is raised exactly when one of the asteroids visited overlaps. -/
theorem Game.checkShip_from (H : Host α) (n i : Nat) (g : Game α) :
    (forEachFrom Game.asteroids (Game.checkShipAgainst H) n i g).asteroids = g.asteroids ∧
    (forEachFrom Game.asteroids (Game.checkShipAgainst H) n i g).player = g.player ∧
    (forEachFrom Game.asteroids (Game.checkShipAgainst H) n i g).gameOver =
      (g.gameOver ||
        ((g.asteroids.drop i).take n).any (fun a => decide (shipOverlaps H g.player a))) := by
  induction n generalizing i g with
  | zero => simp [forEachFrom]
  | succ n ih =>
    unfold forEachFrom
    cases he : g.asteroids[i]? with
    | none =>
      have hlen : g.asteroids.length ≤ i := by
        rcases Nat.lt_or_ge i g.asteroids.length with h | h
        · rw [List.getElem?_eq_getElem h] at he; cases he
        · exact h
      obtain ⟨h1, h2, h3⟩ := ih (i + 1) g
      refine ⟨h1, h2, ?_⟩
      simp only [h3]
      rw [List.drop_eq_nil_of_le hlen, List.drop_eq_nil_of_le (Nat.le_succ_of_le hlen)]
      simp
    | some e =>
      have hlt : i < g.asteroids.length := by
        rcases Nat.lt_or_ge i g.asteroids.length with h | h
        · exact h
        · rw [List.getElem?_eq_none h] at he; cases he
      have hdrop : g.asteroids.drop i = e :: g.asteroids.drop (i + 1) := by
        rw [List.getElem?_eq_getElem hlt] at he
        cases he
        exact List.drop_eq_getElem_cons hlt
      obtain ⟨h1, h2, h3⟩ := ih (i + 1) (Game.checkShipAgainst H e i g)
      have ha : (Game.checkShipAgainst H e i g).asteroids = g.asteroids := by
        unfold Game.checkShipAgainst
        split
        · rw [Game.endGame_asteroids]; rfl
        · rfl
      have hp : (Game.checkShipAgainst H e i g).player = g.player := by
        unfold Game.checkShipAgainst
        split
        · rw [Game.endGame_player]; rfl
        · rfl
      have hg : (Game.checkShipAgainst H e i g).gameOver =
          (g.gameOver || decide (shipOverlaps H g.player e)) := by
        unfold Game.checkShipAgainst shipOverlaps
        split
        · rename_i hov
          rw [Game.endGame_gameOver]
          simp [hov]
        · rename_i hov
          simp [hov]
      refine ⟨h1.trans ha, h2.trans hp, ?_⟩
      simp only [h3, ha, hp, hg, hdrop, List.take_succ_cons, List.any_cons, Bool.or_assoc]

/-- A property kept by every call of the callback is kept by forEach. -/
theorem forEachFrom_invariant {σ β : Type} (arr : σ → List β) (f : β → Nat → σ → σ)
    (P : σ → Prop) (hf : ∀ e i s, P s → P (f e i s)) (n i : Nat) (s : σ) (hs : P s) :
    P (forEachFrom arr f n i s) := by
  induction n generalizing i s with
  | zero => exact hs
  | succ n ih =>
    unfold forEachFrom
    cases (arr s)[i]? with
    | none => exact ih (i + 1) s hs
    | some e => exact ih (i + 1) (f e i s) (hf e i s hs)

/-- The ship phase removes no asteroid: checkCollisions leaves the asteroids of
the projectile phase. -/
theorem Game.checkCollisions_asteroids (H : Host α) (g : Game α) :
    (Game.checkCollisions H g).asteroids = (Game.checkProjectiles H g).asteroids :=
  (Game.checkShip_from H (Game.checkProjectiles H g).asteroids.length 0
    (Game.checkProjectiles H g)).1

/-! ### Frames -/

theorem Game.sameWorld_refl (g : Game α) : Game.sameWorld g g :=
  ⟨rfl, rfl, rfl, rfl, rfl, rfl⟩

theorem Game.sameWorld_trans {g g1 g2 : Game α} (h1 : Game.sameWorld g g1)
    (h2 : Game.sameWorld g1 g2) : Game.sameWorld g g2 := by
  obtain ⟨a1, a2, a3, a4, a5, a6⟩ := h1
  obtain ⟨b1, b2, b3, b4, b5, b6⟩ := h2
  exact ⟨b1.trans a1, b2.trans a2, b3.trans a3, b4.trans a4, b5.trans a5, b6.trans a6⟩

theorem Game.resolveHit_sameWorld (H : Host α) (a : Asteroid α) (k j : Nat) (g : Game α) :
    Game.sameWorld g (Game.resolveHit H a k j g) := by
  obtain ⟨ps, r, frags, snds, heq, -, -, -⟩ := Game.resolveHit_eq H a k j g
  rw [heq]
  exact ⟨rfl, rfl, rfl, rfl, rfl, rfl⟩

theorem Game.checkProjectiles_sameWorld (H : Host α) (g : Game α) :
    Game.sameWorld g (Game.checkProjectiles H g) := by
  unfold Game.checkProjectiles forEach
  refine forEachFrom_invariant Game.bullets (Game.checkBullet H) (Game.sameWorld g) ?_ _ _ g
    (Game.sameWorld_refl g)
  intro b k s hs
  unfold Game.checkBullet forEach
  refine forEachFrom_invariant Game.asteroids (Game.checkPair H b k) (Game.sameWorld g) ?_ _ _ s hs
  intro a j t ht
  unfold Game.checkPair
  split
  · exact Game.sameWorld_trans ht (Game.resolveHit_sameWorld H a k j t)
  · exact ht

/-- The projectile phase does not write gameOver. -/
theorem Game.checkProjectiles_gameOver (H : Host α) (g : Game α) :
    (Game.checkProjectiles H g).gameOver = g.gameOver := by
  unfold Game.checkProjectiles forEach
  refine forEachFrom_invariant Game.bullets (Game.checkBullet H)
    (fun s => s.gameOver = g.gameOver) ?_ _ _ g rfl
  intro b k s hs
  unfold Game.checkBullet forEach
  refine forEachFrom_invariant Game.asteroids (Game.checkPair H b k)
    (fun s => s.gameOver = g.gameOver) ?_ _ _ s hs
  intro a j t ht
  unfold Game.checkPair
  split
  · obtain ⟨ps, r, frags, snds, heq, -, -, -⟩ := Game.resolveHit_eq H a k j t
    rw [heq]
    exact ht
  · exact ht

/-- What endGame after the hit sound keeps. -/
theorem Game.endGame_playSound_frame (g : Game α) :
    Game.sameWorld g (Game.endGame (Game.playSound Sound.hit g)) ∧
    (Game.endGame (Game.playSound Sound.hit g)).comboCount = g.comboCount ∧
    (Game.endGame (Game.playSound Sound.hit g)).lastHitTime = g.lastHitTime ∧
    (Game.endGame (Game.playSound Sound.hit g)).score = g.score ∧
    (Game.endGame (Game.playSound Sound.hit g)).bullets = g.bullets := by
  simp only [Game.endGame]
  split <;> simp [Game.saveHighScore, Game.playSound, Game.sameWorld]

/-- What the ship phase keeps. -/
theorem Game.checkShip_frame (H : Host α) (g : Game α) :
    Game.sameWorld g (Game.checkShip H g) ∧
    (Game.checkShip H g).comboCount = g.comboCount ∧
    (Game.checkShip H g).lastHitTime = g.lastHitTime ∧
    (Game.checkShip H g).score = g.score ∧
    (Game.checkShip H g).bullets = g.bullets := by
  unfold Game.checkShip forEach
  refine forEachFrom_invariant Game.asteroids (Game.checkShipAgainst H)
    (fun s => Game.sameWorld g s ∧ s.comboCount = g.comboCount ∧
      s.lastHitTime = g.lastHitTime ∧ s.score = g.score ∧ s.bullets = g.bullets) ?_ _ _ g
    ⟨Game.sameWorld_refl g, rfl, rfl, rfl, rfl⟩
  rintro a i s ⟨h1, h2, h3, h4, h5⟩
  unfold Game.checkShipAgainst
  split
  · obtain ⟨e1, e2, e3, e4, e5⟩ := Game.endGame_playSound_frame s
    exact ⟨Game.sameWorld_trans h1 e1, e2.trans h2, e3.trans h3, e4.trans h4, e5.trans h5⟩
  · exact ⟨h1, h2, h3, h4, h5⟩

theorem Game.sameCounters_refl (g : Game α) : Game.sameCounters g g :=
  ⟨rfl, rfl, rfl, rfl, rfl, rfl, rfl, rfl, rfl, rfl⟩

theorem Game.sameCounters_trans {g g1 g2 : Game α} (h1 : Game.sameCounters g g1)
    (h2 : Game.sameCounters g1 g2) : Game.sameCounters g g2 := by
  obtain ⟨a1, a2, a3, a4, a5, a6, a7, a8, a9, a10⟩ := h1
  obtain ⟨b1, b2, b3, b4, b5, b6, b7, b8, b9, b10⟩ := h2
  exact ⟨b1.trans a1, b2.trans a2, b3.trans a3, b4.trans a4, b5.trans a5, b6.trans a6,
    b7.trans a7, b8.trans a8, b9.trans a9, b10.trans a10⟩

theorem Game.updateTime_frame (H : Host α) (g : Game α) :
    Game.sameCounters g (Game.updateTime H g) ∧
    (Game.updateTime H g).bullets = g.bullets ∧
    (Game.updateTime H g).asteroids = g.asteroids ∧
    (Game.updateTime H g).player = g.player ∧ (Game.updateTime H g).keys = g.keys ∧
    (Game.updateTime H g).nowCalls = g.nowCalls + 1 :=
  ⟨⟨rfl, rfl, rfl, rfl, rfl, rfl, rfl, rfl, rfl, rfl⟩, rfl, rfl, rfl, rfl, rfl⟩

theorem Game.updateFPS_frame (H : Host α) (g : Game α) :
    Game.sameCounters g (Game.updateFPS H g) ∧
    (Game.updateFPS H g).bullets = g.bullets ∧
    (Game.updateFPS H g).asteroids = g.asteroids ∧
    (Game.updateFPS H g).player = g.player ∧ (Game.updateFPS H g).keys = g.keys ∧
    (Game.updateFPS H g).nowCalls = g.nowCalls + 1 := by
  simp only [Game.updateFPS]
  split <;> exact ⟨⟨rfl, rfl, rfl, rfl, rfl, rfl, rfl, rfl, rfl, rfl⟩, rfl, rfl, rfl, rfl, rfl⟩

theorem Game.updatePlayer_frame (H : Host α) (g : Game α) :
    Game.sameCounters g (Game.updatePlayer H g) ∧
    (Game.updatePlayer H g).bullets = g.bullets ∧
    (Game.updatePlayer H g).asteroids = g.asteroids ∧
    (Game.updatePlayer H g).player =
      (Player.update H g.keys g.width g.height g.player g.nowCalls).1 :=
  ⟨⟨rfl, rfl, rfl, rfl, rfl, rfl, rfl, rfl, rfl, rfl⟩, rfl, rfl, rfl⟩

theorem Game.updateThrustSound_frame (g : Game α) :
    Game.sameCounters g (Game.updateThrustSound g) ∧
    (Game.updateThrustSound g).bullets = g.bullets ∧
    (Game.updateThrustSound g).asteroids = g.asteroids ∧
    (Game.updateThrustSound g).player = g.player := by
  simp only [Game.updateThrustSound]
  split <;> exact ⟨⟨rfl, rfl, rfl, rfl, rfl, rfl, rfl, rfl, rfl, rfl⟩, rfl, rfl, rfl⟩

theorem Game.updateBullets_frame (g : Game α) :
    Game.sameCounters g (Game.updateBullets g) ∧
    (Game.updateBullets g).bullets = (g.bullets.map Bullet.update).filter g.bulletAlive ∧
    (Game.updateBullets g).asteroids = g.asteroids ∧
    (Game.updateBullets g).player = g.player :=
  ⟨⟨rfl, rfl, rfl, rfl, rfl, rfl, rfl, rfl, rfl, rfl⟩, rfl, rfl, rfl⟩

theorem Game.updateAsteroids_frame (g : Game α) :
    Game.sameCounters g (Game.updateAsteroids g) ∧
    (Game.updateAsteroids g).bullets = g.bullets ∧
    (Game.updateAsteroids g).asteroids = g.asteroids.map (Asteroid.update g.width g.height) ∧
    (Game.updateAsteroids g).player = g.player :=
  ⟨⟨rfl, rfl, rfl, rfl, rfl, rfl, rfl, rfl, rfl, rfl⟩, rfl, rfl, rfl⟩

theorem Game.updateParticles_frame (g : Game α) :
    Game.sameCounters g (Game.updateParticles g) ∧
    (Game.updateParticles g).bullets = g.bullets ∧
    (Game.updateParticles g).asteroids = g.asteroids ∧
    (Game.updateParticles g).player = g.player := by
  simp only [Game.updateParticles]
  split <;> exact ⟨⟨rfl, rfl, rfl, rfl, rfl, rfl, rfl, rfl, rfl, rfl⟩, rfl, rfl, rfl⟩

theorem Game.bulletAlive_congr {g g1 : Game α} (hw : g1.width = g.width)
    (hh : g1.height = g.height) : g1.bulletAlive = g.bulletAlive := by
  funext b
  simp [Game.bulletAlive, hw, hh]

/-- What the steps of update before checkCollisions keep, and what they do to
the bullets, the asteroids and the ship. -/
theorem Game.updateEntities_frame (H : Host α) (g : Game α) :
    Game.sameCounters g (Game.updateEntities H g) ∧
    (Game.updateEntities H g).bullets = (g.bullets.map Bullet.update).filter g.bulletAlive ∧
    (Game.updateEntities H g).asteroids = g.asteroids.map (Asteroid.update g.width g.height) ∧
    (Game.updateEntities H g).player =
      (Player.update H g.keys g.width g.height g.player (g.nowCalls + 2)).1 := by
  obtain ⟨c1, b1, a1, p1, k1, n1⟩ := Game.updateTime_frame H g
  obtain ⟨c2, b2, a2, p2, k2, n2⟩ := Game.updateFPS_frame H (Game.updateTime H g)
  obtain ⟨c3, b3, a3, p3⟩ := Game.updatePlayer_frame H (Game.updateFPS H (Game.updateTime H g))
  obtain ⟨c4, b4, a4, p4⟩ := Game.updateThrustSound_frame
    (Game.updatePlayer H (Game.updateFPS H (Game.updateTime H g)))
  obtain ⟨c5, b5, a5, p5⟩ := Game.updateBullets_frame (Game.updateThrustSound
    (Game.updatePlayer H (Game.updateFPS H (Game.updateTime H g))))
  obtain ⟨c6, b6, a6, p6⟩ := Game.updateAsteroids_frame (Game.updateBullets
    (Game.updateThrustSound (Game.updatePlayer H (Game.updateFPS H (Game.updateTime H g)))))
  obtain ⟨c7, b7, a7, p7⟩ := Game.updateParticles_frame (Game.updateAsteroids
    (Game.updateBullets (Game.updateThrustSound
      (Game.updatePlayer H (Game.updateFPS H (Game.updateTime H g))))))
  have c12 := Game.sameCounters_trans c1 c2
  have c14 := Game.sameCounters_trans (Game.sameCounters_trans c12 c3) c4
  have c15 := Game.sameCounters_trans c14 c5
  refine ⟨Game.sameCounters_trans (Game.sameCounters_trans c15 c6) c7, ?_, ?_, ?_⟩
  · show (Game.updateParticles _).bullets = _
    rw [b7, b6, b5, b4, b3, b2, b1, Game.bulletAlive_congr c14.1 c14.2.1]
  · show (Game.updateParticles _).asteroids = _
    rw [a7, a6, a5, a4, a3, a2, a1, c15.1, c15.2.1]
  · show (Game.updateParticles _).player = _
    rw [p7, p6, p5, p4, p3, k2, k1, p2, p1, n2, n1, c12.1, c12.2.1]

/-! ### Spawning -/

theorem Game.samplePosition_congr (H : Host α) {g g1 : Game α} (hw : g1.width = g.width)
    (hh : g1.height = g.height) (hp : g1.player = g.player) (fuel r : Nat) :
    Game.samplePosition H g1 fuel r = Game.samplePosition H g fuel r := by
  induction fuel generalizing r with
  | zero => rfl
  | succ fuel ih =>
    simp only [Game.samplePosition, hw, hh, hp, ih]

theorem Game.samplingEnds_congr (H : Host α) (g g1 : Game α) (fuel : Nat)
    (hw : g1.width = g.width) (hh : g1.height = g.height) (hp : g1.player = g.player)
    (hs : Game.samplingEnds H fuel g) : Game.samplingEnds H fuel g1 := by
  intro r
  rw [Game.samplePosition_congr H hw hh hp]
  exact hs r

/-- A position returned by the sampling loop is not closer than 100 to the
ship. -/
theorem Game.samplePosition_far (H : Host α) (g : Game α) (fuel r : Nat) (x y : α) (r1 : Nat)
    (h : Game.samplePosition H g fuel r = some (x, y, r1)) :
    ¬ Game.distance H x y g.player.x g.player.y < 100 := by
  induction fuel generalizing r with
  | zero => simp [Game.samplePosition] at h
  | succ fuel ih =>
    simp only [Game.samplePosition] at h
    split at h
    · exact ih _ h
    · rename_i hfar
      simp only [Option.some.injEq, Prod.mk.injEq] at h
      obtain ⟨hx, hy, -⟩ := h
      rw [← hx, ← hy]
      exact hfar

/-- When the sampling loops end, createAsteroids appends count asteroids, all
large and none closer than 100 to the ship, and only advances the count of
Math.random calls besides. -/
theorem Game.createAsteroidsLoop_eq (H : Host α) (fuel count : Nat) (g : Game α)
    (hs : Game.samplingEnds H fuel g) :
    ∃ new r, Game.createAsteroidsLoop H fuel count g =
        some { g with asteroids := g.asteroids ++ new, randomCalls := r } ∧
      new.length = count ∧
      ∀ a ∈ new, a.size = Size.large ∧ a.radius = 40 ∧
        ¬ Game.distance H a.x a.y g.player.x g.player.y < 100 := by
  induction count generalizing g with
  | zero =>
    exact ⟨[], g.randomCalls, by simp [Game.createAsteroidsLoop], rfl, by simp⟩
  | succ count ih =>
    have hsome := hs g.randomCalls
    cases hsp : Game.samplePosition H g fuel g.randomCalls with
    | none => rw [hsp] at hsome; cases hsome
    | some xyr =>
      obtain ⟨x, y, r⟩ := xyr
      have hfar := Game.samplePosition_far H g fuel g.randomCalls x y r hsp
      obtain ⟨new, r2, heq, hlen, hall⟩ :=
        ih (Game.pushAsteroid H x y Size.large { g with randomCalls := r })
          (Game.samplingEnds_congr H g _ fuel rfl rfl rfl hs)
      refine ⟨(Asteroid.constructor H x y Size.large r).1 :: new, r2, ?_, ?_, ?_⟩
      · simp only [Game.createAsteroidsLoop, hsp]
        rw [heq]
        simp [Game.pushAsteroid]
      · simp [hlen]
      · intro a ha
        rcases List.mem_cons.mp ha with h | h
        · subst h
          refine ⟨rfl, ?_, ?_⟩
          · simp [Asteroid.radiusOf]
          · simpa using hfar
        · exact hall a h

/-- The table of getAsteroidCount: 3, 5 and 7. -/
theorem Game.getAsteroidCount_eq (g : Game α) :
    g.getAsteroidCount =
      match g.settings.difficulty with
      | Difficulty.easy => 3
      | Difficulty.normal => 5
      | Difficulty.hard => 7 := by
  unfold Game.getAsteroidCount
  cases g.settings.difficulty
  · show ⌊(5 : α) * (7 / 10)⌋ = 3
    rw [Int.floor_eq_iff]
    constructor <;> norm_num
  · show ⌊(5 : α) * 1⌋ = 5
    rw [Int.floor_eq_iff]
    constructor <;> norm_num
  · show ⌊(5 : α) * (3 / 2)⌋ = 7
    rw [Int.floor_eq_iff]
    constructor <;> norm_num

/-- The level-up block with asteroids left: nothing happens. -/
theorem Game.levelUp_nonempty (H : Host α) (fuel : Nat) (g : Game α) (h : g.asteroids ≠ []) :
    Game.levelUp H fuel g = some g := by
  have : ¬ g.asteroids.length = 0 := fun h0 => h (List.length_eq_zero.mp h0)
  simp [Game.levelUp, this]

/-- The level-up block with no asteroid left. -/
theorem Game.levelUp_empty (H : Host α) (fuel : Nat) (g : Game α) (h : g.asteroids = [])
    (hs : Game.samplingEnds H fuel g) :
    ∃ new r, Game.levelUp H fuel g =
        some { g with level := g.level + 1, soundCalls := g.soundCalls ++ [Sound.levelup],
                      asteroids := new, randomCalls := r } ∧
      new.length = (min 8 (g.getAsteroidCount + Int.fdiv (g.level + 1) 2)).toNat ∧
      ∀ a ∈ new, a.size = Size.large ∧ a.radius = 40 ∧
        ¬ Game.distance H a.x a.y g.player.x g.player.y < 100 := by
  obtain ⟨new, r, heq, hlen, hall⟩ := Game.createAsteroidsLoop_eq H fuel
    (min 8 (g.getAsteroidCount + Int.fdiv (g.level + 1) 2)).toNat
    (Game.playSound Sound.levelup { g with level := g.level + 1 })
    (Game.samplingEnds_congr H g _ fuel rfl rfl rfl hs)
  refine ⟨new, r, ?_, hlen, hall⟩
  have h0 : g.asteroids.length = 0 := by rw [h]; rfl
  simp only [Game.levelUp, h0, if_true, Game.createAsteroids]
  have hc : (Game.playSound Sound.levelup { g with level := g.level + 1 }).getAsteroidCount =
      g.getAsteroidCount := rfl
  have hl : (Game.playSound Sound.levelup { g with level := g.level + 1 }).level =
      g.level + 1 := rfl
  rw [hc, hl, heq]
  simp [Game.playSound, h]

theorem Game.checkCollisions_frame (H : Host α) (g : Game α) :
    Game.sameWorld g (Game.checkCollisions H g) :=
  Game.sameWorld_trans (Game.checkProjectiles_sameWorld H g)
    (Game.checkShip_frame H (Game.checkProjectiles H g)).1

/-- With no bullet within the radius of an asteroid the projectile phase
changes nothing. -/
theorem Game.checkProjectiles_no_overlap (H : Host α) (g : Game α)
    (hno : ∀ b ∈ g.bullets, ∀ a ∈ g.asteroids, ¬ bulletOverlaps H b a) :
    Game.checkProjectiles H g = g := by
  unfold Game.checkProjectiles forEach
  apply forEachFrom_id
  intro k b hb
  unfold Game.checkBullet forEach
  apply forEachFrom_id
  intro j a ha
  have hbm : b ∈ g.bullets := List.getElem?_mem hb
  have ham : a ∈ g.asteroids := List.getElem?_mem ha
  have := hno b hbm a ham
  unfold bulletOverlaps at this
  simp [Game.checkPair, this]

theorem Game.resetCombo_frame (now : Int) (g : Game α) :
    Game.sameWorld g (Game.resetCombo now g) ∧
    (Game.resetCombo now g).asteroids = g.asteroids ∧
    (Game.resetCombo now g).lastHitTime = g.lastHitTime ∧
    (Game.resetCombo now g).comboCount =
      if now - g.lastHitTime > 2000 then 0 else g.comboCount := by
  simp only [Game.resetCombo]
  split <;> exact ⟨⟨rfl, rfl, rfl, rfl, rfl, rfl⟩, rfl, rfl, rfl⟩

theorem Game.rescale_size (H : Host α) (d : Difficulty) (a : Asteroid α) :
    (Game.rescale H d a).size = a.size := by
  simp only [Game.rescale]
  split <;> rfl

/-- A running update is the level-up block and updateDifficulty after the
steps up to checkCollisions and the combo reset. -/
theorem Game.update_running (H : Host α) (fuel : Nat) (g : Game α)
    (hrun : g.gameOver = false ∧ g.paused = false) :
    Game.update H fuel g =
      (Game.levelUp H fuel
        (Game.resetCombo (Game.tickNow H g) (Game.updateToCollisions H g))).map
        (Game.updateDifficulty H) := by
  simp only [Game.update, hrun.1, hrun.2, Bool.or_self, Bool.false_eq_true, if_false]
  cases Game.levelUp H fuel
    (Game.resetCombo (Game.tickNow H g) (Game.updateToCollisions H g)) <;> rfl

/-- The state after the combo reset has the world of the state on which
checkCollisions was called. -/
theorem Game.afterReset_sameWorld (H : Host α) (g : Game α) :
    Game.sameWorld (Game.updateEntities H g)
      (Game.resetCombo (Game.tickNow H g) (Game.updateToCollisions H g)) :=
  Game.sameWorld_trans (Game.checkCollisions_frame H (Game.updateEntities H g))
    (Game.resetCombo_frame _ _).1

/-! ### One bullet, two hits -/

/-- A list whose image is a pair is a pair. -/
theorem list_map_eq_pair {β γ : Type} (f : β → γ) (l : List β) (c1 c2 : γ)
    (h : l.map f = [c1, c2]) : ∃ x y, l = [x, y] ∧ f x = c1 ∧ f y = c2 := by
  rcases l with _ | ⟨x, _ | ⟨y, _ | ⟨z, t⟩⟩⟩
  · simp at h
  · simp at h
  · simp only [List.map_cons, List.map_nil, List.cons.injEq, and_true] at h
    exact ⟨x, y, rfl, h.1, h.2⟩
  · simp at h

/-- A bullet close to the centre of a large asteroid that is not the last of
the array destroys, in the same scan, the asteroid and the first of its two
fragments: the fragment is pushed at the end of the array and reaches an index
that the scan has still to visit. -/
theorem Game.checkProjectiles_double_hit (H : Host α) (g : Game α) (b : Bullet α)
    (A B : Asteroid α) (hb : g.bullets = [b]) (ha : g.asteroids = [A, B])
    (hsz : A.size = Size.large) (hA : Game.distance H b.x b.y A.x A.y < A.radius)
    (hM : Game.distance H b.x b.y A.x A.y < 25) :
    (Game.checkProjectiles H g).asteroids.map Asteroid.size =
      [B.size, Size.medium, Size.small, Size.small] ∧
    (Game.checkProjectiles H g).comboCount = g.comboCount + 2 ∧
    (Game.checkProjectiles H g).score =
      g.score + 20 * min (g.comboCount + 1) 5 + 50 * min (g.comboCount + 2) 5 ∧
    (Game.checkProjectiles H g).soundCalls.count Sound.explosion =
      g.soundCalls.count Sound.explosion + 2 := by
  obtain ⟨ps1, r1, frags1, snds1, heq1, hs1, hp1, hc1⟩ := Game.resolveHit_eq H A 0 0 g
  rw [hsz] at hs1
  obtain ⟨M1, M2, rfl, hm⟩ := list_map_eq_pair _ frags1 _ _ hs1
  obtain ⟨hM1x, hM1y, hM1r⟩ := hp1 M1 (by simp)
  have hM1 : Game.distance H b.x b.y M1.x M1.y < M1.radius := by
    rw [hM1x, hM1y, hM1r, hm.1]
    simpa [Asteroid.radiusOf] using hM
  have hg1a : (Game.resolveHit H A 0 0 g).asteroids = [B, M1, M2] := by
    rw [heq1, ha]; rfl
  obtain ⟨ps2, r2, frags2, snds2, heq2, hs2, hp2, hc2⟩ :=
    Game.resolveHit_eq H M1 0 1 (Game.resolveHit H A 0 0 g)
  rw [hm.1] at hs2
  have hrun : Game.checkProjectiles H g =
      Game.resolveHit H M1 0 1 (Game.resolveHit H A 0 0 g) := by
    have h1 : Game.checkProjectiles H g = Game.checkBullet H b 0 g :=
      forEach_singleton Game.bullets (Game.checkBullet H) g b hb
    rw [h1]
    simp only [Game.checkBullet, forEach, ha, List.length_cons, List.length_nil, forEachFrom,
      List.getElem?_cons_zero, Game.checkPair, hA, if_true, hg1a, List.getElem?_cons_succ, hM1]
  rw [hrun, heq2]
  refine ⟨?_, ?_, ?_, ?_⟩
  · show List.map Asteroid.size (((Game.resolveHit H A 0 0 g).asteroids ++ frags2).eraseIdx 1) = _
    rw [hg1a]
    obtain ⟨S1, S2, rfl, h⟩ := list_map_eq_pair _ frags2 _ _ hs2
    simp [List.eraseIdx, hm.2, h.1, h.2]
  · show (Game.resolveHit H A 0 0 g).comboCount + 1 = _
    rw [heq1]
    show g.comboCount + 1 + 1 = _
    ring
  · show (Game.resolveHit H A 0 0 g).score +
      Game.points M1.size * min ((Game.resolveHit H A 0 0 g).comboCount + 1) 5 = _
    rw [heq1, hm.1, hsz]
    show g.score + 20 * min (g.comboCount + 1) 5 + 50 * min (g.comboCount + 1 + 1) 5 = _
    rw [show g.comboCount + 1 + 1 = g.comboCount + 2 by ring]
  · show ((Game.resolveHit H A 0 0 g).soundCalls ++ snds2).count Sound.explosion = _
    rw [heq1]
    show ((g.soundCalls ++ snds1) ++ snds2).count Sound.explosion = _
    rw [List.count_append, List.count_append, hc1, hc2]

/-! ### The sample inputs, over the reals -/

theorem sample_distance_zero :
    Game.distance (sampleHost Real.sqrt Real.cos Real.sin Real.pi) 100 100 100 100 = 0 := by
  simp [Game.distance, sampleHost]

theorem sample_distance_far :
    Game.distance (sampleHost Real.sqrt Real.cos Real.sin Real.pi) 100 100 600 100 = 500 := by
  simp only [Game.distance, sampleHost]
  rw [show ((600 : ℝ) - 100) ^ 2 + (100 - 100) ^ 2 = 500 ^ 2 by norm_num]
  exact Real.sqrt_sq (by norm_num)

/-- The ship of the sample game stays at (400, 300) when no key is held. -/
theorem sample_player_rest (n : Nat) :
    (Player.update (sampleHost Real.sqrt Real.cos Real.sin Real.pi) (fun _ => false) 800 600
      (Player.constructor 400 300) n).1.x = 400 ∧
    (Player.update (sampleHost Real.sqrt Real.cos Real.sin Real.pi) (fun _ => false) 800 600
      (Player.constructor 400 300) n).1.y = 300 := by
  constructor <;>
    norm_num [Player.update, Player.expireBoost, Player.boostTimeTruthy, Player.turn,
      Player.accelerate, Player.move, Player.wrapX, Player.wrapY, Player.constructor]

/-- With Math.random constantly 0 every sampling loop ends at its first draw,
the point (0, 0), which is 500 away from the ship at (400, 300). -/
theorem sample_samplingEnds (g : Game ℝ) (hw : g.width = 800) (hh : g.height = 600)
    (hp : g.player = Player.constructor 400 300) (hk : g.keys = fun _ => false) :
    Game.samplingEnds (sampleHost Real.sqrt Real.cos Real.sin Real.pi) 1
      (Game.updateEntities (sampleHost Real.sqrt Real.cos Real.sin Real.pi) g) := by
  intro r
  obtain ⟨hc, -, -, hpl⟩ :=
    Game.updateEntities_frame (sampleHost Real.sqrt Real.cos Real.sin Real.pi) g
  have hx := (sample_player_rest (g.nowCalls + 2)).1
  have hy := (sample_player_rest (g.nowCalls + 2)).2
  have hd : ¬ Game.distance (sampleHost Real.sqrt Real.cos Real.sin Real.pi) 0 0 400 300 < 100 := by
    simp only [Game.distance, sampleHost]
    rw [show ((400 : ℝ) - 0) ^ 2 + (300 - 0) ^ 2 = 500 ^ 2 by norm_num,
      Real.sqrt_sq (by norm_num)]
    norm_num
  simp only [Game.samplePosition]
  rw [hpl, hk, hw, hh, hp, hx, hy]
  have h0 : (sampleHost Real.sqrt Real.cos Real.sin Real.pi).random r = 0 := rfl
  have h1 : (sampleHost Real.sqrt Real.cos Real.sin Real.pi).random (r + 1) = 0 := rfl
  rw [h0, h1, zero_mul, zero_mul, if_neg hd]
  rfl

/-- In the tick of the calm sample the bullet, moved to (110, 100), is not
within the radius of the asteroid, moved to (598.5, 98.5). -/
theorem calmSample_no_overlap :
    ∀ b ∈ (Game.updateEntities (sampleHost Real.sqrt Real.cos Real.sin Real.pi)
        (calmSample (sampleHost Real.sqrt Real.cos Real.sin Real.pi))).bullets,
      ∀ a ∈ (Game.updateEntities (sampleHost Real.sqrt Real.cos Real.sin Real.pi)
        (calmSample (sampleHost Real.sqrt Real.cos Real.sin Real.pi))).asteroids,
      ¬ bulletOverlaps (sampleHost Real.sqrt Real.cos Real.sin Real.pi) b a := by
  obtain ⟨-, hb, ha, -⟩ := Game.updateEntities_frame
    (sampleHost Real.sqrt Real.cos Real.sin Real.pi)
    (calmSample (sampleHost Real.sqrt Real.cos Real.sin Real.pi))
  intro b hbm a ham
  rw [hb] at hbm
  rw [ha] at ham
  have hb1 : b.x = 110 ∧ b.y = 100 := by
    have := List.mem_of_mem_filter hbm
    simp only [calmSample, List.map_cons, List.map_nil, List.mem_singleton] at this
    subst this
    constructor <;> norm_num [Bullet.update, Bullet.constructor]
  have ha1 : a.x = 1197 / 2 ∧ a.y = 197 / 2 ∧ a.radius = 40 := by
    simp only [calmSample, List.map_cons, List.map_nil, List.mem_singleton] at ham
    subst ham
    refine ⟨?_, ?_, ?_⟩ <;>
      norm_num [Asteroid.update, Asteroid.constructor, Asteroid.radiusOf, sampleHost, sampleGame]
  unfold bulletOverlaps Game.distance
  rw [hb1.1, hb1.2, ha1.1, ha1.2.1, ha1.2.2, not_lt]
  show (40 : ℝ) ≤ Real.sqrt _
  apply Real.le_sqrt_of_sq_le
  norm_num

/-! ### Bullets -/

/-- The test of the bullet filter, spelled out. -/
theorem Game.bulletAlive_iff (g : Game α) (b : Bullet α) :
    g.bulletAlive b = true ↔
      b.life > 0 ∧ b.x > 0 ∧ b.x < g.width ∧ b.y > 0 ∧ b.y < g.height := by
  simp [Game.bulletAlive, and_assoc]

/-- A hit only removes bullets. -/
theorem Game.resolveHit_bullets (H : Host α) (a : Asteroid α) (k j : Nat) (g : Game α) :
    (Game.resolveHit H a k j g).bullets = g.bullets.eraseIdx k := by
  obtain ⟨ps, r, frags, snds, heq, -, -, -⟩ := Game.resolveHit_eq H a k j g
  rw [heq]

/-- The projectile phase only removes bullets. -/
theorem Game.checkProjectiles_bullets_sublist (H : Host α) (g : Game α) :
    List.Sublist (Game.checkProjectiles H g).bullets g.bullets := by
  unfold Game.checkProjectiles forEach
  refine forEachFrom_invariant Game.bullets (Game.checkBullet H)
    (fun s => List.Sublist s.bullets g.bullets) ?_ _ _ g (List.Sublist.refl _)
  intro b k s hs
  unfold Game.checkBullet forEach
  refine forEachFrom_invariant Game.asteroids (Game.checkPair H b k)
    (fun s => List.Sublist s.bullets g.bullets) ?_ _ _ s hs
  intro a j t ht
  unfold Game.checkPair
  split
  · rw [Game.resolveHit_bullets]
    exact (List.eraseIdx_sublist _ _).trans ht
  · exact ht

/-- The steps of update after checkCollisions keep the bullets. -/
theorem Game.update_bullets (H : Host α) (fuel : Nat) (g g1 : Game α)
    (hrun : g.gameOver = false ∧ g.paused = false) (h : Game.update H fuel g = some g1) :
    g1.bullets = (Game.updateToCollisions H g).bullets := by
  rw [Game.update_running H fuel g hrun] at h
  have hr : (Game.resetCombo (Game.tickNow H g) (Game.updateToCollisions H g)).bullets =
      (Game.updateToCollisions H g).bullets := by
    simp only [Game.resetCombo]
    split <;> rfl
  have hl : ∀ s s1 : Game α, Game.levelUp H fuel s = some s1 → s1.bullets = s.bullets := by
    intro s s1 hs
    simp only [Game.levelUp] at hs
    split at hs
    · have hc : ∀ (n : Nat) (t t1 : Game α), Game.createAsteroidsLoop H fuel n t = some t1 →
          t1.bullets = t.bullets := by
        intro n
        induction n with
        | zero =>
          intro t t1 ht
          simp only [Game.createAsteroidsLoop, Option.some.injEq] at ht
          rw [← ht]
        | succ n ih =>
          intro t t1 ht
          simp only [Game.createAsteroidsLoop] at ht
          split at ht
          · cases ht
          · exact (ih _ _ ht).trans rfl
      exact (hc _ _ _ hs).trans rfl
    · simp only [Option.some.injEq] at hs
      rw [← hs]
  cases hlu : Game.levelUp H fuel
      (Game.resetCombo (Game.tickNow H g) (Game.updateToCollisions H g)) with
  | none => rw [hlu] at h; cases h
  | some s1 =>
    rw [hlu] at h
    simp only [Option.map_some', Option.some.injEq] at h
    rw [← h]
    show s1.bullets = _
    rw [hl _ _ hlu, hr]

/-- After a running update every bullet is a bullet of the state before,
advanced once, that passed the filter. -/
theorem Game.update_bullets_sublist (H : Host α) (fuel : Nat) (g g1 : Game α)
    (hrun : g.gameOver = false ∧ g.paused = false) (h : Game.update H fuel g = some g1) :
    List.Sublist g1.bullets ((g.bullets.map Bullet.update).filter g.bulletAlive) := by
  rw [Game.update_bullets H fuel g g1 hrun h]
  obtain ⟨-, hb, -, -⟩ := Game.updateEntities_frame H g
  obtain ⟨-, -, -, -, hsb⟩ := Game.checkShip_frame H
    (Game.checkProjectiles H (Game.updateEntities H g))
  show List.Sublist (Game.checkShip H (Game.checkProjectiles H (Game.updateEntities H g))).bullets _
  rw [hsb, ← hb]
  exact Game.checkProjectiles_bullets_sublist H _

/-- After n passes of the bullet filter every bullet left has lost n of its
life and still has a positive life. -/
theorem Game.updateBullets_iterate_life (n : Nat) (g : Game α) :
    ∀ b ∈ (Game.updateBullets^[n] g).bullets,
      ∃ b0 ∈ g.bullets, b.life = b0.life - n ∧ (0 < n → 0 < b.life) := by
  induction n generalizing g with
  | zero =>
    intro b hb
    exact ⟨b, hb, by simp, fun h => absurd h (lt_irrefl 0)⟩
  | succ n ih =>
    intro b hb
    rw [Function.iterate_succ_apply'] at hb
    have hb1 : b ∈ ((Game.updateBullets^[n] g).bullets.map Bullet.update).filter
        (Game.updateBullets^[n] g).bulletAlive := hb
    rw [List.mem_filter] at hb1
    obtain ⟨hmem, halive⟩ := hb1
    obtain ⟨b1, hb1m, rfl⟩ := List.mem_map.mp hmem
    obtain ⟨b0, hb0, hlife, -⟩ := ih g b1 hb1m
    refine ⟨b0, hb0, ?_, fun _ => ?_⟩
    · show b1.life - 1 = _
      rw [hlife]
      push_cast
      ring
    · exact ((Game.bulletAlive_iff _ _).mp halive).1

/-- Whenever createAsteroids returns, it has appended count asteroids, all
large and none closer than 100 to the ship, and has only advanced the count of
Math.random calls besides. -/
theorem Game.createAsteroidsLoop_some (H : Host α) (fuel count : Nat) (g g1 : Game α)
    (h : Game.createAsteroidsLoop H fuel count g = some g1) :
    ∃ new r, g1 = { g with asteroids := g.asteroids ++ new, randomCalls := r } ∧
      new.length = count ∧
      ∀ a ∈ new, a.size = Size.large ∧ a.radius = 40 ∧
        ¬ Game.distance H a.x a.y g.player.x g.player.y < 100 := by
  induction count generalizing g with
  | zero =>
    simp only [Game.createAsteroidsLoop, Option.some.injEq] at h
    exact ⟨[], g.randomCalls, by rw [← h]; simp, rfl, by simp⟩
  | succ count ih =>
    simp only [Game.createAsteroidsLoop] at h
    cases hsp : Game.samplePosition H g fuel g.randomCalls with
    | none => rw [hsp] at h; cases h
    | some xyr =>
      obtain ⟨x, y, r⟩ := xyr
      rw [hsp] at h
      have hfar := Game.samplePosition_far H g fuel g.randomCalls x y r hsp
      obtain ⟨new, r2, heq, hlen, hall⟩ := ih _ h
      refine ⟨(Asteroid.constructor H x y Size.large r).1 :: new, r2, ?_, ?_, ?_⟩
      · rw [heq]
        simp [Game.pushAsteroid]
      · simp [hlen]
      · intro a ha
        rcases List.mem_cons.mp ha with h1 | h1
        · subst h1
          refine ⟨rfl, ?_, ?_⟩
          · simp [Asteroid.radiusOf]
          · simpa using hfar
        · exact hall a h1

/-! ### The boost -/

/-- Player.update never writes thrust, boostTime or boostDuration after the
boost check. -/
theorem Player.update_boost_fields (H : Host α) (keys : String → Bool) (W Ht : α)
    (p : Player α) (n : Nat) :
    (Player.update H keys W Ht p n).1.thrust = (p.expireBoost (H.now n)).thrust ∧
    (Player.update H keys W Ht p n).1.boostTime = (p.expireBoost (H.now n)).boostTime ∧
    (Player.update H keys W Ht p n).1.boostDuration =
      (p.expireBoost (H.now n)).boostDuration := by
  have hturn : ∀ (held : Bool) (delta : α) (q : Player α),
      (Player.turn held delta q).thrust = q.thrust ∧
      (Player.turn held delta q).boostTime = q.boostTime ∧
      (Player.turn held delta q).boostDuration = q.boostDuration := by
    intro held delta q
    simp only [Player.turn]
    split <;> exact ⟨rfl, rfl, rfl⟩
  have hacc : ∀ (held : Bool) (q : Player α),
      (Player.accelerate H held q).thrust = q.thrust ∧
      (Player.accelerate H held q).boostTime = q.boostTime ∧
      (Player.accelerate H held q).boostDuration = q.boostDuration := by
    intro held q
    simp only [Player.accelerate]
    split <;> exact ⟨rfl, rfl, rfl⟩
  have hwx : ∀ (q : Player α), (Player.wrapX W q).thrust = q.thrust ∧
      (Player.wrapX W q).boostTime = q.boostTime ∧
      (Player.wrapX W q).boostDuration = q.boostDuration := by
    intro q
    simp only [Player.wrapX]
    split <;> split <;> exact ⟨rfl, rfl, rfl⟩
  have hwy : ∀ (q : Player α), (Player.wrapY Ht q).thrust = q.thrust ∧
      (Player.wrapY Ht q).boostTime = q.boostTime ∧
      (Player.wrapY Ht q).boostDuration = q.boostDuration := by
    intro q
    simp only [Player.wrapY]
    split <;> split <;> exact ⟨rfl, rfl, rfl⟩
  have hmove : ∀ (q : Player α), q.move.thrust = q.thrust ∧ q.move.boostTime = q.boostTime ∧
      q.move.boostDuration = q.boostDuration := fun q => ⟨rfl, rfl, rfl⟩
  simp only [Player.update]
  refine ⟨?_, ?_, ?_⟩
  · rw [(hwy _).1, (hwx _).1, (hmove _).1, (hacc _ _).1, (hturn _ _ _).1, (hturn _ _ _).1,
      (hacc _ _).1, (hturn _ _ _).1, (hturn _ _ _).1]
  · rw [(hwy _).2.1, (hwx _).2.1, (hmove _).2.1, (hacc _ _).2.1, (hturn _ _ _).2.1,
      (hturn _ _ _).2.1, (hacc _ _).2.1, (hturn _ _ _).2.1, (hturn _ _ _).2.1]
  · rw [(hwy _).2.2, (hwx _).2.2, (hmove _).2.2, (hacc _ _).2.2, (hturn _ _ _).2.2,
      (hturn _ _ _).2.2, (hacc _ _).2.2, (hturn _ _ _).2.2, (hturn _ _ _).2.2]

/-- With boostDuration undefined the boost check of Player.update never
fires, whatever the clock reads. -/
theorem Player.expireBoost_undefined (p : Player α) (now : Int) (h : p.boostDuration = none) :
    p.expireBoost now = p := by
  have : p.boostElapsed now = false := by
    simp only [Player.boostElapsed, h]
    cases p.boostTime <;> rfl
  simp [Player.expireBoost, this]

/-- No statement of the game assigns boostDuration: the ship of the reset state
has it undefined, and after a reset under hard its thrust is the boost value
with boostTime the clock reading. -/
theorem Game.resetState_player (H : Host α) (g : Game α) :
    (Game.resetState H g).player.boostDuration = none ∧
    (Game.resetState H g).player.x = g.width / 2 ∧
    (Game.resetState H g).player.y = g.height / 2 ∧
    (Game.resetState H g).player.angle = 0 ∧
    (Game.resetState H g).player.velocity = { x := 0, y := 0 } ∧
    (Game.resetState H g).player.friction = 99 / 100 ∧
    (g.loadSettings.difficulty = Difficulty.hard →
      (Game.resetState H g).player.thrust = 8 / 10 ∧
      (Game.resetState H g).player.boostTime = some (H.now (g.nowCalls + 1))) ∧
    (g.loadSettings.difficulty ≠ Difficulty.hard →
      (Game.resetState H g).player.thrust = thrustPower g.loadSettings.difficulty ∧
      (Game.resetState H g).player.boostTime = none) := by
  simp only [Game.resetState, Game.applyDifficultySettings]
  by_cases hd : g.loadSettings.difficulty = Difficulty.hard
  · simp [hd, Game.playSound, Player.constructor, boostPower]
  · simp [hd, Player.constructor]

/-! ### The live change of difficulty -/

theorem Game.samplePosition_congr_xy (H : Host α) (g g1 : Game α) (hw : g1.width = g.width)
    (hh : g1.height = g.height) (hx : g1.player.x = g.player.x)
    (hy : g1.player.y = g.player.y) (fuel r : Nat) :
    Game.samplePosition H g1 fuel r = Game.samplePosition H g fuel r := by
  induction fuel generalizing r with
  | zero => rfl
  | succ fuel ih =>
    simp only [Game.samplePosition, hw, hh, hx, hy, ih]

theorem Game.samplingEnds_congr_xy (H : Host α) (g g1 : Game α) (fuel : Nat)
    (hw : g1.width = g.width) (hh : g1.height = g.height) (hx : g1.player.x = g.player.x)
    (hy : g1.player.y = g.player.y) (hs : Game.samplingEnds H fuel g) :
    Game.samplingEnds H fuel g1 := by
  intro r
  rw [Game.samplePosition_congr_xy H g g1 hw hh hx hy]
  exact hs r

/-- What applyDifficultySettings keeps. -/
theorem Game.applyDifficultySettings_frame (H : Host α) (g : Game α) :
    (Game.applyDifficultySettings H g).width = g.width ∧
    (Game.applyDifficultySettings H g).height = g.height ∧
    (Game.applyDifficultySettings H g).player.x = g.player.x ∧
    (Game.applyDifficultySettings H g).player.y = g.player.y ∧
    (Game.applyDifficultySettings H g).asteroids = g.asteroids ∧
    (Game.applyDifficultySettings H g).settings = g.settings := by
  simp only [Game.applyDifficultySettings]
  split <;> exact ⟨rfl, rfl, rfl, rfl, rfl, rfl⟩

/-- What applyDifficultySettings does to thrust and boostTime. -/
theorem Game.applyDifficultySettings_thrust (H : Host α) (g : Game α) :
    (g.settings.difficulty = Difficulty.hard →
      (Game.applyDifficultySettings H g).player.thrust = 8 / 10 ∧
      (Game.applyDifficultySettings H g).player.boostTime = some (H.now g.nowCalls)) ∧
    (g.settings.difficulty ≠ Difficulty.hard →
      (Game.applyDifficultySettings H g).player.thrust = thrustPower g.settings.difficulty ∧
      (Game.applyDifficultySettings H g).player.boostTime = g.player.boostTime) := by
  simp only [Game.applyDifficultySettings]
  by_cases hd : g.settings.difficulty = Difficulty.hard
  · simp [hd, Game.playSound, boostPower]
  · simp [hd]

/-- The table asteroidCountSettings: 3, 5 and 7. -/
theorem Game.targetCount_eq (g : Game α) :
    g.targetCount =
      match g.settings.difficulty with
      | Difficulty.easy => 3
      | Difficulty.normal => 5
      | Difficulty.hard => 7 := by
  unfold Game.targetCount
  cases g.settings.difficulty
  · show ⌊(5 : α) * (7 / 10)⌋ = 3
    rw [Int.floor_eq_iff]
    constructor <;> norm_num
  · rfl
  · show ⌊(5 : α) * (3 / 2)⌋ = 7
    rw [Int.floor_eq_iff]
    constructor <;> norm_num

/-- When the sampling loops end, the adding loop of applyDifficulty appends n
asteroids, all large, and only advances the count of Math.random calls
besides. -/
theorem Game.addAsteroidsLoop_eq (H : Host α) (fuel n : Nat) (g : Game α)
    (hs : Game.samplingEnds H fuel g) :
    ∃ new r, Game.addAsteroidsLoop H fuel n g =
        some { g with asteroids := g.asteroids ++ new, randomCalls := r } ∧
      new.length = n ∧ ∀ a ∈ new, a.size = Size.large := by
  induction n generalizing g with
  | zero =>
    exact ⟨[], g.randomCalls, by simp [Game.addAsteroidsLoop], rfl, by simp⟩
  | succ n ih =>
    have hsome := hs g.randomCalls
    cases hsp : Game.samplePosition H g fuel g.randomCalls with
    | none => rw [hsp] at hsome; cases hsome
    | some xyr =>
      obtain ⟨x, y, r⟩ := xyr
      obtain ⟨new, r2, heq, hlen, hall⟩ := ih
        { g with
          asteroids := g.asteroids ++
            [(Game.newAsteroid H x y (speedMultiplier g.settings.difficulty) r).1]
          randomCalls := (Game.newAsteroid H x y (speedMultiplier g.settings.difficulty) r).2 }
        (Game.samplingEnds_congr H g _ fuel rfl rfl rfl hs)
      refine ⟨(Game.newAsteroid H x y (speedMultiplier g.settings.difficulty) r).1 :: new,
        r2, ?_, ?_, ?_⟩
      · simp only [Game.addAsteroidsLoop, hsp]
        rw [heq]
        simp
      · simp [hlen]
      · intro a ha
        rcases List.mem_cons.mp ha with h | h
        · subst h
          rfl
        · exact hall a h

/-- Normal form of applyDifficulty when the sampling loops end: the asteroids
are rescaled, cut at the target count, and followed by new large asteroids up to
the target count. -/
theorem Game.applyDifficulty_eq (H : Host α) (fuel : Nat) (g : Game α)
    (hs : Game.samplingEnds H fuel g) :
    ∃ new r, Game.applyDifficulty H fuel g =
        some { Game.applyDifficultySettings H g with
          asteroids := (g.asteroids.map (Game.rescale H g.settings.difficulty)).take
            g.targetCount.toNat ++ new
          randomCalls := r } ∧
      new.length = g.targetCount.toNat - g.asteroids.length ∧
      ∀ a ∈ new, a.size = Size.large := by
  obtain ⟨fw, fh, fx, fy, fa, fs⟩ := Game.applyDifficultySettings_frame H g
  have ht0 : 0 ≤ g.targetCount := by
    rw [Game.targetCount_eq]
    cases g.settings.difficulty <;> simp
  have hst : (Game.updateDifficulty H (Game.applyDifficultySettings H g)).targetCount =
      g.targetCount := by
    unfold Game.targetCount
    show (match (Game.applyDifficultySettings H g).settings.difficulty with
      | Difficulty.easy => _ | Difficulty.normal => _ | Difficulty.hard => _) = _
    rw [fs]
  have hsa : (Game.updateDifficulty H (Game.applyDifficultySettings H g)).asteroids =
      g.asteroids.map (Game.rescale H g.settings.difficulty) := by
    show List.map _ (Game.applyDifficultySettings H g).asteroids = _
    rw [fa, fs]
  have hlen : (Game.updateDifficulty H (Game.applyDifficultySettings H g)).asteroids.length =
      g.asteroids.length := by
    rw [hsa, List.length_map]
  simp only [Game.applyDifficulty, Game.adjustPopulation, hst, hlen]
  by_cases h1 : (g.asteroids.length : Int) < g.targetCount
  · obtain ⟨new, r, heq, hnl, hall⟩ := Game.addAsteroidsLoop_eq H fuel
      (g.targetCount - (g.asteroids.length : Int)).toNat
      (Game.updateDifficulty H (Game.applyDifficultySettings H g))
      (Game.samplingEnds_congr_xy H g _ fuel fw fh fx fy hs)
    refine ⟨new, r, ?_, ?_, hall⟩
    · simp only [h1, if_true]
      rw [heq, hsa]
      have : (g.asteroids.map (Game.rescale H g.settings.difficulty)).take
          g.targetCount.toNat = g.asteroids.map (Game.rescale H g.settings.difficulty) := by
        apply List.take_of_length_le
        rw [List.length_map]
        omega
      rw [this]
      rfl
    · rw [hnl]
      omega
  · by_cases h2 : (g.asteroids.length : Int) > g.targetCount
    · refine ⟨[], (Game.applyDifficultySettings H g).randomCalls, ?_, ?_, by simp⟩
      · simp only [h1, h2, if_true, if_false, List.append_nil]
        rw [hsa]
        rfl
      · simp only [List.length_nil]
        omega
    · refine ⟨[], (Game.applyDifficultySettings H g).randomCalls, ?_, ?_, by simp⟩
      · simp only [h1, h2, if_false, List.append_nil]
        have : (g.asteroids.map (Game.rescale H g.settings.difficulty)).take
            g.targetCount.toNat = g.asteroids.map (Game.rescale H g.settings.difficulty) := by
          apply List.take_of_length_le
          rw [List.length_map]
          omega
        rw [this, ← hsa]
        rfl
      · simp only [List.length_nil]
        omega

/-- With Math.random constantly 0 every sampling loop ends at its first draw
when the ship is at (400, 300). -/
theorem sample_samplingEnds_at (g : Game ℝ) (hx : g.player.x = 400) (hy : g.player.y = 300) :
    Game.samplingEnds (sampleHost Real.sqrt Real.cos Real.sin Real.pi) 1 g := by
  intro r
  have hd : ¬ Game.distance (sampleHost Real.sqrt Real.cos Real.sin Real.pi) 0 0 400 300 < 100 := by
    simp only [Game.distance, sampleHost]
    rw [show ((400 : ℝ) - 0) ^ 2 + (300 - 0) ^ 2 = 500 ^ 2 by norm_num,
      Real.sqrt_sq (by norm_num)]
    norm_num
  simp only [Game.samplePosition]
  rw [hx, hy]
  have h0 : (sampleHost Real.sqrt Real.cos Real.sin Real.pi).random r = 0 := rfl
  have h1 : (sampleHost Real.sqrt Real.cos Real.sin Real.pi).random (r + 1) = 0 := rfl
  rw [h0, h1, zero_mul, zero_mul, if_neg hd]
  rfl

/-! ### A bullet that is never tested -/

/-- When the first of two bullets destroys the first of two asteroids, a small
one, the pass ends there: the second bullet has moved to index 0 of its array
and index 1, the next one the outer forEach visits, is empty. -/
theorem Game.checkProjectiles_skip (H : Host α) (g : Game α) (b1 b2 : Bullet α)
    (A1 A2 : Asteroid α) (hb : g.bullets = [b1, b2]) (ha : g.asteroids = [A1, A2])
    (hsz : A1.size = Size.small) (hov : Game.distance H b1.x b1.y A1.x A1.y < A1.radius) :
    Game.checkProjectiles H g = Game.resolveHit H A1 0 0 g ∧
    (Game.checkProjectiles H g).bullets = [b2] ∧
    (Game.checkProjectiles H g).asteroids = [A2] := by
  obtain ⟨ps, r, frags, snds, heq, hs, -, -⟩ := Game.resolveHit_eq H A1 0 0 g
  rw [hsz] at hs
  have hf : frags = [] := by
    cases frags with
    | nil => rfl
    | cons f t => simp [fragmentSizes] at hs
  subst hf
  have hg1a : (Game.resolveHit H A1 0 0 g).asteroids = [A2] := by
    rw [heq, ha]; rfl
  have hg1b : (Game.resolveHit H A1 0 0 g).bullets = [b2] := by
    rw [heq, hb]; rfl
  have hinner : Game.checkBullet H b1 0 g = Game.resolveHit H A1 0 0 g := by
    simp only [Game.checkBullet, forEach, ha, List.length_cons, List.length_nil, forEachFrom,
      List.getElem?_cons_zero, Game.checkPair, hov, if_true, hg1a]
    rfl
  have hrun : Game.checkProjectiles H g = Game.resolveHit H A1 0 0 g := by
    simp only [Game.checkProjectiles, forEach, hb, List.length_cons, List.length_nil,
      forEachFrom, List.getElem?_cons_zero, hinner, hg1b]
    rfl
  exact ⟨hrun, by rw [hrun, hg1b], by rw [hrun, hg1a]⟩

theorem sample_distance_zero_second :
    Game.distance (sampleHost Real.sqrt Real.cos Real.sin Real.pi) 600 100 600 100 = 0 := by
  simp [Game.distance, sampleHost]

/-! ### Score and level along a tick -/

/-- A hit with a non-negative combo counter does not lower the score. -/
theorem Game.resolveHit_score_le (H : Host α) (a : Asteroid α) (k j : Nat) (g : Game α)
    (hc : 0 ≤ g.comboCount) :
    g.score ≤ (Game.resolveHit H a k j g).score ∧ 0 ≤ (Game.resolveHit H a k j g).comboCount := by
  obtain ⟨ps, r, frags, snds, heq, -, -, -⟩ := Game.resolveHit_eq H a k j g
  rw [heq]
  constructor
  · show g.score ≤ g.score + Game.points a.size * min (g.comboCount + 1) 5
    have hp : 0 ≤ Game.points a.size := by
      unfold Game.points
      split
      · norm_num
      · split <;> norm_num
    have hm : 0 ≤ min (g.comboCount + 1) 5 := le_min (by omega) (by norm_num)
    have := mul_nonneg hp hm
    omega
  · show 0 ≤ g.comboCount + 1
    omega

/-- The steps of update up to checkCollisions do not lower the score and keep
the combo counter non-negative. -/
theorem Game.updateToCollisions_score (H : Host α) (g : Game α) (hc : 0 ≤ g.comboCount) :
    g.score ≤ (Game.updateToCollisions H g).score ∧
    0 ≤ (Game.updateToCollisions H g).comboCount := by
  obtain ⟨hcnt, -, -, -⟩ := Game.updateEntities_frame H g
  have hes : (Game.updateEntities H g).score = g.score := hcnt.2.2.2.2.2.2.1
  have hec : (Game.updateEntities H g).comboCount = g.comboCount := hcnt.2.2.2.2.1
  have hproj : g.score ≤ (Game.checkProjectiles H (Game.updateEntities H g)).score ∧
      0 ≤ (Game.checkProjectiles H (Game.updateEntities H g)).comboCount := by
    unfold Game.checkProjectiles forEach
    refine forEachFrom_invariant Game.bullets (Game.checkBullet H)
      (fun s => g.score ≤ s.score ∧ 0 ≤ s.comboCount) ?_ _ _ _ ⟨hes.ge, by rw [hec]; exact hc⟩
    intro b k s hsinv
    unfold Game.checkBullet forEach
    refine forEachFrom_invariant Game.asteroids (Game.checkPair H b k)
      (fun s => g.score ≤ s.score ∧ 0 ≤ s.comboCount) ?_ _ _ s hsinv
    intro a j t ht
    unfold Game.checkPair
    split
    · obtain ⟨h1, h2⟩ := Game.resolveHit_score_le H a k j t ht.2
      exact ⟨ht.1.trans h1, h2⟩
    · exact ht
  obtain ⟨-, hsc, -, hss, -⟩ := Game.checkShip_frame H
    (Game.checkProjectiles H (Game.updateEntities H g))
  constructor
  · show g.score ≤ (Game.checkShip H (Game.checkProjectiles H (Game.updateEntities H g))).score
    rw [hss]
    exact hproj.1
  · show 0 ≤ (Game.checkShip H (Game.checkProjectiles H (Game.updateEntities H g))).comboCount
    rw [hsc]
    exact hproj.2

/-- The combo reset keeps the score and a non-negative combo counter. -/
theorem Game.resetCombo_score (now : Int) (g : Game α) :
    (Game.resetCombo now g).score = g.score ∧
    (0 ≤ g.comboCount → 0 ≤ (Game.resetCombo now g).comboCount) := by
  simp only [Game.resetCombo]
  split
  · exact ⟨rfl, fun _ => le_refl _⟩
  · exact ⟨rfl, fun h => h⟩

/-! ### Restart -/

/-- The clock fields and the particles after the steps of update before
checkCollisions. -/
theorem Game.updateEntities_clock (H : Host α) (g : Game α) :
    (Game.updateEntities H g).elapsedTime = H.now g.nowCalls - g.startTime ∧
    (Game.updateEntities H g).timeBonus = Int.fdiv (H.now g.nowCalls - g.startTime) 1000 * 2 ∧
    (g.particles = [] → (Game.updateEntities H g).particles = []) := by
  have h1 : ∀ s : Game α, (Game.updateFPS H s).elapsedTime = s.elapsedTime ∧
      (Game.updateFPS H s).timeBonus = s.timeBonus ∧
      (Game.updateFPS H s).particles = s.particles := by
    intro s
    simp only [Game.updateFPS]
    split <;> exact ⟨rfl, rfl, rfl⟩
  have h2 : ∀ s : Game α, (Game.updateThrustSound s).elapsedTime = s.elapsedTime ∧
      (Game.updateThrustSound s).timeBonus = s.timeBonus ∧
      (Game.updateThrustSound s).particles = s.particles := by
    intro s
    simp only [Game.updateThrustSound]
    split <;> exact ⟨rfl, rfl, rfl⟩
  have h3 : ∀ s : Game α, (Game.updateParticles s).elapsedTime = s.elapsedTime ∧
      (Game.updateParticles s).timeBonus = s.timeBonus ∧
      (s.particles = [] → (Game.updateParticles s).particles = []) := by
    intro s
    simp only [Game.updateParticles]
    split
    · refine ⟨rfl, rfl, fun h => ?_⟩
      show List.filter _ (List.map _ s.particles) = []
      rw [h]
      rfl
    · exact ⟨rfl, rfl, fun h => h⟩
  simp only [Game.updateEntities]
  refine ⟨?_, ?_, fun hp => ?_⟩
  · rw [(h3 _).1]
    show (Game.updateThrustSound _).elapsedTime = _
    rw [(h2 _).1]
    show (Game.updateFPS H _).elapsedTime = _
    rw [(h1 _).1]
    rfl
  · rw [(h3 _).2.1]
    show (Game.updateThrustSound _).timeBonus = _
    rw [(h2 _).2.1]
    show (Game.updateFPS H _).timeBonus = _
    rw [(h1 _).2.1]
    rfl
  · apply (h3 _).2.2
    show (Game.updateThrustSound _).particles = _
    rw [(h2 _).2.2]
    show (Game.updateFPS H _).particles = _
    rw [(h1 _).2.2]
    exact hp

/-- The clock fields and the particles are kept by the ship phase. -/
theorem Game.checkShip_clock (H : Host α) (g : Game α) :
    (Game.checkShip H g).elapsedTime = g.elapsedTime ∧
    (Game.checkShip H g).timeBonus = g.timeBonus ∧
    (Game.checkShip H g).particles = g.particles := by
  unfold Game.checkShip forEach
  refine forEachFrom_invariant Game.asteroids (Game.checkShipAgainst H)
    (fun s => s.elapsedTime = g.elapsedTime ∧ s.timeBonus = g.timeBonus ∧
      s.particles = g.particles) ?_ _ _ g ⟨rfl, rfl, rfl⟩
  rintro a i s ⟨h1, h2, h3⟩
  unfold Game.checkShipAgainst
  split
  · simp only [Game.endGame]
    split <;> exact ⟨h1, h2, h3⟩
  · exact ⟨h1, h2, h3⟩

/-- The ship phase removes no asteroid. -/
theorem Game.checkShip_asteroids (H : Host α) (g : Game α) :
    (Game.checkShip H g).asteroids = g.asteroids :=
  (Game.checkShip_from H g.asteroids.length 0 g).1

/-- With no bullet the projectile phase does nothing. -/
theorem Game.updateToCollisions_no_bullets (H : Host α) (g : Game α) (hb : g.bullets = []) :
    Game.updateToCollisions H g = Game.checkShip H (Game.updateEntities H g) := by
  have he : (Game.updateEntities H g).bullets = [] := by
    rw [(Game.updateEntities_frame H g).2.1, hb]
    rfl
  show Game.checkShip H (Game.checkProjectiles H (Game.updateEntities H g)) = _
  rw [Game.checkProjectiles_no_overlap H _ (by rw [he]; intro b hbm; cases hbm)]

/-- A running update of a state with asteroids and no bullet: neither a hit nor
a level-up occurs. -/
theorem Game.update_quiet (H : Host α) (fuel : Nat) (g : Game α)
    (hrun : g.gameOver = false ∧ g.paused = false) (hb : g.bullets = [])
    (ha : g.asteroids ≠ []) :
    Game.update H fuel g = some (Game.updateDifficulty H
      (Game.resetCombo (Game.tickNow H g) (Game.checkShip H (Game.updateEntities H g)))) := by
  rw [Game.update_running H fuel g hrun, Game.updateToCollisions_no_bullets H g hb,
    Game.levelUp_nonempty]
  · rfl
  · rw [(Game.resetCombo_frame _ _).2.1, Game.checkShip_asteroids,
      (Game.updateEntities_frame H g).2.2.1]
    intro hnil
    rw [List.map_eq_nil_iff] at hnil
    exact ha hnil

/-- The fields of the state a quiet update returns. -/
theorem Game.quiet_fields (H : Host α) (g : Game α) (hb : g.bullets = []) :
    (Game.updateDifficulty H (Game.resetCombo (Game.tickNow H g)
      (Game.checkShip H (Game.updateEntities H g)))).elapsedTime =
        H.now g.nowCalls - g.startTime ∧
    (Game.updateDifficulty H (Game.resetCombo (Game.tickNow H g)
      (Game.checkShip H (Game.updateEntities H g)))).timeBonus =
        Int.fdiv (H.now g.nowCalls - g.startTime) 1000 * 2 ∧
    (Game.updateDifficulty H (Game.resetCombo (Game.tickNow H g)
      (Game.checkShip H (Game.updateEntities H g)))).paused = g.paused ∧
    (Game.updateDifficulty H (Game.resetCombo (Game.tickNow H g)
      (Game.checkShip H (Game.updateEntities H g)))).score = g.score ∧
    (Game.updateDifficulty H (Game.resetCombo (Game.tickNow H g)
      (Game.checkShip H (Game.updateEntities H g)))).level = g.level ∧
    (Game.updateDifficulty H (Game.resetCombo (Game.tickNow H g)
      (Game.checkShip H (Game.updateEntities H g)))).lastHitTime = g.lastHitTime ∧
    (g.comboCount = 0 → (Game.updateDifficulty H (Game.resetCombo (Game.tickNow H g)
      (Game.checkShip H (Game.updateEntities H g)))).comboCount = 0) ∧
    (Game.updateDifficulty H (Game.resetCombo (Game.tickNow H g)
      (Game.checkShip H (Game.updateEntities H g)))).bullets = [] ∧
    (g.particles = [] → (Game.updateDifficulty H (Game.resetCombo (Game.tickNow H g)
      (Game.checkShip H (Game.updateEntities H g)))).particles = []) ∧
    (Game.updateDifficulty H (Game.resetCombo (Game.tickNow H g)
      (Game.checkShip H (Game.updateEntities H g)))).settings = g.settings ∧
    (Game.updateDifficulty H (Game.resetCombo (Game.tickNow H g)
      (Game.checkShip H (Game.updateEntities H g)))).asteroids =
        (g.asteroids.map (Asteroid.update g.width g.height)).map
          (Game.rescale H g.settings.difficulty) ∧
    (Game.updateDifficulty H (Game.resetCombo (Game.tickNow H g)
      (Game.checkShip H (Game.updateEntities H g)))).player =
        (Player.update H g.keys g.width g.height g.player (g.nowCalls + 2)).1 := by
  obtain ⟨hcnt, heb, hea, hep⟩ := Game.updateEntities_frame H g
  obtain ⟨hce, hct, hcp⟩ := Game.updateEntities_clock H g
  obtain ⟨hsw, hsc, hsl, hss, hsb⟩ := Game.checkShip_frame H (Game.updateEntities H g)
  obtain ⟨hke, hkt, hkp⟩ := Game.checkShip_clock H (Game.updateEntities H g)
  have hsa := Game.checkShip_asteroids H (Game.updateEntities H g)
  have hr : ∀ (now : Int) (s : Game α),
      (Game.resetCombo now s).elapsedTime = s.elapsedTime ∧
      (Game.resetCombo now s).timeBonus = s.timeBonus ∧
      (Game.resetCombo now s).score = s.score ∧
      (Game.resetCombo now s).bullets = s.bullets ∧
      (Game.resetCombo now s).particles = s.particles ∧
      (s.comboCount = 0 → (Game.resetCombo now s).comboCount = 0) := by
    intro now s
    simp only [Game.resetCombo]
    split
    · exact ⟨rfl, rfl, rfl, rfl, rfl, fun _ => rfl⟩
    · exact ⟨rfl, rfl, rfl, rfl, rfl, fun h => h⟩
  obtain ⟨hrw, hra, hrl, -⟩ := Game.resetCombo_frame (Game.tickNow H g)
    (Game.checkShip H (Game.updateEntities H g))
  obtain ⟨hre, hrt, hrs, hrb, hrp, hrc⟩ := hr (Game.tickNow H g)
    (Game.checkShip H (Game.updateEntities H g))
  have hset : (Game.resetCombo (Game.tickNow H g)
      (Game.checkShip H (Game.updateEntities H g))).settings = g.settings :=
    (hrw.2.2.2.2.1.trans hsw.2.2.2.2.1).trans hcnt.2.2.2.1
  refine ⟨?_, ?_, ?_, ?_, ?_, ?_, ?_, ?_, ?_, ?_, ?_, ?_⟩
  · exact (hre.trans hke).trans hce
  · exact (hrt.trans hkt).trans hct
  · exact (hrw.2.2.2.2.2.trans hsw.2.2.2.2.2).trans hcnt.2.2.2.2.2.2.2.2.1
  · exact (hrs.trans hss).trans hcnt.2.2.2.2.2.2.1
  · exact (hrw.2.2.2.1.trans hsw.2.2.2.1).trans hcnt.2.2.1
  · exact (hrl.trans hsl).trans hcnt.2.2.2.2.2.1
  · intro h0
    exact hrc ((hsc.trans hcnt.2.2.2.2.1).trans h0)
  · show (Game.resetCombo _ _).bullets = []
    rw [hrb, hsb, heb, hb]
    rfl
  · intro hp
    show (Game.resetCombo _ _).particles = []
    rw [hrp, hkp]
    exact hcp hp
  · exact hset
  · show List.map _ (Game.resetCombo _ _).asteroids = _
    rw [hset, hra, hsa, hea]
  · show (Game.resetCombo _ _).player = _
    rw [hrw.2.2.1, hsw.2.2.1, hep]

/-- The fields of the reset state of restart. -/
theorem Game.resetState_fields (H : Host α) (g : Game α) :
    (Game.resetState H g).gameOver = false ∧ (Game.resetState H g).paused = false ∧
    (Game.resetState H g).score = 0 ∧ (Game.resetState H g).level = 1 ∧
    (Game.resetState H g).elapsedTime = 0 ∧ (Game.resetState H g).timeBonus = 0 ∧
    (Game.resetState H g).comboCount = 0 ∧ (Game.resetState H g).lastHitTime = 0 ∧
    (Game.resetState H g).bullets = [] ∧ (Game.resetState H g).particles = [] ∧
    (Game.resetState H g).asteroids = [] ∧
    (Game.resetState H g).settings = g.loadSettings ∧
    (Game.resetState H g).width = g.width ∧ (Game.resetState H g).height = g.height ∧
    (Game.resetState H g).keys = (fun _ => false) ∧
    (Game.resetState H g).startTime = H.now g.nowCalls ∧
    (Game.resetState H g).nowCalls =
      (if g.loadSettings.difficulty = Difficulty.hard then g.nowCalls + 2
       else g.nowCalls + 1) := by
  simp only [Game.resetState, Game.applyDifficultySettings]
  by_cases hd : g.loadSettings.difficulty = Difficulty.hard
  · rw [if_pos hd, if_pos hd]
    exact ⟨rfl, rfl, rfl, rfl, rfl, rfl, rfl, rfl, rfl, rfl, rfl, rfl, rfl, rfl, rfl, rfl, rfl⟩
  · rw [if_neg hd, if_neg hd]
    exact ⟨rfl, rfl, rfl, rfl, rfl, rfl, rfl, rfl, rfl, rfl, rfl, rfl, rfl, rfl, rfl, rfl, rfl⟩

/-- A position returned by the sampling loop is a pair of Math.random values
scaled by the canvas size. -/
theorem Game.samplePosition_form (H : Host α) (g : Game α) (fuel r : Nat) (x y : α) (r1 : Nat)
    (h : Game.samplePosition H g fuel r = some (x, y, r1)) :
    (∃ i, x = H.random i * g.width) ∧ (∃ i, y = H.random i * g.height) := by
  induction fuel generalizing r with
  | zero => simp [Game.samplePosition] at h
  | succ fuel ih =>
    simp only [Game.samplePosition] at h
    split at h
    · exact ih _ h
    · simp only [Option.some.injEq, Prod.mk.injEq] at h
      obtain ⟨hx, hy, -⟩ := h
      exact ⟨⟨r, hx.symm⟩, ⟨r + 1, hy.symm⟩⟩

/-- Whenever createAsteroids returns, the asteroids it has appended are spawned
asteroids for the ship of the state. -/
theorem Game.createAsteroidsLoop_spawned (H : Host α) (fuel count : Nat) (g g1 : Game α)
    (h : Game.createAsteroidsLoop H fuel count g = some g1) :
    ∃ new r, g1 = { g with asteroids := g.asteroids ++ new, randomCalls := r } ∧
      new.length = count ∧
      ∀ a ∈ new, Asteroid.spawned H g.width g.height g.player.x g.player.y a := by
  induction count generalizing g with
  | zero =>
    simp only [Game.createAsteroidsLoop, Option.some.injEq] at h
    exact ⟨[], g.randomCalls, by rw [← h]; simp, rfl, by simp⟩
  | succ count ih =>
    simp only [Game.createAsteroidsLoop] at h
    cases hsp : Game.samplePosition H g fuel g.randomCalls with
    | none => rw [hsp] at h; cases h
    | some xyr =>
      obtain ⟨x, y, r⟩ := xyr
      rw [hsp] at h
      have hfar := Game.samplePosition_far H g fuel g.randomCalls x y r hsp
      obtain ⟨hfx, hfy⟩ := Game.samplePosition_form H g fuel g.randomCalls x y r hsp
      obtain ⟨new, r2, heq, hlen, hall⟩ := ih _ h
      refine ⟨(Asteroid.constructor H x y Size.large r).1 :: new, r2, ?_, ?_, ?_⟩
      · rw [heq]
        simp [Game.pushAsteroid]
      · simp [hlen]
      · intro a ha
        rcases List.mem_cons.mp ha with h1 | h1
        · subst h1
          refine ⟨rfl, ?_, hfx, hfy, ⟨r, rfl⟩, ⟨r + 1, rfl⟩, ?_⟩
          · simp [Asteroid.radiusOf]
          · simpa using hfar
        · exact hall a h1

/-- Normal form of restart when the sampling loops end: the reset state with
the new asteroids, then one quiet update. -/
theorem Game.restart_eq (H : Host α) (fuel : Nat) (g : Game α)
    (hs : Game.samplingEnds H fuel (Game.resetState H g)) :
    ∃ new r, new.length = (Game.resetState H g).getAsteroidCount.toNat ∧
      (∀ a ∈ new, Asteroid.spawned H g.width g.height (g.width / 2) (g.height / 2) a) ∧
      Game.restartReset H fuel g =
        some { Game.resetState H g with asteroids := new, randomCalls := r } ∧
      Game.restart H fuel g = some (Game.updateDifficulty H
        (Game.resetCombo
          (Game.tickNow H { Game.resetState H g with asteroids := new, randomCalls := r })
          (Game.checkShip H (Game.updateEntities H
            { Game.resetState H g with asteroids := new, randomCalls := r })))) := by
  obtain ⟨f1, f2, f3, f4, f5, f6, f7, f8, f9, f10, f11, f12, f13, f14, f15, f16, f17⟩ :=
    Game.resetState_fields H g
  obtain ⟨p1, p2, p3, -⟩ := Game.resetState_player H g
  obtain ⟨new0, r0, heq0, -, -⟩ := Game.createAsteroidsLoop_eq H fuel
    (Game.resetState H g).getAsteroidCount.toNat (Game.resetState H g) hs
  obtain ⟨new, r, heq, hlen, hall⟩ := Game.createAsteroidsLoop_spawned H fuel _ _ _ heq0
  have hcount : 3 ≤ (Game.resetState H g).getAsteroidCount := by
    rw [Game.getAsteroidCount_eq]
    cases (Game.resetState H g).settings.difficulty <;> simp
  have hnew : new ≠ [] := by
    intro hnil
    rw [hnil] at hlen
    simp only [List.length_nil] at hlen
    omega
  have hreset : Game.restartReset H fuel g =
      some { Game.resetState H g with asteroids := new, randomCalls := r } := by
    unfold Game.restartReset Game.createAsteroids
    rw [heq0, heq, f11, List.nil_append]
  refine ⟨new, r, hlen, ?_, hreset, ?_⟩
  · intro a ha
    have := hall a ha
    rw [f13, f14, p2, p3] at this
    exact this
  · unfold Game.restart
    rw [hreset]
    show Game.gameLoop H fuel _ = _
    have hrun : ({ Game.resetState H g with asteroids := new, randomCalls := r } :
        Game α).gameOver = false ∧
        ({ Game.resetState H g with asteroids := new, randomCalls := r } :
        Game α).paused = false := ⟨f1, f2⟩
    unfold Game.gameLoop
    rw [hrun.1, hrun.2]
    simp only [Bool.not_false, Bool.and_self, if_true]
    exact Game.update_quiet H fuel _ hrun f9 hnew

/-- A ship at rest inside the canvas, with no key held, is left where it is by
Player.update. -/
theorem Player.update_at_rest (H : Host α) (W Ht : α) (p : Player α) (n : Nat)
    (hv : p.velocity = { x := 0, y := 0 }) (hx0 : 0 ≤ p.x) (hxW : p.x ≤ W) (hy0 : 0 ≤ p.y)
    (hyH : p.y ≤ Ht) :
    (Player.update H (fun _ => false) W Ht p n).1.x = p.x ∧
    (Player.update H (fun _ => false) W Ht p n).1.y = p.y ∧
    (Player.update H (fun _ => false) W Ht p n).1.angle = p.angle ∧
    (Player.update H (fun _ => false) W Ht p n).1.velocity = { x := 0, y := 0 } := by
  have he : (p.expireBoost (H.now n)).x = p.x ∧ (p.expireBoost (H.now n)).y = p.y ∧
      (p.expireBoost (H.now n)).angle = p.angle ∧
      (p.expireBoost (H.now n)).velocity = p.velocity := by
    simp only [Player.expireBoost]
    split <;> exact ⟨rfl, rfl, rfl, rfl⟩
  obtain ⟨e1, e2, e3, e4⟩ := he
  have hm : (p.expireBoost (H.now n)).move.x = p.x ∧ (p.expireBoost (H.now n)).move.y = p.y ∧
      (p.expireBoost (H.now n)).move.angle = p.angle ∧
      (p.expireBoost (H.now n)).move.velocity = { x := 0, y := 0 } := by
    simp only [Player.move, e1, e2, e3, e4, hv, zero_mul, add_zero]
    exact ⟨trivial, trivial, trivial, trivial⟩
  obtain ⟨m1, m2, m3, m4⟩ := hm
  have hwx : ∀ q : Player α, 0 ≤ q.x → q.x ≤ W → Player.wrapX W q = q := by
    intro q h0 h1
    simp [Player.wrapX, not_lt.mpr h0, not_lt.mpr h1]
  have hwy : ∀ q : Player α, 0 ≤ q.y → q.y ≤ Ht → Player.wrapY Ht q = q := by
    intro q h0 h1
    simp [Player.wrapY, not_lt.mpr h0, not_lt.mpr h1]
  have hall : (Player.update H (fun _ => false) W Ht p n).1 = (p.expireBoost (H.now n)).move := by
    simp only [Player.update, Player.turn, Player.accelerate, Bool.false_eq_true, if_false]
    rw [hwx _ (by rw [m1]; exact hx0) (by rw [m1]; exact hxW),
      hwy _ (by rw [m2]; exact hy0) (by rw [m2]; exact hyH)]
  rw [hall]
  exact ⟨m1, m2, m3, m4⟩

/-- Asteroid.update keeps size and radius. -/
theorem Asteroid.update_size (W Ht : α) (a : Asteroid α) :
    (Asteroid.update W Ht a).size = a.size ∧ (Asteroid.update W Ht a).radius = a.radius := by
  simp only [Asteroid.update]
  split <;> split <;> split <;> split <;> exact ⟨rfl, rfl⟩

/-- An asteroid that stays within its radius of the canvas is moved by its
velocity and not wrapped. -/
theorem Asteroid.update_inside (W Ht : α) (a : Asteroid α)
    (hx0 : -a.radius ≤ a.x + a.velocity.x) (hx1 : a.x + a.velocity.x ≤ W + a.radius)
    (hy0 : -a.radius ≤ a.y + a.velocity.y) (hy1 : a.y + a.velocity.y ≤ Ht + a.radius) :
    (Asteroid.update W Ht a).x = a.x + a.velocity.x ∧
    (Asteroid.update W Ht a).y = a.y + a.velocity.y := by
  simp [Asteroid.update, not_lt.mpr hx0, not_lt.mpr hx1, not_lt.mpr hy0, not_lt.mpr hy1]

/-- Over the reals: a point at distance at least 100 from the ship that is moved
by at most 3/2 in each coordinate is at distance at least 50 from it. -/
theorem far_stays_clear (px py x y vx vy : ℝ)
    (hfar : ¬ Real.sqrt ((px - x) ^ 2 + (py - y) ^ 2) < 100)
    (hvx0 : -(3 / 2) ≤ vx) (hvx1 : vx ≤ 3 / 2) (hvy0 : -(3 / 2) ≤ vy) (hvy1 : vy ≤ 3 / 2) :
    ¬ Real.sqrt ((x + vx - px) ^ 2 + (y + vy - py) ^ 2) < 50 := by
  intro hnear
  have h100 : (100 : ℝ) ^ 2 ≤ (px - x) ^ 2 + (py - y) ^ 2 := by
    have := not_lt.mp hfar
    exact (Real.le_sqrt' (by norm_num)).mp this
  have h50 : (x + vx - px) ^ 2 + (y + vy - py) ^ 2 < 50 ^ 2 := by
    have hnn : 0 ≤ (x + vx - px) ^ 2 + (y + vy - py) ^ 2 := by positivity
    exact (Real.sqrt_lt' (by norm_num)).mp hnear
  have hax : (x + vx - px) ^ 2 < 50 ^ 2 := by nlinarith [sq_nonneg (y + vy - py)]
  have hay : (y + vy - py) ^ 2 < 50 ^ 2 := by nlinarith [sq_nonneg (x + vx - px)]
  have hax1 := abs_lt_of_sq_lt_sq hax (by norm_num)
  have hay1 := abs_lt_of_sq_lt_sq hay (by norm_num)
  rw [abs_lt] at hax1 hay1
  have hdx : (px - x) ^ 2 < 52 ^ 2 := by
    apply sq_lt_sq'
    · linarith [hax1.2]
    · linarith [hax1.1]
  have hdy : (py - y) ^ 2 < 52 ^ 2 := by
    apply sq_lt_sq'
    · linarith [hay1.2]
    · linarith [hay1.1]
  norm_num at h100 hdx hdy
  linarith

/-- Over the reals: in the first update after a reset no asteroid reaches the
ship.  The ship rests at the centre, every asteroid is as createAsteroids made
it, Math.sqrt is the square root and Math.random returns values in [0, 1]. -/
theorem Game.quiet_gameOver (H : Host ℝ) (g : Game ℝ) (hsqrt : H.sqrt = Real.sqrt)
    (hrand : ∀ n, 0 ≤ H.random n ∧ H.random n ≤ 1) (hw : 0 ≤ g.width) (hh : 0 ≤ g.height)
    (hgo : g.gameOver = false) (hkeys : g.keys = fun _ => false)
    (hv : g.player.velocity = { x := 0, y := 0 }) (hpx : g.player.x = g.width / 2)
    (hpy : g.player.y = g.height / 2)
    (hall : ∀ a ∈ g.asteroids, Asteroid.spawned H g.width g.height g.player.x g.player.y a) :
    (Game.updateDifficulty H (Game.resetCombo (Game.tickNow H g)
      (Game.checkShip H (Game.updateEntities H g)))).gameOver = false := by
  obtain ⟨hcnt, -, hea, hep⟩ := Game.updateEntities_frame H g
  have hr : (Game.resetCombo (Game.tickNow H g)
      (Game.checkShip H (Game.updateEntities H g))).gameOver =
      (Game.checkShip H (Game.updateEntities H g)).gameOver := by
    simp only [Game.resetCombo]
    split <;> rfl
  show (Game.resetCombo _ _).gameOver = false
  rw [hr]
  have h3 := (Game.checkShip_from H (Game.updateEntities H g).asteroids.length 0
    (Game.updateEntities H g)).2.2
  unfold Game.checkShip forEach
  rw [h3, hcnt.2.2.2.2.2.2.2.1, hgo, List.drop_zero, List.take_length, Bool.false_or,
    List.any_eq_false]
  intro a1 ha1
  rw [hea] at ha1
  obtain ⟨a, ha, rfl⟩ := List.mem_map.mp ha1
  obtain ⟨-, hrad, ⟨i, hx⟩, ⟨j, hy⟩, ⟨k, hvx⟩, ⟨l, hvy⟩, hfar⟩ := hall a ha
  obtain ⟨q1, q2, -, -⟩ := Player.update_at_rest H g.width g.height g.player (g.nowCalls + 2) hv
    (by rw [hpx]; linarith) (by rw [hpx]; linarith) (by rw [hpy]; linarith)
    (by rw [hpy]; linarith)
  have hxr : 0 ≤ a.x ∧ a.x ≤ g.width := by
    rw [hx]
    exact ⟨mul_nonneg (hrand i).1 hw, by nlinarith [(hrand i).1, (hrand i).2]⟩
  have hyr : 0 ≤ a.y ∧ a.y ≤ g.height := by
    rw [hy]
    exact ⟨mul_nonneg (hrand j).1 hh, by nlinarith [(hrand j).1, (hrand j).2]⟩
  have hvxr : -(3 / 2) ≤ a.velocity.x ∧ a.velocity.x ≤ 3 / 2 := by
    rw [hvx]
    constructor <;> linarith [(hrand k).1, (hrand k).2]
  have hvyr : -(3 / 2) ≤ a.velocity.y ∧ a.velocity.y ≤ 3 / 2 := by
    rw [hvy]
    constructor <;> linarith [(hrand l).1, (hrand l).2]
  obtain ⟨u1, u2⟩ := Asteroid.update_inside g.width g.height a
    (by rw [hrad]; linarith [hxr.1, hvxr.1]) (by rw [hrad]; linarith [hxr.2, hvxr.2])
    (by rw [hrad]; linarith [hyr.1, hvyr.1]) (by rw [hrad]; linarith [hyr.2, hvyr.2])
  have u3 := (Asteroid.update_size g.width g.height a).2
  simp only [decide_eq_true_eq]
  unfold shipOverlaps Game.distance
  rw [hep, hkeys, q1, q2, u1, u2, u3, hrad, hsqrt]
  have hfar1 : ¬ Real.sqrt ((g.player.x - a.x) ^ 2 + (g.player.y - a.y) ^ 2) < 100 := by
    have := hfar
    unfold Game.distance at this
    rw [hsqrt] at this
    exact this
  have := far_stays_clear g.player.x g.player.y a.x a.y a.velocity.x a.velocity.y hfar1
    hvxr.1 hvxr.2 hvyr.1 hvyr.2
  norm_num
  exact not_lt.mp this

/-- With Math.random constantly 0 the sampling loops of a restart on the 800 by
600 canvas end at their first draw. -/
theorem sample_restart_samplingEnds (g : Game ℝ) (hw : g.width = 800) (hh : g.height = 600) :
    Game.samplingEnds (sampleHost Real.sqrt Real.cos Real.sin Real.pi) 1
      (Game.resetState (sampleHost Real.sqrt Real.cos Real.sin Real.pi) g) := by
  obtain ⟨-, p2, p3, -⟩ := Game.resetState_player
    (sampleHost Real.sqrt Real.cos Real.sin Real.pi) g
  apply sample_samplingEnds_at
  · rw [p2, hw]; norm_num
  · rw [p3, hh]; norm_num

/-- A running update returns when the sampling loops end. -/
theorem Game.update_returns (H : Host α) (fuel : Nat) (g : Game α)
    (hrun : g.gameOver = false ∧ g.paused = false)
    (hs : Game.samplingEnds H fuel (Game.updateEntities H g)) :
    ∃ g1, Game.update H fuel g = some g1 := by
  have hw := Game.afterReset_sameWorld H g
  rw [Game.update_running H fuel g hrun]
  by_cases he : (Game.resetCombo (Game.tickNow H g) (Game.updateToCollisions H g)).asteroids = []
  · obtain ⟨new, r, heq, -, -⟩ := Game.levelUp_empty H fuel _ he
      (Game.samplingEnds_congr H (Game.updateEntities H g) _ fuel hw.1 hw.2.1 hw.2.2.1 hs)
    rw [heq]
    exact ⟨_, rfl⟩
  · rw [Game.levelUp_nonempty H fuel _ he]
    exact ⟨_, rfl⟩

/-- After n running updates every bullet left is a bullet of the state before
that has lost n of its life and still has a positive life. -/
theorem Game.runningUpdates_life (H : Host α) (fuel n : Nat) (g g1 : Game α)
    (h : Game.runningUpdates H fuel n g = some g1) :
    ∀ b ∈ g1.bullets, ∃ b0 ∈ g.bullets, b.life = b0.life - n ∧ (0 < n → 0 < b.life) := by
  induction n generalizing g with
  | zero =>
    intro b hb
    simp only [Game.runningUpdates, Option.some.injEq] at h
    rw [← h] at hb
    exact ⟨b, hb, by simp, fun h0 => absurd h0 (lt_irrefl 0)⟩
  | succ n ih =>
    intro b hb
    simp only [Game.runningUpdates] at h
    split at h
    · rename_i hrun
      cases hu : Game.update H fuel g with
      | none => rw [hu] at h; cases h
      | some g2 =>
        rw [hu] at h
        obtain ⟨b2, hb2, hlife, hpos⟩ := ih g2 h b hb
        have hsub := (Game.update_bullets_sublist H fuel g g2 hrun hu).subset hb2
        rw [List.mem_filter] at hsub
        obtain ⟨hmem, halive⟩ := hsub
        obtain ⟨b0, hb0, rfl⟩ := List.mem_map.mp hmem
        have hl2 : 0 < (Bullet.update b0).life := ((Game.bulletAlive_iff _ _).mp halive).1
        refine ⟨b0, hb0, ?_, fun _ => ?_⟩
        · rw [hlife]
          show b0.life - 1 - (n : Int) = _
          push_cast
          ring
        · rcases Nat.eq_zero_or_pos n with h0 | h0
          · subst h0
            rw [hlife]
            simpa using hl2
          · exact hpos h0
    · cases h

/-! ### Sampling loops that do not end -/

/-- When every point the loop can draw is closer than 100 to the ship, the
sampling loop does not end, whatever the number of rounds. -/
theorem Game.samplePosition_none (H : Host α) (g : Game α)
    (hnear : ∀ r, Game.distance H (H.random r * g.width) (H.random (r + 1) * g.height)
      g.player.x g.player.y < 100) (fuel r : Nat) :
    Game.samplePosition H g fuel r = none := by
  induction fuel generalizing r with
  | zero => rfl
  | succ fuel ih =>
    simp only [Game.samplePosition, hnear r, if_true]
    exact ih _

/-- Over the reals: every point of a canvas of 100 by 100 is closer than 100 to
its centre. -/
theorem small_canvas_near (H : Host ℝ) (hsqrt : H.sqrt = Real.sqrt) (u v : ℝ)
    (hu : 0 ≤ u ∧ u ≤ 1) (hv : 0 ≤ v ∧ v ≤ 1) :
    Game.distance H (u * 100) (v * 100) 50 50 < 100 := by
  unfold Game.distance
  rw [hsqrt, Real.sqrt_lt' (by norm_num)]
  nlinarith [mul_nonneg hu.1 (sub_nonneg.mpr hu.2), mul_nonneg hv.1 (sub_nonneg.mpr hv.2)]

/-- Whenever the level-up block returns with no asteroid left, the level has
risen by 1 and the asteroids are the new ones, all large. -/
theorem Game.levelUp_some (H : Host α) (fuel : Nat) (g g1 : Game α) (h : g.asteroids = [])
    (h1 : Game.levelUp H fuel g = some g1) :
    ∃ new r, g1 =
        { g with level := g.level + 1, soundCalls := g.soundCalls ++ [Sound.levelup],
                 asteroids := new, randomCalls := r } ∧
      new.length = (min 8 (g.getAsteroidCount + Int.fdiv (g.level + 1) 2)).toNat ∧
      ∀ a ∈ new, a.size = Size.large ∧ a.radius = 40 ∧
        ¬ Game.distance H a.x a.y g.player.x g.player.y < 100 := by
  have h0 : g.asteroids.length = 0 := by rw [h]; rfl
  simp only [Game.levelUp, h0, if_true, Game.createAsteroids] at h1
  obtain ⟨new, r, heq, hlen, hall⟩ := Game.createAsteroidsLoop_some H fuel _ _ g1 h1
  refine ⟨new, r, ?_, hlen, hall⟩
  rw [heq]
  simp [Game.playSound, h]

/-- With no asteroid left and a first sampling loop that does not end, the
level-up block does not return. -/
theorem Game.levelUp_none (H : Host α) (fuel : Nat) (g : Game α) (h : g.asteroids = [])
    (hlevel : 0 ≤ g.level) (hnone : Game.samplePosition H g fuel g.randomCalls = none) :
    Game.levelUp H fuel g = none := by
  have h0 : g.asteroids.length = 0 := by rw [h]; rfl
  have hc : (Game.playSound Sound.levelup { g with level := g.level + 1 }).getAsteroidCount =
      g.getAsteroidCount := rfl
  have hl : (Game.playSound Sound.levelup { g with level := g.level + 1 }).level =
      g.level + 1 := rfl
  have h3 : 3 ≤ g.getAsteroidCount := by
    rw [Game.getAsteroidCount_eq]; cases g.settings.difficulty <;> simp
  have h2 : 0 ≤ Int.fdiv (g.level + 1) 2 := by
    rw [Int.fdiv_eq_ediv _ (by norm_num : (0 : Int) ≤ 2)]
    omega
  obtain ⟨k, hk⟩ : ∃ k, (min 8 (g.getAsteroidCount + Int.fdiv (g.level + 1) 2)).toNat = k + 1 :=
    ⟨(min 8 (g.getAsteroidCount + Int.fdiv (g.level + 1) 2)).toNat - 1, by omega⟩
  have hsp : Game.samplePosition H
      (Game.playSound Sound.levelup { g with level := g.level + 1 }) fuel
      (Game.playSound Sound.levelup { g with level := g.level + 1 }).randomCalls = none :=
    (Game.samplePosition_congr_xy H g
      (Game.playSound Sound.levelup { g with level := g.level + 1 })
      rfl rfl rfl rfl fuel g.randomCalls).trans hnone
  simp only [Game.levelUp, h0, if_true, Game.createAsteroids]
  rw [hc, hl, hk]
  simp only [Game.createAsteroidsLoop]
  rw [hsp]

/-- A running update in which no asteroid is left after checkCollisions and the
first sampling loop does not end does not return. -/
theorem Game.update_none (H : Host α) (fuel : Nat) (g : Game α)
    (hrun : g.gameOver = false ∧ g.paused = false)
    (he : (Game.updateToCollisions H g).asteroids = []) (hlevel : 0 ≤ g.level)
    (hnone : Game.samplePosition H (Game.updateEntities H g) fuel
      (Game.resetCombo (Game.tickNow H g) (Game.updateToCollisions H g)).randomCalls = none) :
    Game.update H fuel g = none := by
  have hw := Game.afterReset_sameWorld H g
  have hc := (Game.updateEntities_frame H g).1
  have hra := (Game.resetCombo_frame (Game.tickNow H g) (Game.updateToCollisions H g)).2.1
  have hlevel1 : (Game.resetCombo (Game.tickNow H g) (Game.updateToCollisions H g)).level =
      g.level := hw.2.2.2.1.trans hc.2.2.1
  rw [Game.update_running H fuel g hrun,
    Game.levelUp_none H fuel _ (hra.trans he) (by rw [hlevel1]; exact hlevel)
      (by rw [Game.samplePosition_congr H hw.1 hw.2.1 hw.2.2.1]; exact hnone)]
  rfl

/-- Whenever a running update returns: with no asteroid left after
checkCollisions the level has risen by 1 and the asteroids are new ones, all
large, rescaled; with an asteroid left the level is kept and the asteroids are
those checkCollisions left, rescaled. -/
theorem Game.update_some (H : Host α) (fuel : Nat) (g g1 : Game α)
    (hrun : g.gameOver = false ∧ g.paused = false) (h : Game.update H fuel g = some g1) :
    ((Game.updateToCollisions H g).asteroids = [] →
      ∃ new : List (Asteroid α), g1.level = g.level + 1 ∧
        g1.asteroids = new.map (Game.rescale H g.settings.difficulty) ∧
        new.length = (min 8 (g.getAsteroidCount + Int.fdiv (g.level + 1) 2)).toNat ∧
        ∀ a ∈ new, a.size = Size.large) ∧
    ((Game.updateToCollisions H g).asteroids ≠ [] →
      g1.level = g.level ∧
      g1.asteroids = (Game.updateToCollisions H g).asteroids.map
        (Game.rescale H g.settings.difficulty)) ∧
    g1.comboCount = (Game.resetCombo (Game.tickNow H g) (Game.updateToCollisions H g)).comboCount ∧
    g1.lastHitTime =
      (Game.resetCombo (Game.tickNow H g) (Game.updateToCollisions H g)).lastHitTime := by
  have hw := Game.afterReset_sameWorld H g
  have hc := (Game.updateEntities_frame H g).1
  have hra := (Game.resetCombo_frame (Game.tickNow H g) (Game.updateToCollisions H g)).2.1
  have hlevel : (Game.resetCombo (Game.tickNow H g) (Game.updateToCollisions H g)).level =
      g.level := hw.2.2.2.1.trans hc.2.2.1
  have hset : (Game.resetCombo (Game.tickNow H g) (Game.updateToCollisions H g)).settings =
      g.settings := hw.2.2.2.2.1.trans hc.2.2.2.1
  have hcount : (Game.resetCombo (Game.tickNow H g)
      (Game.updateToCollisions H g)).getAsteroidCount = g.getAsteroidCount := by
    unfold Game.getAsteroidCount
    rw [hset]
  rw [Game.update_running H fuel g hrun] at h
  by_cases he : (Game.updateToCollisions H g).asteroids = []
  · cases hlu : Game.levelUp H fuel
        (Game.resetCombo (Game.tickNow H g) (Game.updateToCollisions H g)) with
    | none => rw [hlu] at h; cases h
    | some s =>
      rw [hlu] at h
      simp only [Option.map_some', Option.some.injEq] at h
      obtain ⟨new, r, heq, hlen, hall⟩ := Game.levelUp_some H fuel _ s (hra.trans he) hlu
      rw [hlevel, hcount] at hlen
      subst h
      subst heq
      refine ⟨fun _ => ⟨new, ?_, ?_, hlen, fun a ha => (hall a ha).1⟩,
        fun hne => absurd he hne, rfl, rfl⟩
      · show (Game.resetCombo _ _).level + 1 = _
        rw [hlevel]
      · show List.map (Game.rescale H (Game.resetCombo _ _).settings.difficulty) new = _
        rw [hset]
  · rw [Game.levelUp_nonempty H fuel _ (fun h0 => he (hra.symm.trans h0))] at h
    simp only [Option.map_some', Option.some.injEq] at h
    subst h
    refine ⟨fun h0 => absurd h0 he, fun _ => ⟨hlevel, ?_⟩, rfl, rfl⟩
    show List.map (Game.rescale H (Game.resetCombo _ _).settings.difficulty)
      (Game.resetCombo _ _).asteroids = _
    rw [hset, hra]

/-- A running update in which an asteroid is left after checkCollisions
returns: no sampling loop is run. -/
theorem Game.update_returns_nonempty (H : Host α) (fuel : Nat) (g : Game α)
    (hrun : g.gameOver = false ∧ g.paused = false)
    (he : (Game.updateToCollisions H g).asteroids ≠ []) :
    ∃ g1, Game.update H fuel g = some g1 := by
  have hra := (Game.resetCombo_frame (Game.tickNow H g) (Game.updateToCollisions H g)).2.1
  rw [Game.update_running H fuel g hrun,
    Game.levelUp_nonempty H fuel _ (fun h0 => he (hra.symm.trans h0))]
  exact ⟨_, rfl⟩

/-- In the small sample the ship stays at (50, 50) and the canvas is 100 by 100
when checkCollisions is called, and no asteroid is left after it. -/
theorem smallSample_entities (H : Host ℝ) :
    (Game.updateEntities H (smallSample : Game ℝ)).width = 100 ∧
    (Game.updateEntities H (smallSample : Game ℝ)).height = 100 ∧
    (Game.updateEntities H (smallSample : Game ℝ)).player.x = 50 ∧
    (Game.updateEntities H (smallSample : Game ℝ)).player.y = 50 ∧
    (Game.updateToCollisions H (smallSample : Game ℝ)).asteroids = [] := by
  obtain ⟨hc, hb, ha, hp⟩ := Game.updateEntities_frame H (smallSample : Game ℝ)
  obtain ⟨r1, r2, -, -⟩ := Player.update_at_rest H (100 : ℝ) 100 (Player.constructor 50 50)
    ((smallSample : Game ℝ).nowCalls + 2) rfl
    (by show (0 : ℝ) ≤ 50; norm_num) (by show (50 : ℝ) ≤ 100; norm_num)
    (by show (0 : ℝ) ≤ 50; norm_num) (by show (50 : ℝ) ≤ 100; norm_num)
  refine ⟨hc.1, hc.2.1, ?_, ?_, ?_⟩
  · rw [hp]
    exact r1
  · rw [hp]
    exact r2
  · show (Game.checkCollisions _ _).asteroids = []
    rw [Game.checkCollisions_asteroids, Game.checkProjectiles_no_overlap, ha]
    · rfl
    · intro b hbm
      rw [hb] at hbm
      cases hbm

/-- Over the reals, with Math.random in [0, 1]: in the small sample the sampling
loop of the level-up block does not end. -/
theorem smallSample_sampling (H : Host ℝ) (hsqrt : H.sqrt = Real.sqrt)
    (hrand : ∀ n, 0 ≤ H.random n ∧ H.random n ≤ 1) (fuel r : Nat) :
    Game.samplePosition H (Game.updateEntities H (smallSample : Game ℝ)) fuel r = none := by
  obtain ⟨hw, hh, hx, hy, -⟩ := smallSample_entities H
  apply Game.samplePosition_none
  intro k
  rw [hw, hh, hx, hy]
  exact small_canvas_near H hsqrt _ _ (hrand k) (hrand (k + 1))

/-! ### The live change of difficulty, without the assumption on the sampling -/

/-- Whenever the adding loop of applyDifficulty returns, it has appended n
asteroids, all large, and has only advanced the count of Math.random calls
besides. -/
theorem Game.addAsteroidsLoop_some (H : Host α) (fuel n : Nat) (g g1 : Game α)
    (h : Game.addAsteroidsLoop H fuel n g = some g1) :
    ∃ new r, g1 = { g with asteroids := g.asteroids ++ new, randomCalls := r } ∧
      new.length = n ∧ ∀ a ∈ new, a.size = Size.large := by
  induction n generalizing g with
  | zero =>
    simp only [Game.addAsteroidsLoop, Option.some.injEq] at h
    exact ⟨[], g.randomCalls, by rw [← h]; simp, rfl, by simp⟩
  | succ n ih =>
    simp only [Game.addAsteroidsLoop] at h
    cases hsp : Game.samplePosition H g fuel g.randomCalls with
    | none => rw [hsp] at h; cases h
    | some xyr =>
      obtain ⟨x, y, r⟩ := xyr
      rw [hsp] at h
      obtain ⟨new, r2, heq, hlen, hall⟩ := ih _ h
      refine ⟨(Game.newAsteroid H x y (speedMultiplier g.settings.difficulty) r).1 :: new,
        r2, ?_, ?_, ?_⟩
      · rw [heq]
        simp
      · simp [hlen]
      · intro a ha
        rcases List.mem_cons.mp ha with h1 | h1
        · subst h1
          rfl
        · exact hall a h1

/-- The two branches of applyDifficulty: below the target count the adding loop
is run on the rescaled asteroids; otherwise the rescaled asteroids are cut at
the target count and no position is sampled. -/
theorem Game.applyDifficulty_cases (H : Host α) (fuel : Nat) (g : Game α) :
    Game.applyDifficulty H fuel g =
      if (g.asteroids.length : Int) < g.targetCount then
        Game.addAsteroidsLoop H fuel (g.targetCount - (g.asteroids.length : Int)).toNat
          (Game.updateDifficulty H (Game.applyDifficultySettings H g))
      else
        some { Game.applyDifficultySettings H g with
          asteroids := (g.asteroids.map (Game.rescale H g.settings.difficulty)).take
            g.targetCount.toNat } := by
  obtain ⟨fw, fh, fx, fy, fa, fs⟩ := Game.applyDifficultySettings_frame H g
  have ht0 : 0 ≤ g.targetCount := by
    rw [Game.targetCount_eq]
    cases g.settings.difficulty <;> simp
  have hst : (Game.updateDifficulty H (Game.applyDifficultySettings H g)).targetCount =
      g.targetCount := by
    unfold Game.targetCount
    show (match (Game.applyDifficultySettings H g).settings.difficulty with
      | Difficulty.easy => _ | Difficulty.normal => _ | Difficulty.hard => _) = _
    rw [fs]
  have hsa : (Game.updateDifficulty H (Game.applyDifficultySettings H g)).asteroids =
      g.asteroids.map (Game.rescale H g.settings.difficulty) := by
    show List.map _ (Game.applyDifficultySettings H g).asteroids = _
    rw [fa, fs]
  have hlen : (Game.updateDifficulty H (Game.applyDifficultySettings H g)).asteroids.length =
      g.asteroids.length := by
    rw [hsa, List.length_map]
  simp only [Game.applyDifficulty, Game.adjustPopulation, hst, hlen]
  by_cases h1 : (g.asteroids.length : Int) < g.targetCount
  · simp only [h1, if_true]
  · by_cases h2 : (g.asteroids.length : Int) > g.targetCount
    · simp only [h1, h2, if_true, if_false]
      rw [hsa]
      rfl
    · simp only [h1, h2, if_false]
      have : (g.asteroids.map (Game.rescale H g.settings.difficulty)).take
          g.targetCount.toNat = g.asteroids.map (Game.rescale H g.settings.difficulty) := by
        apply List.take_of_length_le
        rw [List.length_map]
        omega
      rw [this, ← hsa]
      rfl

/-- Whenever applyDifficulty returns: the asteroids are the former ones
rescaled, cut at the target count, followed by new large asteroids up to the
target count. -/
theorem Game.applyDifficulty_some (H : Host α) (fuel : Nat) (g g1 : Game α)
    (h : Game.applyDifficulty H fuel g = some g1) :
    ∃ new : List (Asteroid α),
      g1.asteroids = (g.asteroids.map (Game.rescale H g.settings.difficulty)).take
        g.targetCount.toNat ++ new ∧
      new.length = g.targetCount.toNat - g.asteroids.length ∧
      ∀ a ∈ new, a.size = Size.large := by
  obtain ⟨fw, fh, fx, fy, fa, fs⟩ := Game.applyDifficultySettings_frame H g
  have hsa : (Game.updateDifficulty H (Game.applyDifficultySettings H g)).asteroids =
      g.asteroids.map (Game.rescale H g.settings.difficulty) := by
    show List.map _ (Game.applyDifficultySettings H g).asteroids = _
    rw [fa, fs]
  rw [Game.applyDifficulty_cases] at h
  by_cases h1 : (g.asteroids.length : Int) < g.targetCount
  · rw [if_pos h1] at h
    obtain ⟨new, r, heq, hnl, hall⟩ := Game.addAsteroidsLoop_some H fuel _ _ g1 h
    refine ⟨new, ?_, ?_, hall⟩
    · rw [heq]
      show (Game.updateDifficulty H (Game.applyDifficultySettings H g)).asteroids ++ new = _
      rw [hsa]
      have : (g.asteroids.map (Game.rescale H g.settings.difficulty)).take
          g.targetCount.toNat = g.asteroids.map (Game.rescale H g.settings.difficulty) := by
        apply List.take_of_length_le
        rw [List.length_map]
        omega
      rw [this]
    · rw [hnl]
      omega
  · rw [if_neg h1] at h
    simp only [Option.some.injEq] at h
    subst h
    refine ⟨[], by simp, ?_, by simp⟩
    simp only [List.length_nil]
    omega

/-- At or above the target count applyDifficulty returns: no position is
sampled. -/
theorem Game.applyDifficulty_returns_full (H : Host α) (fuel : Nat) (g : Game α)
    (h : g.targetCount ≤ (g.asteroids.length : Int)) :
    ∃ g1, Game.applyDifficulty H fuel g = some g1 := by
  rw [Game.applyDifficulty_cases, if_neg (not_lt.mpr h)]
  exact ⟨_, rfl⟩

/-- Below the target count, with a first sampling loop that does not end,
applyDifficulty does not return. -/
theorem Game.applyDifficulty_none (H : Host α) (fuel : Nat) (g : Game α)
    (h : (g.asteroids.length : Int) < g.targetCount)
    (hnone : Game.samplePosition H g fuel g.randomCalls = none) :
    Game.applyDifficulty H fuel g = none := by
  obtain ⟨fw, fh, fx, fy, fa, fs⟩ := Game.applyDifficultySettings_frame H g
  obtain ⟨k, hk⟩ : ∃ k, (g.targetCount - (g.asteroids.length : Int)).toNat = k + 1 :=
    ⟨(g.targetCount - (g.asteroids.length : Int)).toNat - 1, by omega⟩
  have hr : (Game.updateDifficulty H (Game.applyDifficultySettings H g)).randomCalls =
      g.randomCalls := by
    show (Game.applyDifficultySettings H g).randomCalls = _
    simp only [Game.applyDifficultySettings]
    split <;> rfl
  have hsp : Game.samplePosition H
      (Game.updateDifficulty H (Game.applyDifficultySettings H g)) fuel
      (Game.updateDifficulty H (Game.applyDifficultySettings H g)).randomCalls = none := by
    rw [hr]
    exact (Game.samplePosition_congr_xy H g
      (Game.updateDifficulty H (Game.applyDifficultySettings H g)) fw fh fx fy fuel
      g.randomCalls).trans hnone
  rw [Game.applyDifficulty_cases, if_pos h, hk]
  simp only [Game.addAsteroidsLoop]
  rw [hsp]

/-! ### A sampling loop that redraws -/

/-- Over the reals: a point whose squared distance from (400, 300) is at least
100 squared is not closer than 100 to it. -/
theorem retry_far (H : Host ℝ) (hsqrt : H.sqrt = Real.sqrt) (x y : ℝ)
    (h : (100 : ℝ) ^ 2 ≤ (400 - x) ^ 2 + (300 - y) ^ 2) :
    ¬ Game.distance H x y 400 300 < 100 := by
  unfold Game.distance
  rw [hsqrt, not_lt]
  exact Real.le_sqrt_of_sq_le h

/-- The values of Math.random of the retry host. -/
theorem retryHost_random (k n : Nat) :
    ((n = k ∨ n = k + 1) →
      (retryHost Real.sqrt Real.cos Real.sin Real.pi k).random n = 1 / 2) ∧
    (¬ (n = k ∨ n = k + 1) →
      (retryHost Real.sqrt Real.cos Real.sin Real.pi k).random n = 0) := by
  constructor
  · intro h
    show (if n = k ∨ n = k + 1 then (1 / 2 : ℝ) else 0) = 1 / 2
    rw [if_pos h]
  · intro h
    show (if n = k ∨ n = k + 1 then (1 / 2 : ℝ) else 0) = 0
    rw [if_neg h]

/-- With the retry host, on the canvas of 800 by 600 with the ship at the
centre, the sampling loop that starts at call k rejects its first draw, the
position of the ship, and does not end within one round. -/
theorem retry_first_draw (k : Nat) (g : Game ℝ) (hw : g.width = 800) (hh : g.height = 600)
    (hx : g.player.x = 400) (hy : g.player.y = 300) :
    Game.samplePosition (retryHost Real.sqrt Real.cos Real.sin Real.pi k) g 1 k = none := by
  have h0 := (retryHost_random k k).1 (Or.inl rfl)
  have h1 := (retryHost_random k (k + 1)).1 (Or.inr rfl)
  have hd : Game.distance (retryHost Real.sqrt Real.cos Real.sin Real.pi k)
      (1 / 2 * 800) (1 / 2 * 600) 400 300 < 100 := by
    show Real.sqrt ((400 - 1 / 2 * 800) ^ 2 + (300 - 1 / 2 * 600) ^ 2) < 100
    rw [show ((400 : ℝ) - 1 / 2 * 800) ^ 2 + (300 - 1 / 2 * 600) ^ 2 = 0 by norm_num,
      Real.sqrt_zero]
    norm_num
  simp only [Game.samplePosition]
  rw [hw, hh, hx, hy, h0, h1, if_pos hd]

/-- With the retry host, on the canvas of 800 by 600 with the ship at the
centre, every sampling loop ends within two rounds. -/
theorem retry_samplingEnds_at (k : Nat) (g : Game ℝ) (hw : g.width = 800)
    (hh : g.height = 600) (hx : g.player.x = 400) (hy : g.player.y = 300) :
    Game.samplingEnds (retryHost Real.sqrt Real.cos Real.sin Real.pi k) 2 g := by
  intro r
  have hfar : ∀ x y : ℝ, (100 : ℝ) ^ 2 ≤ (400 - x) ^ 2 + (300 - y) ^ 2 →
      ¬ Game.distance (retryHost Real.sqrt Real.cos Real.sin Real.pi k) x y 400 300 < 100 :=
    fun x y h => retry_far _ rfl x y h
  simp only [Game.samplePosition]
  rw [hw, hh, hx, hy]
  by_cases h1 : r = k
  · have e0 := (retryHost_random k r).1 (Or.inl h1)
    have e1 := (retryHost_random k (r + 1)).1 (Or.inr (by omega))
    have e2 := (retryHost_random k (r + 2)).2 (by omega)
    have e3 := (retryHost_random k (r + 2 + 1)).2 (by omega)
    have hd : Game.distance (retryHost Real.sqrt Real.cos Real.sin Real.pi k)
        (1 / 2 * 800) (1 / 2 * 600) 400 300 < 100 := by
      show Real.sqrt ((400 - 1 / 2 * 800) ^ 2 + (300 - 1 / 2 * 600) ^ 2) < 100
      rw [show ((400 : ℝ) - 1 / 2 * 800) ^ 2 + (300 - 1 / 2 * 600) ^ 2 = 0 by norm_num,
        Real.sqrt_zero]
      norm_num
    rw [e0, e1, if_pos hd, e2, e3, if_neg (hfar _ _ (by norm_num))]
    rfl
  · by_cases h2 : r = k + 1
    · have e0 := (retryHost_random k r).1 (Or.inr h2)
      have e1 := (retryHost_random k (r + 1)).2 (by omega)
      rw [e0, e1, if_neg (hfar _ _ (by norm_num))]
      rfl
    · by_cases h3 : r + 1 = k
      · have e0 := (retryHost_random k r).2 (by omega)
        have e1 := (retryHost_random k (r + 1)).1 (Or.inl h3)
        rw [e0, e1, if_neg (hfar _ _ (by norm_num))]
        rfl
      · have e0 := (retryHost_random k r).2 (by omega)
        have e1 := (retryHost_random k (r + 1)).2 (by omega)
        rw [e0, e1, if_neg (hfar _ _ (by norm_num))]
        rfl

/-- The steps of update before checkCollisions make no Math.random call. -/
theorem Game.updateEntities_randomCalls (H : Host α) (g : Game α) :
    (Game.updateEntities H g).randomCalls = g.randomCalls := by
  have h7 : ∀ s : Game α, (Game.updateParticles s).randomCalls = s.randomCalls := by
    intro s
    simp only [Game.updateParticles]
    split <;> rfl
  have h4 : ∀ s : Game α, (Game.updateThrustSound s).randomCalls = s.randomCalls := by
    intro s
    simp only [Game.updateThrustSound]
    split <;> rfl
  have h2 : ∀ s : Game α, (Game.updateFPS H s).randomCalls = s.randomCalls := by
    intro s
    simp only [Game.updateFPS]
    split <;> rfl
  unfold Game.updateEntities
  rw [h7]
  show (Game.updateThrustSound _).randomCalls = _
  rw [h4]
  show (Game.updateFPS H _).randomCalls = _
  rw [h2]
  rfl

/-- In the sample game the ship stays at (400, 300) and the canvas is 800 by 600
when checkCollisions is called, no asteroid is left after it, and no
Math.random call has been made when the level-up block is entered. -/
theorem sampleGame_entities (H : Host ℝ) :
    (Game.updateEntities H (sampleGame : Game ℝ)).width = 800 ∧
    (Game.updateEntities H (sampleGame : Game ℝ)).height = 600 ∧
    (Game.updateEntities H (sampleGame : Game ℝ)).player.x = 400 ∧
    (Game.updateEntities H (sampleGame : Game ℝ)).player.y = 300 ∧
    (Game.updateToCollisions H (sampleGame : Game ℝ)).asteroids = [] ∧
    (Game.resetCombo (Game.tickNow H (sampleGame : Game ℝ))
      (Game.updateToCollisions H (sampleGame : Game ℝ))).randomCalls = 0 := by
  obtain ⟨hc, hb, ha, hp⟩ := Game.updateEntities_frame H (sampleGame : Game ℝ)
  obtain ⟨r1, r2, -, -⟩ := Player.update_at_rest H (800 : ℝ) 600 (Player.constructor 400 300)
    ((sampleGame : Game ℝ).nowCalls + 2) rfl
    (by show (0 : ℝ) ≤ 400; norm_num) (by show (400 : ℝ) ≤ 800; norm_num)
    (by show (0 : ℝ) ≤ 300; norm_num) (by show (300 : ℝ) ≤ 600; norm_num)
  have hno : ∀ b ∈ (Game.updateEntities H (sampleGame : Game ℝ)).bullets,
      ∀ a ∈ (Game.updateEntities H (sampleGame : Game ℝ)).asteroids,
      ¬ bulletOverlaps H b a := by
    intro b hbm
    rw [hb] at hbm
    cases hbm
  have hea : (Game.updateEntities H (sampleGame : Game ℝ)).asteroids = [] := by
    rw [ha]
    rfl
  have hr0 : (Game.updateEntities H (sampleGame : Game ℝ)).randomCalls = 0 :=
    Game.updateEntities_randomCalls H _
  refine ⟨hc.1, hc.2.1, ?_, ?_, ?_, ?_⟩
  · rw [hp]
    exact r1
  · rw [hp]
    exact r2
  · show (Game.checkCollisions _ _).asteroids = []
    rw [Game.checkCollisions_asteroids, Game.checkProjectiles_no_overlap H _ hno, hea]
  · have hrc : ∀ (now : Int) (s : Game ℝ), (Game.resetCombo now s).randomCalls = s.randomCalls := by
      intro now s
      simp only [Game.resetCombo]
      split <;> rfl
    rw [hrc]
    show (Game.checkShip H (Game.checkProjectiles H (Game.updateEntities H sampleGame))).randomCalls = 0
    rw [Game.checkProjectiles_no_overlap H _ hno]
    unfold Game.checkShip forEach
    rw [hea]
    exact hr0

end Lemmas

/-! ## Properties of the specification -/

section Specification

variable {α : Type} [LinearOrderedField α] [FloorRing α]

/-- C1: a hit resolved by checkCollisions (the branch taken by checkPair when the
bullet is within the radius) raises the kill score by exactly
points(size) * min(c + 1, 5), where c is comboCount before the hit and the
counter is incremented first; points are 20, 50, 100 for large, medium, small.
A small asteroid adds 100 when the counter becomes 1 and 500 when it becomes 6.
A pass over one bullet and one asteroid that overlap is exactly one hit. -/
theorem C1_hit_score (H : Host α) (bullet : Bullet α) (a : Asteroid α) (k j : Nat)
    (g : Game α) :
    (Game.distance H bullet.x bullet.y a.x a.y < a.radius →
      Game.checkPair H bullet k a j g = Game.resolveHit H a k j g) ∧
    (Game.resolveHit H a k j g).comboCount = g.comboCount + 1 ∧
    (Game.resolveHit H a k j g).score =
      g.score + Game.points a.size * min (g.comboCount + 1) 5 ∧
    Game.points Size.large = 20 ∧ Game.points Size.medium = 50 ∧
    Game.points Size.small = 100 ∧
    (a.size = Size.small → (Game.resolveHit H a k j g).comboCount = 1 →
      (Game.resolveHit H a k j g).score = g.score + 100) ∧
    (a.size = Size.small → (Game.resolveHit H a k j g).comboCount = 6 →
      (Game.resolveHit H a k j g).score = g.score + 500) ∧
    (g.bullets = [bullet] → g.asteroids = [a] →
      Game.distance H bullet.x bullet.y a.x a.y < a.radius →
      (Game.checkProjectiles H g).score =
        g.score + Game.points a.size * min (g.comboCount + 1) 5) := by
  obtain ⟨ps, r, frags, snds, heq, -, -, -⟩ := Game.resolveHit_eq H a k j g
  have hcombo : (Game.resolveHit H a k j g).comboCount = g.comboCount + 1 := by rw [heq]
  have hscore : (Game.resolveHit H a k j g).score =
      g.score + Game.points a.size * min (g.comboCount + 1) 5 := by rw [heq]
  refine ⟨?_, hcombo, hscore, rfl, rfl, rfl, ?_, ?_, ?_⟩
  · intro h
    simp [Game.checkPair, h]
  · intro hs h1
    rw [hcombo] at h1
    rw [hscore, hs, h1]
    rfl
  · intro hs h6
    rw [hcombo] at h6
    rw [hscore, hs, h6]
    rfl
  · intro hb ha hd
    obtain ⟨ps, r, frags, snds, heq0, -, -, -⟩ := Game.resolveHit_eq H a 0 0 g
    have h1 : Game.checkProjectiles H g = Game.checkBullet H bullet 0 g :=
      forEach_singleton Game.bullets (Game.checkBullet H) g bullet hb
    have h2 : Game.checkBullet H bullet 0 g = Game.checkPair H bullet 0 a 0 g :=
      forEach_singleton Game.asteroids (Game.checkPair H bullet 0) g a ha
    rw [h1, h2]
    simp only [Game.checkPair, hd, if_true]
    rw [heq0]

/-- C2 fails on the code: in the sample with two large asteroids and one bullet
at the centre of the first, the bullet overlaps the first asteroid only, and
after checkCollisions the collection holds the second asteroid, one medium and
two small asteroids: the first of the two medium fragments was destroyed by the
same bullet in the same scan. -/
theorem C2_fragment_destroyed_in_same_pass :
    bulletOverlaps (sampleHost Real.sqrt Real.cos Real.sin Real.pi)
      (Bullet.constructor 100 100 10 0)
      (Asteroid.constructor (sampleHost Real.sqrt Real.cos Real.sin Real.pi)
        100 100 Size.large 0).1 ∧
    ¬ bulletOverlaps (sampleHost Real.sqrt Real.cos Real.sin Real.pi)
      (Bullet.constructor 100 100 10 0)
      (Asteroid.constructor (sampleHost Real.sqrt Real.cos Real.sin Real.pi)
        600 100 Size.large 12).1 ∧
    (Game.checkCollisions (sampleHost Real.sqrt Real.cos Real.sin Real.pi)
      (collisionSample (sampleHost Real.sqrt Real.cos Real.sin Real.pi))).asteroids.map
        Asteroid.size = [Size.large, Size.medium, Size.small, Size.small] := by
  have h0 : bulletOverlaps (sampleHost Real.sqrt Real.cos Real.sin Real.pi)
      (Bullet.constructor 100 100 10 0)
      (Asteroid.constructor (sampleHost Real.sqrt Real.cos Real.sin Real.pi)
        100 100 Size.large 0).1 := by
    show Game.distance _ 100 100 100 100 < Asteroid.radiusOf Size.large
    rw [sample_distance_zero]
    norm_num [Asteroid.radiusOf]
  refine ⟨h0, ?_, ?_⟩
  · show ¬ Game.distance _ 100 100 600 100 < Asteroid.radiusOf Size.large
    rw [sample_distance_far]
    norm_num [Asteroid.radiusOf]
  · rw [Game.checkCollisions_asteroids]
    exact (Game.checkProjectiles_double_hit (sampleHost Real.sqrt Real.cos Real.sin Real.pi)
      (collisionSample (sampleHost Real.sqrt Real.cos Real.sin Real.pi))
      (Bullet.constructor 100 100 10 0) _ _ rfl rfl rfl h0
      (by show Game.distance _ 100 100 100 100 < 25
          rw [sample_distance_zero]; norm_num)).1

/-- C3 fails on the code: in the same sample the pass starts with one bullet and
resolves two hits, the large asteroid and one of its fragments: comboCount
goes from 0 to 2, the score from 0 to 20 * 1 + 50 * 2 = 120, and the explosion
sound is requested twice. -/
theorem C3_one_bullet_two_hits :
    (collisionSample (sampleHost Real.sqrt Real.cos Real.sin Real.pi)).bullets.length = 1 ∧
    (collisionSample (sampleHost Real.sqrt Real.cos Real.sin Real.pi)).comboCount = 0 ∧
    (Game.checkCollisions (sampleHost Real.sqrt Real.cos Real.sin Real.pi)
      (collisionSample (sampleHost Real.sqrt Real.cos Real.sin Real.pi))).comboCount = 2 ∧
    (Game.checkCollisions (sampleHost Real.sqrt Real.cos Real.sin Real.pi)
      (collisionSample (sampleHost Real.sqrt Real.cos Real.sin Real.pi))).score = 120 ∧
    (Game.checkProjectiles (sampleHost Real.sqrt Real.cos Real.sin Real.pi)
      (collisionSample (sampleHost Real.sqrt Real.cos Real.sin Real.pi))).soundCalls.count
        Sound.explosion = 2 := by
  have h0 : Game.distance (sampleHost Real.sqrt Real.cos Real.sin Real.pi)
      (Bullet.constructor (100 : ℝ) 100 10 0).x (Bullet.constructor (100 : ℝ) 100 10 0).y
      (Asteroid.constructor (sampleHost Real.sqrt Real.cos Real.sin Real.pi)
        100 100 Size.large 0).1.x
      (Asteroid.constructor (sampleHost Real.sqrt Real.cos Real.sin Real.pi)
        100 100 Size.large 0).1.y = 0 := sample_distance_zero
  obtain ⟨-, h2, h3, h4⟩ := Game.checkProjectiles_double_hit
    (sampleHost Real.sqrt Real.cos Real.sin Real.pi)
    (collisionSample (sampleHost Real.sqrt Real.cos Real.sin Real.pi))
    (Bullet.constructor 100 100 10 0) _ _ rfl rfl rfl
    (by rw [h0]; norm_num [Asteroid.constructor, Asteroid.radiusOf]) (by rw [h0]; norm_num)
  obtain ⟨-, f2, -, f4, -⟩ := Game.checkShip_frame
    (sampleHost Real.sqrt Real.cos Real.sin Real.pi)
    (Game.checkProjectiles (sampleHost Real.sqrt Real.cos Real.sin Real.pi)
      (collisionSample (sampleHost Real.sqrt Real.cos Real.sin Real.pi)))
  refine ⟨rfl, rfl, ?_, ?_, ?_⟩
  · show (Game.checkShip _ _).comboCount = 2
    rw [f2, h2]; rfl
  · show (Game.checkShip _ _).score = 120
    rw [f4, h3]; rfl
  · rw [h4]; rfl

/-- C4: the ship phase of checkCollisions, run on the state the projectile
phase leaves, keeps the asteroid collection as it is; gameOver is true afterwards
when some asteroid left has distance to the ship below radius + 10, and keeps
the value it had before checkCollisions when none has. -/
theorem C4_ship_phase (H : Host α) (g : Game α) :
    Game.checkCollisions H g = Game.checkShip H (Game.checkProjectiles H g) ∧
    (Game.checkCollisions H g).asteroids = (Game.checkProjectiles H g).asteroids ∧
    ((∃ a ∈ (Game.checkProjectiles H g).asteroids,
        Game.distance H (Game.checkProjectiles H g).player.x
          (Game.checkProjectiles H g).player.y a.x a.y < a.radius + 10) →
      (Game.checkCollisions H g).gameOver = true) ∧
    ((¬ ∃ a ∈ (Game.checkProjectiles H g).asteroids,
        Game.distance H (Game.checkProjectiles H g).player.x
          (Game.checkProjectiles H g).player.y a.x a.y < a.radius + 10) →
      (Game.checkCollisions H g).gameOver = g.gameOver) := by
  rw [← Game.checkProjectiles_gameOver H g]
  obtain ⟨h1, -, h3⟩ := Game.checkShip_from H (Game.checkProjectiles H g).asteroids.length 0
    (Game.checkProjectiles H g)
  refine ⟨rfl, h1, ?_, ?_⟩
  · rintro ⟨a, ha, hd⟩
    show (Game.checkShip H (Game.checkProjectiles H g)).gameOver = true
    unfold Game.checkShip forEach
    rw [h3]
    simp only [List.drop_zero, List.take_length, Bool.or_eq_true, List.any_eq_true,
      decide_eq_true_eq]
    exact Or.inr ⟨a, ha, hd⟩
  · intro hno
    show (Game.checkShip H (Game.checkProjectiles H g)).gameOver = _
    unfold Game.checkShip forEach
    rw [h3]
    have : (Game.checkProjectiles H g).asteroids.any
        (fun a => decide (shipOverlaps H (Game.checkProjectiles H g).player a)) = false := by
      rw [List.any_eq_false]
      intro a ha
      simp only [decide_eq_true_eq]
      exact fun hd => hno ⟨a, ha, hd⟩
    simp [this]

/-- C5 as stated fails: a ship at x = 1 that moves left with velocity (-2, 0),
no key held, on an 800 by 600 canvas, is moved by Player.update to
1 - 2 * 0.99 < 0 and wrapped to x = 800, which is not below the width. -/
theorem C5_counterexample :
    (0 : ℝ) < 800 ∧ (0 : ℝ) < 600 ∧
    (Player.update (sampleHost Real.sqrt Real.cos Real.sin Real.pi) (fun _ => false) 800 600
      { (Player.constructor 1 300 : Player ℝ) with velocity := { x := -2, y := 0 } } 0).1.x
        = 800 ∧
    ¬ ((Player.update (sampleHost Real.sqrt Real.cos Real.sin Real.pi) (fun _ => false) 800 600
      { (Player.constructor 1 300 : Player ℝ) with velocity := { x := -2, y := 0 } } 0).1.x
        < 800) := by
  have hx : (Player.update (sampleHost Real.sqrt Real.cos Real.sin Real.pi) (fun _ => false)
      800 600 { (Player.constructor 1 300 : Player ℝ) with velocity := { x := -2, y := 0 } }
      0).1.x = 800 := by
    norm_num [Player.update, Player.expireBoost, Player.boostTimeTruthy, Player.turn,
      Player.accelerate, Player.move, Player.wrapX, Player.wrapY, Player.constructor]
  refine ⟨by norm_num, by norm_num, hx, ?_⟩
  rw [hx]
  exact lt_irrefl _

/-- C5, amended: for every ship, input state and host, and positive bounds, the
position after Player.update lies in the closed ranges 0 ≤ x ≤ boundsWidth and
0 ≤ y ≤ boundsHeight. -/
theorem C5_wrap_closed_range (H : Host α) (keys : String → Bool) (boundsWidth boundsHeight : α)
    (p : Player α) (nowCalls : Nat) (hw : 0 < boundsWidth) (hh : 0 < boundsHeight) :
    0 ≤ (Player.update H keys boundsWidth boundsHeight p nowCalls).1.x ∧
    (Player.update H keys boundsWidth boundsHeight p nowCalls).1.x ≤ boundsWidth ∧
    0 ≤ (Player.update H keys boundsWidth boundsHeight p nowCalls).1.y ∧
    (Player.update H keys boundsWidth boundsHeight p nowCalls).1.y ≤ boundsHeight := by
  have hX : ∀ q : Player α, 0 ≤ (Player.wrapX boundsWidth q).x ∧
      (Player.wrapX boundsWidth q).x ≤ boundsWidth := by
    intro q
    simp only [Player.wrapX]
    by_cases h1 : q.x < 0
    · simp [h1, hw.le]
    · by_cases h2 : q.x > boundsWidth
      · simp [h1, h2, hw.le]
      · simp [h1, h2, not_lt.mp h1, not_lt.mp h2]
  have hY : ∀ q : Player α, (Player.wrapY boundsHeight q).x = q.x ∧
      0 ≤ (Player.wrapY boundsHeight q).y ∧ (Player.wrapY boundsHeight q).y ≤ boundsHeight := by
    intro q
    simp only [Player.wrapY]
    by_cases h1 : q.y < 0
    · simp [h1, hh.le]
    · by_cases h2 : q.y > boundsHeight
      · simp [h1, h2, hh.le]
      · simp [h1, h2, not_lt.mp h1, not_lt.mp h2]
  simp only [Player.update]
  refine ⟨?_, ?_, (hY _).2.1, (hY _).2.2⟩
  · rw [(hY _).1]; exact (hX _).1
  · rw [(hY _).1]; exact (hX _).2

/-- C5, amended, at a concrete input: the ship that leaves through the left
edge. -/
theorem C5_wrap_closed_range_witness :
    (0 : ℝ) < 800 ∧ (0 : ℝ) < 600 ∧
    (0 : ℝ) ≤ (Player.update (sampleHost Real.sqrt Real.cos Real.sin Real.pi) (fun _ => false)
      800 600 { (Player.constructor 1 300 : Player ℝ) with velocity := { x := -2, y := 0 } }
      0).1.x ∧
    (Player.update (sampleHost Real.sqrt Real.cos Real.sin Real.pi) (fun _ => false)
      800 600 { (Player.constructor 1 300 : Player ℝ) with velocity := { x := -2, y := 0 } }
      0).1.x ≤ 800 ∧
    (0 : ℝ) ≤ (Player.update (sampleHost Real.sqrt Real.cos Real.sin Real.pi) (fun _ => false)
      800 600 { (Player.constructor 1 300 : Player ℝ) with velocity := { x := -2, y := 0 } }
      0).1.y ∧
    (Player.update (sampleHost Real.sqrt Real.cos Real.sin Real.pi) (fun _ => false)
      800 600 { (Player.constructor 1 300 : Player ℝ) with velocity := { x := -2, y := 0 } }
      0).1.y ≤ 600 :=
  ⟨by norm_num, by norm_num,
    C5_wrap_closed_range (sampleHost Real.sqrt Real.cos Real.sin Real.pi) (fun _ => false)
      800 600 { (Player.constructor 1 300 : Player ℝ) with velocity := { x := -2, y := 0 } }
      0 (by norm_num) (by norm_num)⟩

/-- C6 as stated fails: in a window of 100 by 100 every point of the canvas is
closer than 100 to the ship at the centre, so that the sampling loop of
createAsteroids never ends.  The small sample is running and has no asteroid
left after checkCollisions, and its update does not return, whatever the
number of rounds allowed: with Math.random constantly 0, and with any
Math.random that returns values in [0, 1]. -/
theorem C6_counterexample :
    (smallSample : Game ℝ).gameOver = false ∧ (smallSample : Game ℝ).paused = false ∧
    (Game.updateToCollisions (sampleHost Real.sqrt Real.cos Real.sin Real.pi)
      (smallSample : Game ℝ)).asteroids = [] ∧
    (∀ fuel, Game.update (sampleHost Real.sqrt Real.cos Real.sin Real.pi) fuel
      (smallSample : Game ℝ) = none) ∧
    (∀ (H : Host ℝ) (fuel : Nat), H.sqrt = Real.sqrt →
      (∀ n, 0 ≤ H.random n ∧ H.random n ≤ 1) →
      Game.update H fuel (smallSample : Game ℝ) = none) := by
  have hall : ∀ (H : Host ℝ) (fuel : Nat), H.sqrt = Real.sqrt →
      (∀ n, 0 ≤ H.random n ∧ H.random n ≤ 1) →
      Game.update H fuel (smallSample : Game ℝ) = none := by
    intro H fuel hsqrt hrand
    exact Game.update_none H fuel _ ⟨rfl, rfl⟩ (smallSample_entities H).2.2.2.2
      (by show (0 : Int) ≤ 1; decide) (smallSample_sampling H hsqrt hrand fuel _)
  exact ⟨rfl, rfl, (smallSample_entities _).2.2.2.2,
    fun fuel => hall _ fuel rfl (fun n => ⟨le_refl (0 : ℝ), zero_le_one⟩), hall⟩

/-- C6, amended: whenever a running update returns, then, when no asteroid is
left after checkCollisions, the level has risen by exactly 1 and the collection
holds exactly min(8, getAsteroidCount + floor(newLevel / 2)) asteroids, all
large, with getAsteroidCount 3, 5, 7 for easy, normal, hard (6 asteroids and
level 2 for normal at level 1), and when an asteroid is left the level is
unchanged and the collection is the one checkCollisions left, rescaled.  The
update returns whenever an asteroid is left after checkCollisions, and whenever
the sampling loops end. -/
theorem C6_level_up (H : Host α) (fuel : Nat) (g : Game α)
    (hrun : g.gameOver = false ∧ g.paused = false) :
    (∀ g1, Game.update H fuel g = some g1 →
      ((Game.updateToCollisions H g).asteroids = [] →
        g1.level = g.level + 1 ∧
        g1.asteroids.length =
          (min 8 (g.getAsteroidCount + Int.fdiv (g.level + 1) 2)).toNat ∧
        (0 ≤ g.level → (g1.asteroids.length : Int) =
          min 8 (g.getAsteroidCount + Int.fdiv (g.level + 1) 2)) ∧
        (∀ a ∈ g1.asteroids, a.size = Size.large) ∧
        (g.settings.difficulty = Difficulty.normal → g.level = 1 →
          g1.level = 2 ∧ g1.asteroids.length = 6)) ∧
      ((Game.updateToCollisions H g).asteroids ≠ [] →
        g1.level = g.level ∧
        g1.asteroids = (Game.updateToCollisions H g).asteroids.map
          (Game.rescale H g.settings.difficulty))) ∧
    ((Game.updateToCollisions H g).asteroids ≠ [] → ∃ g1, Game.update H fuel g = some g1) ∧
    (Game.samplingEnds H fuel (Game.updateEntities H g) →
      ∃ g1, Game.update H fuel g = some g1) ∧
    (g.settings.difficulty = Difficulty.easy → g.getAsteroidCount = 3) ∧
    (g.settings.difficulty = Difficulty.normal → g.getAsteroidCount = 5) ∧
    (g.settings.difficulty = Difficulty.hard → g.getAsteroidCount = 7) := by
  have hcnt := Game.getAsteroidCount_eq g
  have htable : (g.settings.difficulty = Difficulty.easy → g.getAsteroidCount = 3) ∧
      (g.settings.difficulty = Difficulty.normal → g.getAsteroidCount = 5) ∧
      (g.settings.difficulty = Difficulty.hard → g.getAsteroidCount = 7) := by
    refine ⟨fun h => ?_, fun h => ?_, fun h => ?_⟩ <;> rw [hcnt, h]
  refine ⟨?_, Game.update_returns_nonempty H fuel g hrun, Game.update_returns H fuel g hrun,
    htable⟩
  intro g1 h1
  obtain ⟨hempty, hne, -, -⟩ := Game.update_some H fuel g g1 hrun h1
  refine ⟨fun he => ?_, hne⟩
  obtain ⟨new, hlv, has, hlen, hall⟩ := hempty he
  have hl : g1.asteroids.length =
      (min 8 (g.getAsteroidCount + Int.fdiv (g.level + 1) 2)).toNat := by
    rw [has, List.length_map, hlen]
  refine ⟨hlv, hl, ?_, ?_, ?_⟩
  · intro h0
    rw [hl]
    apply Int.toNat_of_nonneg
    have h3 : 3 ≤ g.getAsteroidCount := by
      rw [hcnt]; cases g.settings.difficulty <;> simp
    have h2 : 0 ≤ Int.fdiv (g.level + 1) 2 := by
      rw [Int.fdiv_eq_ediv _ (by norm_num : (0 : Int) ≤ 2)]
      omega
    omega
  · intro a ha
    rw [has] at ha
    obtain ⟨a0, ha0, rfl⟩ := List.mem_map.mp ha
    rw [Game.rescale_size]
    exact hall a0 ha0
  · intro hd hl1
    refine ⟨by rw [hlv, hl1]; rfl, ?_⟩
    rw [hl, htable.2.1 hd, hl1]
    decide

/-- C6, amended, at a concrete input: the sample game, difficulty normal at
level 1 with no asteroid, with a Math.random whose first two values are 0.5 and
whose other values are 0.  The first draw of the sampling loop is the position
of the ship and is rejected: within one round of the loop the update does not
return; within two rounds it returns, at level 2 with 6 asteroids. -/
theorem C6_level_up_witness :
    Game.update (retryHost Real.sqrt Real.cos Real.sin Real.pi 0) 1
      (sampleGame : Game ℝ) = none ∧
    ∃ g1, Game.update (retryHost Real.sqrt Real.cos Real.sin Real.pi 0) 2
        (sampleGame : Game ℝ) = some g1 ∧ g1.level = 2 ∧ g1.asteroids.length = 6 := by
  obtain ⟨hw, hh, hx, hy, he, hr⟩ :=
    sampleGame_entities (retryHost Real.sqrt Real.cos Real.sin Real.pi 0)
  obtain ⟨h1, -, h3, -⟩ := C6_level_up (retryHost Real.sqrt Real.cos Real.sin Real.pi 0) 2
    (sampleGame : Game ℝ) ⟨rfl, rfl⟩
  obtain ⟨g1, hg1⟩ := h3 (retry_samplingEnds_at 0 _ hw hh hx hy)
  refine ⟨?_, g1, hg1, ((h1 g1 hg1).1 he).2.2.2.2 rfl rfl⟩
  apply Game.update_none _ 1 _ ⟨rfl, rfl⟩ he (by show (0 : Int) ≤ 1; decide)
  rw [hr]
  exact retry_first_draw 0 _ hw hh hx hy

/-- C7: over the reals, with Math.sqrt the real square root, one pass of
updateDifficulty maps every asteroid by rescale; rescale replaces a non-zero
velocity v by (target / |v|) * v with target / |v| > 0, so that the direction is
kept and the magnitude becomes target = baseSpeed(size) * multiplier (2, 3, 4 by
size; 0.7, 1, 1.5 by difficulty); an asteroid with zero velocity is left as it
is. -/
theorem C7_rescale (H : Host ℝ) (hs : H.sqrt = Real.sqrt) (g : Game ℝ) (a : Asteroid ℝ)
    (d : Difficulty) :
    (Game.updateDifficulty H g).asteroids =
      g.asteroids.map (Game.rescale H g.settings.difficulty) ∧
    ((a.velocity.x ≠ 0 ∨ a.velocity.y ≠ 0) →
      0 < Game.targetSpeed d a.size / Real.sqrt (a.velocity.x ^ 2 + a.velocity.y ^ 2) ∧
      (Game.rescale H d a).velocity.x =
        Game.targetSpeed d a.size / Real.sqrt (a.velocity.x ^ 2 + a.velocity.y ^ 2) *
          a.velocity.x ∧
      (Game.rescale H d a).velocity.y =
        Game.targetSpeed d a.size / Real.sqrt (a.velocity.x ^ 2 + a.velocity.y ^ 2) *
          a.velocity.y ∧
      Real.sqrt ((Game.rescale H d a).velocity.x ^ 2 + (Game.rescale H d a).velocity.y ^ 2) =
        Game.targetSpeed d a.size) ∧
    ((a.velocity.x = 0 ∧ a.velocity.y = 0) → Game.rescale H d a = a) ∧
    ((Game.rescale H d a).size = a.size ∧ (Game.rescale H d a).x = a.x ∧
      (Game.rescale H d a).y = a.y ∧ (Game.rescale H d a).radius = a.radius) ∧
    (Game.targetSpeed d Size.large = 2 * (speedMultiplier d : ℝ) ∧
      Game.targetSpeed d Size.medium = 3 * (speedMultiplier d : ℝ) ∧
      Game.targetSpeed d Size.small = 4 * (speedMultiplier d : ℝ)) ∧
    ((speedMultiplier Difficulty.easy : ℝ) = 7 / 10 ∧
      (speedMultiplier Difficulty.normal : ℝ) = 1 ∧
      (speedMultiplier Difficulty.hard : ℝ) = 3 / 2) := by
  have htarget : 0 < (Game.targetSpeed d a.size : ℝ) := by
    unfold Game.targetSpeed speedMultiplier
    cases d <;> cases a.size <;> simp
  refine ⟨rfl, ?_, ?_, ?_, ⟨?_, ?_, ?_⟩, rfl, rfl, rfl⟩
  · intro hv
    have hsq : 0 < a.velocity.x ^ 2 + a.velocity.y ^ 2 := by
      rcases hv with hv | hv
      · nlinarith [sq_nonneg a.velocity.y, sq_pos_of_ne_zero hv]
      · nlinarith [sq_nonneg a.velocity.x, sq_pos_of_ne_zero hv]
    have hpos : 0 < Real.sqrt (a.velocity.x ^ 2 + a.velocity.y ^ 2) := Real.sqrt_pos.mpr hsq
    have hratio : 0 < Game.targetSpeed d a.size /
        Real.sqrt (a.velocity.x ^ 2 + a.velocity.y ^ 2) := div_pos htarget hpos
    have hx : (Game.rescale H d a).velocity.x =
        Game.targetSpeed d a.size / Real.sqrt (a.velocity.x ^ 2 + a.velocity.y ^ 2) *
          a.velocity.x := by
      simp only [Game.rescale, hs, gt_iff_lt, hpos, if_true]
      ring
    have hy : (Game.rescale H d a).velocity.y =
        Game.targetSpeed d a.size / Real.sqrt (a.velocity.x ^ 2 + a.velocity.y ^ 2) *
          a.velocity.y := by
      simp only [Game.rescale, hs, gt_iff_lt, hpos, if_true]
      ring
    refine ⟨hratio, hx, hy, ?_⟩
    rw [hx, hy]
    have : (Game.targetSpeed d a.size / Real.sqrt (a.velocity.x ^ 2 + a.velocity.y ^ 2) *
          a.velocity.x) ^ 2 +
        (Game.targetSpeed d a.size / Real.sqrt (a.velocity.x ^ 2 + a.velocity.y ^ 2) *
          a.velocity.y) ^ 2 = (Game.targetSpeed d a.size) ^ 2 := by
      have hss : Real.sqrt (a.velocity.x ^ 2 + a.velocity.y ^ 2) ^ 2 =
          a.velocity.x ^ 2 + a.velocity.y ^ 2 := Real.sq_sqrt hsq.le
      calc _ = (Game.targetSpeed d a.size /
              Real.sqrt (a.velocity.x ^ 2 + a.velocity.y ^ 2)) ^ 2 *
            (a.velocity.x ^ 2 + a.velocity.y ^ 2) := by ring
        _ = (Game.targetSpeed d a.size /
              Real.sqrt (a.velocity.x ^ 2 + a.velocity.y ^ 2)) ^ 2 *
            Real.sqrt (a.velocity.x ^ 2 + a.velocity.y ^ 2) ^ 2 := by rw [hss]
        _ = (Game.targetSpeed d a.size) ^ 2 := by
          rw [div_pow, div_mul_cancel₀]
          exact pow_ne_zero 2 hpos.ne'
    rw [this]
    exact Real.sqrt_sq htarget.le
  · rintro ⟨hx, hy⟩
    simp [Game.rescale, hs, hx, hy]
  · simp only [Game.rescale]
    split <;> exact ⟨rfl, rfl, rfl, rfl⟩
  · simp [Game.targetSpeed]
  · simp [Game.targetSpeed]
  · simp [Game.targetSpeed]

/-- C7 at a concrete input: a large asteroid created with velocity
(-3/2, -3/2) is rescaled to speed 2 * 3/2 under difficulty hard. -/
theorem C7_rescale_witness :
    (sampleHost Real.sqrt Real.cos Real.sin Real.pi).sqrt = Real.sqrt ∧
    Real.sqrt
      ((Game.rescale (sampleHost Real.sqrt Real.cos Real.sin Real.pi) Difficulty.hard
        (Asteroid.constructor (sampleHost Real.sqrt Real.cos Real.sin Real.pi)
          100 100 Size.large 0).1).velocity.x ^ 2 +
       (Game.rescale (sampleHost Real.sqrt Real.cos Real.sin Real.pi) Difficulty.hard
        (Asteroid.constructor (sampleHost Real.sqrt Real.cos Real.sin Real.pi)
          100 100 Size.large 0).1).velocity.y ^ 2) = 2 * (3 / 2) :=
  ⟨rfl, by
    have h := ((C7_rescale (sampleHost Real.sqrt Real.cos Real.sin Real.pi) rfl sampleGame
      (Asteroid.constructor (sampleHost Real.sqrt Real.cos Real.sin Real.pi)
        100 100 Size.large 0).1 Difficulty.hard).2.1
      (Or.inl (by norm_num [Asteroid.constructor, sampleHost]))).2.2.2
    rw [h]
    simp [Game.targetSpeed, speedMultiplier]⟩

/-- C8: in a running tick in which no bullet is within the radius of an asteroid
when checkCollisions runs (no hit occurs), whenever update returns, comboCount
is 0 when the tick's clock reading minus lastHitTime exceeds 2000, and the
former comboCount when it is at most 2000; in particular a tick 2001 ms after
the last hit leaves comboCount 0.  These are the values the combo statement of
update leaves, before the level-up block is entered.  The update returns
whenever the game has an asteroid, and whenever the sampling loops end. -/
theorem C8_combo_reset (H : Host α) (fuel : Nat) (g : Game α)
    (hrun : g.gameOver = false ∧ g.paused = false)
    (hno : ∀ b ∈ (Game.updateEntities H g).bullets, ∀ a ∈ (Game.updateEntities H g).asteroids,
      ¬ bulletOverlaps H b a) :
    (∀ g1, Game.update H fuel g = some g1 →
      (Game.tickNow H g - g.lastHitTime > 2000 → g1.comboCount = 0) ∧
      (Game.tickNow H g - g.lastHitTime ≤ 2000 → g1.comboCount = g.comboCount) ∧
      (Game.tickNow H g = g.lastHitTime + 2001 → g1.comboCount = 0) ∧
      g1.lastHitTime = g.lastHitTime) ∧
    (Game.resetCombo (Game.tickNow H g) (Game.updateToCollisions H g)).comboCount =
      (if Game.tickNow H g - g.lastHitTime > 2000 then 0 else g.comboCount) ∧
    (g.asteroids ≠ [] → ∃ g1, Game.update H fuel g = some g1) ∧
    (Game.samplingEnds H fuel (Game.updateEntities H g) →
      ∃ g1, Game.update H fuel g = some g1) := by
  obtain ⟨hc, -, hea, -⟩ := Game.updateEntities_frame H g
  have hp : Game.checkProjectiles H (Game.updateEntities H g) = Game.updateEntities H g :=
    Game.checkProjectiles_no_overlap H _ hno
  obtain ⟨-, hsc, hsl, -, -⟩ := Game.checkShip_frame H (Game.updateEntities H g)
  have hcc : (Game.updateToCollisions H g).comboCount = g.comboCount := by
    unfold Game.updateToCollisions Game.checkCollisions
    rw [hp, hsc]
    exact hc.2.2.2.2.1
  have hcl : (Game.updateToCollisions H g).lastHitTime = g.lastHitTime := by
    unfold Game.updateToCollisions Game.checkCollisions
    rw [hp, hsl]
    exact hc.2.2.2.2.2.1
  have hca : (Game.updateToCollisions H g).asteroids =
      g.asteroids.map (Asteroid.update g.width g.height) := by
    show (Game.checkCollisions _ _).asteroids = _
    rw [Game.checkCollisions_asteroids, hp, hea]
  obtain ⟨-, -, hrl, hrc⟩ :=
    Game.resetCombo_frame (Game.tickNow H g) (Game.updateToCollisions H g)
  rw [hcl] at hrl
  rw [hcl, hcc] at hrc
  refine ⟨?_, hrc, ?_, Game.update_returns H fuel g hrun⟩
  · intro g1 h1
    obtain ⟨-, -, h3, h4⟩ := Game.update_some H fuel g g1 hrun h1
    refine ⟨fun h => ?_, fun h => ?_, fun h => ?_, h4.trans hrl⟩
    · rw [h3, hrc, if_pos h]
    · rw [h3, hrc, if_neg (not_lt.mpr h)]
    · rw [h3, hrc, if_pos (by omega)]
  · intro hne
    apply Game.update_returns_nonempty H fuel g hrun
    rw [hca]
    intro hnil
    rw [List.map_eq_nil_iff] at hnil
    exact hne hnil

/-- C8 at a concrete input: the update of the calm sample, whose tick reads the
clock 2001 ms after the last hit and has no bullet within an asteroid, returns
without any sampling and ends with comboCount 0. -/
theorem C8_combo_reset_witness :
    ∃ g1, Game.update (sampleHost Real.sqrt Real.cos Real.sin Real.pi) 1
        (calmSample (sampleHost Real.sqrt Real.cos Real.sin Real.pi)) = some g1 ∧
      g1.comboCount = 0 := by
  obtain ⟨h1, -, h3, -⟩ := C8_combo_reset
    (sampleHost Real.sqrt Real.cos Real.sin Real.pi) 1
    (calmSample (sampleHost Real.sqrt Real.cos Real.sin Real.pi)) ⟨rfl, rfl⟩
    calmSample_no_overlap
  obtain ⟨g1, hg1⟩ := h3 (fun h => List.noConfusion h)
  exact ⟨g1, hg1, (h1 g1 hg1).2.2.1 (by decide)⟩

/-- C9: when paused or gameOver is set, Game.update returns the state it was
given, every field unchanged, and so does the simulation step of gameLoop. -/
theorem C9_no_tick_when_paused_or_over (H : Host α) (fuel : Nat) (g : Game α)
    (h : g.paused = true ∨ g.gameOver = true) :
    Game.update H fuel g = some g ∧ Game.gameLoop H fuel g = some g := by
  have hu : Game.update H fuel g = some g := by
    unfold Game.update
    rcases h with h | h <;> simp [h]
  refine ⟨hu, ?_⟩
  unfold Game.gameLoop
  split
  · exact hu
  · rfl

/-- C9 at a concrete input: the sample game once it is over. -/
theorem C9_no_tick_when_paused_or_over_witness :
    Game.update (sampleHost Real.sqrt Real.cos Real.sin Real.pi) 1
        { (sampleGame : Game ℝ) with gameOver := true, score := 120 } =
      some { (sampleGame : Game ℝ) with gameOver := true, score := 120 } ∧
    Game.gameLoop (sampleHost Real.sqrt Real.cos Real.sin Real.pi) 1
        { (sampleGame : Game ℝ) with gameOver := true, score := 120 } =
      some { (sampleGame : Game ℝ) with gameOver := true, score := 120 } :=
  C9_no_tick_when_paused_or_over (sampleHost Real.sqrt Real.cos Real.sin Real.pi) 1
    { (sampleGame : Game ℝ) with gameOver := true, score := 120 } (Or.inr rfl)

/-- C10: endGame sets gameOver; with total = score + timeBonus, when total
exceeds highScore the new highScore is total and saveHighScore is called with
it, otherwise highScore, the saves and the storage are unchanged; for a numeric
highScore h the new value is max(h, total); a second endGame changes nothing. -/
theorem C10_endGame (g : Game α) :
    (Game.endGame g).gameOver = true ∧
    (Game.endGame g).score = g.score ∧ (Game.endGame g).timeBonus = g.timeBonus ∧
    (g.isNewHighScore (g.score + g.timeBonus) = true →
      (Game.endGame g).highScore = some (g.score + g.timeBonus) ∧
      (Game.endGame g).savedHighScores = g.savedHighScores ++ [g.score + g.timeBonus]) ∧
    (g.isNewHighScore (g.score + g.timeBonus) = false →
      (Game.endGame g).highScore = g.highScore ∧
      (Game.endGame g).savedHighScores = g.savedHighScores ∧
      (Game.endGame g).storage = g.storage) ∧
    (∀ h : Int, g.highScore = some h →
      (g.isNewHighScore (g.score + g.timeBonus) = true ↔ g.score + g.timeBonus > h) ∧
      (Game.endGame g).highScore = some (max h (g.score + g.timeBonus))) ∧
    Game.endGame (Game.endGame g) = Game.endGame g := by
  by_cases hn : g.isNewHighScore (g.score + g.timeBonus) = true
  · have hn1 : Game.isNewHighScore (g.score + g.timeBonus) { g with gameOver := true } = true := hn
    have he : Game.endGame g = Game.saveHighScore (g.score + g.timeBonus)
        { g with gameOver := true, highScore := some (g.score + g.timeBonus) } := by
      simp only [Game.endGame, hn1, if_true]
    refine ⟨?_, ?_, ?_, ?_, ?_, ?_, ?_⟩
    · rw [he]; rfl
    · rw [he]; rfl
    · rw [he]; rfl
    · intro _; rw [he]; exact ⟨rfl, rfl⟩
    · intro hf; rw [hn] at hf; cases hf
    · intro h hh
      have hgt : g.score + g.timeBonus > h := by
        simpa [Game.isNewHighScore, hh] using hn
      refine ⟨⟨fun _ => hgt, fun _ => hn⟩, ?_⟩
      rw [he, max_eq_right hgt.le]; rfl
    · rw [he]
      simp [Game.endGame, Game.saveHighScore, Game.isNewHighScore]
  · have hn0 : g.isNewHighScore (g.score + g.timeBonus) = false := by
      simpa using hn
    have hn1 : Game.isNewHighScore (g.score + g.timeBonus) { g with gameOver := true } = false :=
      hn0
    have he : Game.endGame g = { g with gameOver := true } := by
      simp [Game.endGame, hn1]
    refine ⟨?_, ?_, ?_, ?_, ?_, ?_, ?_⟩
    · rw [he]
    · rw [he]
    · rw [he]
    · intro ht; rw [hn0] at ht; cases ht
    · intro _; rw [he]; exact ⟨rfl, rfl, rfl⟩
    · intro h hh
      have hle : ¬ g.score + g.timeBonus > h := by
        simpa [Game.isNewHighScore, hh] using hn0
      refine ⟨⟨fun ht => absurd ht hn, fun hgt => absurd hgt hle⟩, ?_⟩
      rw [he, max_eq_left (not_lt.mp hle)]; exact hh
    · rw [he]
      simp [Game.endGame, hn1]

/-- C11 as stated fails: restart ends with a call of gameLoop, which runs the
first update before restart returns, and that update stores in elapsedTime the
clock reading of the update minus the one stored in startTime.  For the sample
game once it is over, with a clock that advances by 1 ms at every reading,
elapsedTime is 1 after restart, not 0. -/
theorem C11_counterexample :
    ∃ g1, Game.restart (sampleHost Real.sqrt Real.cos Real.sin Real.pi) 1
        { (sampleGame : Game ℝ) with gameOver := true, score := 120 } = some g1 ∧
      g1.elapsedTime = 1 ∧ g1.elapsedTime ≠ 0 := by
  obtain ⟨new, r, -, -, -, hres⟩ := Game.restart_eq
    (sampleHost Real.sqrt Real.cos Real.sin Real.pi) 1
    { (sampleGame : Game ℝ) with gameOver := true, score := 120 }
    (sample_restart_samplingEnds _ rfl rfl)
  obtain ⟨f1, f2, f3, f4, f5, f6, f7, f8, f9, f10, f11, f12, f13, f14, f15, f16, f17⟩ :=
    Game.resetState_fields (sampleHost Real.sqrt Real.cos Real.sin Real.pi)
      { (sampleGame : Game ℝ) with gameOver := true, score := 120 }
  have he := (Game.quiet_fields (sampleHost Real.sqrt Real.cos Real.sin Real.pi)
    { Game.resetState (sampleHost Real.sqrt Real.cos Real.sin Real.pi)
        { (sampleGame : Game ℝ) with gameOver := true, score := 120 } with
      asteroids := new, randomCalls := r } f9).1
  have hval : (sampleHost Real.sqrt Real.cos Real.sin Real.pi).now
      (Game.resetState (sampleHost Real.sqrt Real.cos Real.sin Real.pi)
        { (sampleGame : Game ℝ) with gameOver := true, score := 120 }).nowCalls -
      (Game.resetState (sampleHost Real.sqrt Real.cos Real.sin Real.pi)
        { (sampleGame : Game ℝ) with gameOver := true, score := 120 }).startTime = 1 := by
    rw [f16, f17]
    decide
  refine ⟨_, hres, ?_, ?_⟩
  · rw [he]
    exact hval
  · rw [he]
    show (sampleHost Real.sqrt Real.cos Real.sin Real.pi).now
      (Game.resetState _ _).nowCalls - (Game.resetState _ _).startTime ≠ 0
    rw [hval]
    decide

/-- C11, amended: over the reals, with Math.sqrt the square root, Math.random
in [0, 1], a canvas of non-negative size and sampling loops that end, restart
resets the state and runs the first update.  The state it hands to gameLoop has
gameOver and paused false, score 0, level 1, elapsedTime, timeBonus, comboCount
and lastHitTime 0, and no bullet or particle.  After restart gameOver and
paused are false, score is 0, level 1, comboCount and lastHitTime 0, there is
no bullet or particle, the ship is at the centre with zero velocity and heading
0, and the asteroids are exactly getAsteroidCount (3, 5, 7) large ones;
elapsedTime is the clock reading of the first update minus the reading stored
in startTime, 0 when the clock has not advanced, and timeBonus is twice the
whole seconds of it. -/
theorem C11_restart (H : Host ℝ) (fuel : Nat) (g : Game ℝ) (hsqrt : H.sqrt = Real.sqrt)
    (hrand : ∀ n, 0 ≤ H.random n ∧ H.random n ≤ 1) (hw : 0 ≤ g.width) (hh : 0 ≤ g.height)
    (hs : Game.samplingEnds H fuel (Game.resetState H g)) :
    ∃ g0 g1, Game.restartReset H fuel g = some g0 ∧ Game.restart H fuel g = some g1 ∧
      (g0.gameOver = false ∧ g0.paused = false ∧ g0.score = 0 ∧ g0.level = 1 ∧
        g0.elapsedTime = 0 ∧ g0.timeBonus = 0 ∧ g0.comboCount = 0 ∧ g0.lastHitTime = 0 ∧
        g0.bullets = [] ∧ g0.particles = []) ∧
      (g1.gameOver = false ∧ g1.paused = false ∧ g1.score = 0 ∧ g1.level = 1 ∧
        g1.comboCount = 0 ∧ g1.lastHitTime = 0 ∧ g1.bullets = [] ∧ g1.particles = []) ∧
      (g1.elapsedTime = H.now g0.nowCalls - H.now g.nowCalls ∧
        g1.timeBonus = Int.fdiv g1.elapsedTime 1000 * 2 ∧
        (H.now g0.nowCalls = H.now g.nowCalls → g1.elapsedTime = 0 ∧ g1.timeBonus = 0)) ∧
      (g1.player.x = g.width / 2 ∧ g1.player.y = g.height / 2 ∧
        g1.player.velocity = { x := 0, y := 0 } ∧ g1.player.angle = 0) ∧
      (g1.settings = g.loadSettings ∧ (g1.asteroids.length : Int) = g1.getAsteroidCount ∧
        (∀ a ∈ g1.asteroids, a.size = Size.large) ∧
        (g1.settings.difficulty = Difficulty.easy → g1.getAsteroidCount = 3) ∧
        (g1.settings.difficulty = Difficulty.normal → g1.getAsteroidCount = 5) ∧
        (g1.settings.difficulty = Difficulty.hard → g1.getAsteroidCount = 7)) := by
  obtain ⟨new, r, hlen, hsp, hreset, hres⟩ := Game.restart_eq H fuel g hs
  obtain ⟨f1, f2, f3, f4, f5, f6, f7, f8, f9, f10, f11, f12, f13, f14, f15, f16, f17⟩ :=
    Game.resetState_fields H g
  obtain ⟨-, p2, p3, p4, p5, -⟩ := Game.resetState_player H g
  obtain ⟨q1, q2, q3, q4, q5, q6, q7, q8, q9, q10, q11, q12⟩ := Game.quiet_fields H
    { Game.resetState H g with asteroids := new, randomCalls := r } f9
  have hpx : (Game.resetState H g).player.x = (Game.resetState H g).width / 2 := by
    rw [p2, f13]
  have hpy : (Game.resetState H g).player.y = (Game.resetState H g).height / 2 := by
    rw [p3, f14]
  have hgo := Game.quiet_gameOver H
    { Game.resetState H g with asteroids := new, randomCalls := r } hsqrt hrand
    (by show 0 ≤ (Game.resetState H g).width; rw [f13]; exact hw)
    (by show 0 ≤ (Game.resetState H g).height; rw [f14]; exact hh)
    f1 f15 p5 hpx hpy
    (by
      intro a ha
      show Asteroid.spawned H (Game.resetState H g).width (Game.resetState H g).height
        (Game.resetState H g).player.x (Game.resetState H g).player.y a
      rw [f13, f14, p2, p3]
      exact hsp a ha)
  obtain ⟨r1, r2, r3, r4⟩ := Player.update_at_rest H (Game.resetState H g).width
    (Game.resetState H g).height (Game.resetState H g).player
    ((Game.resetState H g).nowCalls + 2) p5
    (by rw [p2]; linarith) (by rw [p2, f13]; linarith) (by rw [p3]; linarith)
    (by rw [p3, f14]; linarith)
  have hcount0 : 0 ≤ (Game.resetState H g).getAsteroidCount := by
    rw [Game.getAsteroidCount_eq]
    cases (Game.resetState H g).settings.difficulty <;> simp
  have hcount : ∀ s : Game ℝ, s.settings = g.loadSettings →
      s.getAsteroidCount = (Game.resetState H g).getAsteroidCount := by
    intro s hsset
    unfold Game.getAsteroidCount
    rw [hsset, f12]
  refine ⟨_, _, hreset, hres, ⟨f1, f2, f3, f4, f5, f6, f7, f8, f9, f10⟩,
    ⟨hgo, q3.trans f2, q4.trans f3, q5.trans f4, q7 f7, q6.trans f8, q8, q9 f10⟩,
    ⟨?_, ?_, ?_⟩, ⟨?_, ?_, ?_, ?_⟩, ⟨q10.trans f12, ?_, ?_, ?_⟩⟩
  · rw [q1]
    show H.now (Game.resetState H g).nowCalls - (Game.resetState H g).startTime = _
    rw [f16]
  · rw [q2, q1]
  · intro hsame
    have hsame1 : H.now (Game.resetState H g).nowCalls = H.now g.nowCalls := hsame
    constructor
    · rw [q1]
      show H.now (Game.resetState H g).nowCalls - (Game.resetState H g).startTime = 0
      rw [f16, hsame1, sub_self]
    · rw [q2]
      show Int.fdiv (H.now (Game.resetState H g).nowCalls - (Game.resetState H g).startTime)
        1000 * 2 = 0
      rw [f16, hsame1, sub_self]
      rfl
  · rw [q12]
    show (Player.update H (Game.resetState H g).keys _ _ _ _).1.x = _
    rw [f15, r1, p2]
  · rw [q12]
    show (Player.update H (Game.resetState H g).keys _ _ _ _).1.y = _
    rw [f15, r2, p3]
  · rw [q12]
    show (Player.update H (Game.resetState H g).keys _ _ _ _).1.velocity = _
    rw [f15, r4]
  · rw [q12]
    show (Player.update H (Game.resetState H g).keys _ _ _ _).1.angle = _
    rw [f15, r3, p4]
  · rw [hcount _ (q10.trans f12), q11]
    show (((List.map _ new).map _).length : Int) = _
    rw [List.length_map, List.length_map, hlen]
    exact Int.toNat_of_nonneg hcount0
  · intro a ha
    rw [q11] at ha
    obtain ⟨a1, ha1, rfl⟩ := List.mem_map.mp ha
    have ha2 : a1 ∈ List.map (Asteroid.update (Game.resetState H g).width
        (Game.resetState H g).height) new := ha1
    obtain ⟨a0, ha0, rfl⟩ := List.mem_map.mp ha2
    rw [Game.rescale_size, (Asteroid.update_size _ _ a0).1]
    exact (hsp a0 ha0).1
  · have htab := Game.getAsteroidCount_eq
      (Game.updateDifficulty H (Game.resetCombo
        (Game.tickNow H { Game.resetState H g with asteroids := new, randomCalls := r })
        (Game.checkShip H (Game.updateEntities H
          { Game.resetState H g with asteroids := new, randomCalls := r }))))
    refine ⟨fun h => ?_, fun h => ?_, fun h => ?_⟩ <;> rw [htab, h]

/-- C11, amended, at a concrete input: the sample game once it is over, with
the clock that advances by 1 ms at every reading. -/
theorem C11_restart_witness :
    ∃ g1, Game.restart (sampleHost Real.sqrt Real.cos Real.sin Real.pi) 1
        { (sampleGame : Game ℝ) with gameOver := true, score := 120 } = some g1 ∧
      g1.gameOver = false ∧ g1.score = 0 ∧ g1.level = 1 ∧
      (g1.asteroids.length : Int) = 5 ∧ (∀ a ∈ g1.asteroids, a.size = Size.large) := by
  obtain ⟨g0, g1, -, h1, -, h2, -, -, h3⟩ := C11_restart
    (sampleHost Real.sqrt Real.cos Real.sin Real.pi) 1
    { (sampleGame : Game ℝ) with gameOver := true, score := 120 } rfl
    (fun n => ⟨le_refl (0 : ℝ), zero_le_one⟩)
    (by show (0 : ℝ) ≤ 800; norm_num) (by show (0 : ℝ) ≤ 600; norm_num)
    (sample_restart_samplingEnds _ rfl rfl)
  refine ⟨g1, h1, h2.1, h2.2.2.1, h2.2.2.2.1, ?_, h3.2.2.1⟩
  rw [h3.2.1]
  exact h3.2.2.2.2.1 (by rw [h3.1]; rfl)

/-- C12 as stated fails: in a window of 100 by 100 no point of the canvas is at
least 100 away from the ship at the centre, so that the sampling loop of the
adding branch of applyDifficulty never ends.  The small sample has no asteroid
and target count 5, and applyDifficulty does not return on it, whatever the
number of rounds allowed: the collection never reaches length 5. -/
theorem C12_counterexample :
    (smallSample : Game ℝ).asteroids = [] ∧ (smallSample : Game ℝ).targetCount = 5 ∧
    (∀ fuel, Game.applyDifficulty (sampleHost Real.sqrt Real.cos Real.sin Real.pi) fuel
      (smallSample : Game ℝ) = none) ∧
    (∀ (H : Host ℝ) (fuel : Nat), H.sqrt = Real.sqrt →
      (∀ n, 0 ≤ H.random n ∧ H.random n ≤ 1) →
      Game.applyDifficulty H fuel (smallSample : Game ℝ) = none) := by
  have hall : ∀ (H : Host ℝ) (fuel : Nat), H.sqrt = Real.sqrt →
      (∀ n, 0 ≤ H.random n ∧ H.random n ≤ 1) →
      Game.applyDifficulty H fuel (smallSample : Game ℝ) = none := by
    intro H fuel hsqrt hrand
    apply Game.applyDifficulty_none H fuel _ (by show ((0 : Nat) : Int) < 5; decide)
    apply Game.samplePosition_none
    intro k
    exact small_canvas_near H hsqrt _ _ (hrand k) (hrand (k + 1))
  exact ⟨rfl, rfl, fun fuel => hall _ fuel rfl (fun n => ⟨le_refl (0 : ℝ), zero_le_one⟩), hall⟩

/-- C12, amended: whenever applyDifficulty returns, the asteroid collection has
exactly the target count of the difficulty (3, 5, 7); its first min(n, t)
entries are the first min(n, t) asteroids of before, in their order, changed by
the rescaling of the velocity only (position, size and radius are kept); when
the collection was at least as long as the target, what is removed is its tail;
every asteroid beyond the former length is large.  applyDifficulty returns
whenever the collection is at least as long as the target, where no position is
sampled, and whenever the sampling loops end. -/
theorem C12_applyDifficulty (H : Host α) (fuel : Nat) (g : Game α) :
    (∀ g1, Game.applyDifficulty H fuel g = some g1 →
      (g1.asteroids.length : Int) = g.targetCount ∧
      g1.asteroids.take (min g.asteroids.length g.targetCount.toNat) =
        (g.asteroids.take (min g.asteroids.length g.targetCount.toNat)).map
          (Game.rescale H g.settings.difficulty) ∧
      (g.targetCount.toNat ≤ g.asteroids.length →
        g1.asteroids = (g.asteroids.take g.targetCount.toNat).map
          (Game.rescale H g.settings.difficulty)) ∧
      (∀ a ∈ g1.asteroids.drop g.asteroids.length, a.size = Size.large)) ∧
    ((g.settings.difficulty = Difficulty.easy → g.targetCount = 3) ∧
      (g.settings.difficulty = Difficulty.normal → g.targetCount = 5) ∧
      (g.settings.difficulty = Difficulty.hard → g.targetCount = 7)) ∧
    (∀ a : Asteroid α, (Game.rescale H g.settings.difficulty a).x = a.x ∧
      (Game.rescale H g.settings.difficulty a).y = a.y ∧
      (Game.rescale H g.settings.difficulty a).size = a.size ∧
      (Game.rescale H g.settings.difficulty a).radius = a.radius) ∧
    (g.targetCount ≤ (g.asteroids.length : Int) →
      ∃ g1, Game.applyDifficulty H fuel g = some g1) ∧
    (Game.samplingEnds H fuel g → ∃ g1, Game.applyDifficulty H fuel g = some g1) := by
  have ht := Game.targetCount_eq g
  have ht0 : 0 ≤ g.targetCount := by
    rw [ht]
    cases g.settings.difficulty <;> simp
  have hl1 : ((g.asteroids.map (Game.rescale H g.settings.difficulty)).take
      g.targetCount.toNat).length = min g.targetCount.toNat g.asteroids.length := by
    rw [List.length_take, List.length_map]
  refine ⟨?_, ?_, ?_, Game.applyDifficulty_returns_full H fuel g, ?_⟩
  · intro g1 h1
    obtain ⟨new, has, hnl, hall⟩ := Game.applyDifficulty_some H fuel g g1 h1
    refine ⟨?_, ?_, ?_, ?_⟩
    · rw [has, List.length_append, hl1, hnl]
      have : min g.targetCount.toNat g.asteroids.length +
          (g.targetCount.toNat - g.asteroids.length) = g.targetCount.toNat := by omega
      rw [this]
      exact Int.toNat_of_nonneg ht0
    · rw [has, List.take_append_of_le_length (by rw [hl1]; omega), List.take_take,
        List.map_take]
      congr 1
      omega
    · intro hle
      have hn : new = [] := by
        apply List.eq_nil_of_length_eq_zero
        rw [hnl]
        omega
      rw [has, hn, List.append_nil, List.map_take]
    · intro a ha
      rw [has, List.drop_append_eq_append_drop, List.drop_eq_nil_of_le (by rw [hl1]; omega),
        List.nil_append] at ha
      exact hall a (List.mem_of_mem_drop ha)
  · refine ⟨fun h => ?_, fun h => ?_, fun h => ?_⟩ <;> rw [ht, h]
  · intro a
    simp only [Game.rescale]
    split <;> exact ⟨rfl, rfl, rfl, rfl⟩
  · intro hs
    obtain ⟨new, r, heq, -, -⟩ := Game.applyDifficulty_eq H fuel g hs
    exact ⟨_, heq⟩

/-- C12, amended, at a concrete input: the sample with two asteroids under
difficulty normal, with a Math.random whose values number 24 and 25, the first
draw of the adding loop, are 0.5 and whose other values are 0.  The first draw
is the position of the ship and is rejected: within one round of the sampling
loop applyDifficulty does not return; within two rounds it returns and leaves 5
asteroids that begin with the two of before, rescaled. -/
theorem C12_applyDifficulty_witness :
    Game.applyDifficulty (retryHost Real.sqrt Real.cos Real.sin Real.pi 24) 1
      (collisionSample (retryHost Real.sqrt Real.cos Real.sin Real.pi 24)) = none ∧
    ∃ g1, Game.applyDifficulty (retryHost Real.sqrt Real.cos Real.sin Real.pi 24) 2
        (collisionSample (retryHost Real.sqrt Real.cos Real.sin Real.pi 24)) = some g1 ∧
      (g1.asteroids.length : Int) = 5 ∧
      g1.asteroids.take 2 =
        (collisionSample (retryHost Real.sqrt Real.cos Real.sin Real.pi 24)).asteroids.map
          (Game.rescale (retryHost Real.sqrt Real.cos Real.sin Real.pi 24)
            Difficulty.normal) := by
  obtain ⟨h1, h3, -, -, h5⟩ := C12_applyDifficulty
    (retryHost Real.sqrt Real.cos Real.sin Real.pi 24) 2
    (collisionSample (retryHost Real.sqrt Real.cos Real.sin Real.pi 24))
  obtain ⟨g1, hg1⟩ := h5 (retry_samplingEnds_at 24 _ rfl rfl rfl rfl)
  obtain ⟨h2, h4, -⟩ := h1 g1 hg1
  have ht : (collisionSample (retryHost Real.sqrt Real.cos Real.sin Real.pi 24)).targetCount =
      5 := h3.2.1 rfl
  rw [ht] at h2 h4
  refine ⟨?_, g1, hg1, h2, h4⟩
  apply Game.applyDifficulty_none _ 1 _ (by show ((2 : Nat) : Int) < 5; decide)
  exact retry_first_draw 24 _ rfl rfl rfl rfl

/-- C13 fails on the code: no statement assigns boostDuration, and the
comparison of Player.update with the undefined value is false.  After a restart
under hard with the clock at 1001 the ship has thrust 0.8, boostTime 1001 and
boostDuration undefined; a Player.update with the clock at 1000000, and in fact
every Player.update, leaves thrust 0.8 and boostTime 1001. -/
theorem C13_boost_never_expires :
    (Game.resetState (sampleHost Real.sqrt Real.cos Real.sin Real.pi)
      (hardSample : Game ℝ)).player.thrust = 8 / 10 ∧
    (Game.resetState (sampleHost Real.sqrt Real.cos Real.sin Real.pi)
      (hardSample : Game ℝ)).player.boostTime = some 1001 ∧
    (Game.resetState (sampleHost Real.sqrt Real.cos Real.sin Real.pi)
      (hardSample : Game ℝ)).player.boostDuration = none ∧
    (Player.update (Host.mk Real.sqrt Real.cos Real.sin Real.pi (fun _ => 0) (fun _ => 1000000))
      (fun _ => false) 800 600
      (Game.resetState (sampleHost Real.sqrt Real.cos Real.sin Real.pi)
        (hardSample : Game ℝ)).player 0).1.thrust = 8 / 10 ∧
    (Player.update (Host.mk Real.sqrt Real.cos Real.sin Real.pi (fun _ => 0) (fun _ => 1000000))
      (fun _ => false) 800 600
      (Game.resetState (sampleHost Real.sqrt Real.cos Real.sin Real.pi)
        (hardSample : Game ℝ)).player 0).1.boostTime = some 1001 ∧
    (∀ (H : Host ℝ) (keys : String → Bool) (W Ht : ℝ) (n : Nat),
      (Player.update H keys W Ht
        (Game.resetState (sampleHost Real.sqrt Real.cos Real.sin Real.pi)
          (hardSample : Game ℝ)).player n).1.thrust = 8 / 10 ∧
      (Player.update H keys W Ht
        (Game.resetState (sampleHost Real.sqrt Real.cos Real.sin Real.pi)
          (hardSample : Game ℝ)).player n).1.boostTime = some 1001) := by
  obtain ⟨hd, -, -, -, -, -, hhard, -⟩ := Game.resetState_player
    (sampleHost Real.sqrt Real.cos Real.sin Real.pi) (hardSample : Game ℝ)
  obtain ⟨ht, hb⟩ := hhard rfl
  have hb1 : (Game.resetState (sampleHost Real.sqrt Real.cos Real.sin Real.pi)
      (hardSample : Game ℝ)).player.boostTime = some 1001 := by
    rw [hb]
    rfl
  have hall : ∀ (H : Host ℝ) (keys : String → Bool) (W Ht : ℝ) (n : Nat),
      (Player.update H keys W Ht
        (Game.resetState (sampleHost Real.sqrt Real.cos Real.sin Real.pi)
          (hardSample : Game ℝ)).player n).1.thrust = 8 / 10 ∧
      (Player.update H keys W Ht
        (Game.resetState (sampleHost Real.sqrt Real.cos Real.sin Real.pi)
          (hardSample : Game ℝ)).player n).1.boostTime = some 1001 := by
    intro H keys W Ht n
    obtain ⟨h1, h2, -⟩ := Player.update_boost_fields H keys W Ht
      (Game.resetState (sampleHost Real.sqrt Real.cos Real.sin Real.pi)
        (hardSample : Game ℝ)).player n
    rw [h1, h2, Player.expireBoost_undefined _ _ hd]
    exact ⟨ht, hb1⟩
  exact ⟨ht, hb1, hd, (hall _ _ _ _ _).1, (hall _ _ _ _ _).2, hall⟩

/-- C14 fails on the code: applyDifficultySettings grants the boost whenever the
difficulty is hard, and applyDifficulty calls it.  In the calm sample, a
running game under normal with thrust 0.5 and no boost, selecting hard in the
settings panel leaves the ship with thrust 0.8 and boostTime set to the clock
reading, 2000. -/
theorem C14_live_change_to_hard_boosts :
    (calmSample (sampleHost Real.sqrt Real.cos Real.sin Real.pi)).gameOver = false ∧
    (calmSample (sampleHost Real.sqrt Real.cos Real.sin Real.pi)).paused = false ∧
    (calmSample (sampleHost Real.sqrt Real.cos Real.sin Real.pi)).settings.difficulty =
      Difficulty.normal ∧
    (calmSample (sampleHost Real.sqrt Real.cos Real.sin Real.pi)).player.thrust = 1 / 2 ∧
    (calmSample (sampleHost Real.sqrt Real.cos Real.sin Real.pi)).player.boostTime = none ∧
    ∃ g1, Game.onDifficultyChange (sampleHost Real.sqrt Real.cos Real.sin Real.pi) 1
        Difficulty.hard (calmSample (sampleHost Real.sqrt Real.cos Real.sin Real.pi)) = some g1 ∧
      g1.settings.difficulty = Difficulty.hard ∧
      g1.player.thrust = 8 / 10 ∧ g1.player.boostTime = some 2000 := by
  refine ⟨rfl, rfl, rfl, rfl, rfl, ?_⟩
  obtain ⟨new, r, heq, -, -⟩ := Game.applyDifficulty_eq
    (sampleHost Real.sqrt Real.cos Real.sin Real.pi) 1
    (Game.saveSettings { calmSample (sampleHost Real.sqrt Real.cos Real.sin Real.pi) with
      settings := { (calmSample (sampleHost Real.sqrt Real.cos Real.sin Real.pi)).settings with
        difficulty := Difficulty.hard } })
    (sample_samplingEnds_at _ rfl rfl)
  obtain ⟨hthrust, hboost⟩ := (Game.applyDifficultySettings_thrust
    (sampleHost Real.sqrt Real.cos Real.sin Real.pi)
    (Game.saveSettings { calmSample (sampleHost Real.sqrt Real.cos Real.sin Real.pi) with
      settings := { (calmSample (sampleHost Real.sqrt Real.cos Real.sin Real.pi)).settings with
        difficulty := Difficulty.hard } })).1 rfl
  obtain ⟨-, -, -, -, -, hset⟩ := Game.applyDifficultySettings_frame
    (sampleHost Real.sqrt Real.cos Real.sin Real.pi)
    (Game.saveSettings { calmSample (sampleHost Real.sqrt Real.cos Real.sin Real.pi) with
      settings := { (calmSample (sampleHost Real.sqrt Real.cos Real.sin Real.pi)).settings with
        difficulty := Difficulty.hard } })
  refine ⟨_, heq, ?_, hthrust, ?_⟩
  · show (Game.applyDifficultySettings _ _).settings.difficulty = _
    rw [hset]
    rfl
  · show (Game.applyDifficultySettings _ _).player.boostTime = _
    rw [hboost]
    rfl

/-- C15: the bullet filter of a running update leaves exactly the bullets of
the state before, each advanced by its velocity with life decreased by 1, that
have life > 0, 0 < x < width and 0 < y < height, in their order; this is the
bullet collection on which checkCollisions is called, and the rest of the
update only removes bullets.  After n running updates a bullet left has lost n
of its life and has a positive life, so that bullets created with life 40 are
gone after 40 running updates. -/
theorem C15_bullets_dropped (H : Host α) (fuel : Nat) (g : Game α) (b : Bullet α)
    (x y vx vy : α) :
    (Game.updateBullets g).bullets = (g.bullets.map Bullet.update).filter g.bulletAlive ∧
    (Game.updateEntities H g).bullets = (g.bullets.map Bullet.update).filter g.bulletAlive ∧
    List.Sublist ((g.bullets.map Bullet.update).filter g.bulletAlive)
      (g.bullets.map Bullet.update) ∧
    (g.bulletAlive b = true ↔
      b.life > 0 ∧ b.x > 0 ∧ b.x < g.width ∧ b.y > 0 ∧ b.y < g.height) ∧
    ((Bullet.update b).x = b.x + b.velocity.x ∧ (Bullet.update b).y = b.y + b.velocity.y ∧
      (Bullet.update b).velocity = b.velocity ∧ (Bullet.update b).life = b.life - 1) ∧
    (Bullet.constructor x y vx vy).life = 40 ∧
    (∀ g1, g.gameOver = false → g.paused = false → Game.update H fuel g = some g1 →
      List.Sublist g1.bullets ((g.bullets.map Bullet.update).filter g.bulletAlive)) ∧
    (∀ n g1, Game.runningUpdates H fuel n g = some g1 → ∀ b1 ∈ g1.bullets,
      ∃ b0 ∈ g.bullets, b1.life = b0.life - n ∧ (0 < n → 0 < b1.life)) ∧
    (∀ g1, (∀ b0 ∈ g.bullets, b0.life ≤ 40) →
      Game.runningUpdates H fuel 40 g = some g1 → g1.bullets = []) := by
  refine ⟨rfl, (Game.updateEntities_frame H g).2.1, List.filter_sublist _,
    Game.bulletAlive_iff g b, ⟨rfl, rfl, rfl, rfl⟩, rfl, ?_, ?_, ?_⟩
  · intro g1 h1 h2 h3
    exact Game.update_bullets_sublist H fuel g g1 ⟨h1, h2⟩ h3
  · intro n g1 hn
    exact Game.runningUpdates_life H fuel n g g1 hn
  · intro g1 hle hn
    apply List.eq_nil_iff_forall_not_mem.mpr
    intro b1 hb1
    obtain ⟨b0, hb0, hlife, hpos⟩ := Game.runningUpdates_life H fuel 40 g g1 hn b1 hb1
    have h40 := hle b0 hb0
    have hp := hpos (by norm_num)
    rw [hlife] at hp
    push_cast at hp
    omega

/-- C15 at a concrete input: the update of the collision sample returns, and
the only bullet that can be left is its bullet advanced once. -/
theorem C15_bullets_dropped_witness :
    ∃ g1, Game.update (sampleHost Real.sqrt Real.cos Real.sin Real.pi) 1
        (collisionSample (sampleHost Real.sqrt Real.cos Real.sin Real.pi)) = some g1 ∧
      List.Sublist g1.bullets [Bullet.update (Bullet.constructor 100 100 10 0)] := by
  obtain ⟨g1, h⟩ := Game.update_returns (sampleHost Real.sqrt Real.cos Real.sin Real.pi) 1
    (collisionSample (sampleHost Real.sqrt Real.cos Real.sin Real.pi)) ⟨rfl, rfl⟩
    (sample_samplingEnds _ rfl rfl rfl rfl)
  have hsub := (C15_bullets_dropped (sampleHost Real.sqrt Real.cos Real.sin Real.pi) 1
    (collisionSample (sampleHost Real.sqrt Real.cos Real.sin Real.pi))
    (Bullet.constructor 0 0 0 0) 0 0 0 0).2.2.2.2.2.2.1 g1 rfl rfl h
  exact ⟨g1, h, hsub.trans (List.filter_sublist _)⟩

/-- C16: whenever createAsteroids(count) returns, that is whenever its sampling
loops end, it has appended exactly count asteroids to the collection, each
large and each at distance at least 100 from the ship, and has left the
asteroids already there as they were; it returns when every sampling loop ends
within the fuel. -/
theorem C16_createAsteroids (H : Host α) (fuel : Nat) (count : Int) (g : Game α) :
    (∀ g1, Game.createAsteroids H fuel count g = some g1 →
      ∃ new, g1.asteroids = g.asteroids ++ new ∧ new.length = count.toNat ∧
        (0 ≤ count → (new.length : Int) = count) ∧
        (∀ a ∈ new, a.size = Size.large ∧
          100 ≤ Game.distance H a.x a.y g.player.x g.player.y) ∧
        g1.player = g.player) ∧
    (Game.samplingEnds H fuel g → ∃ g1, Game.createAsteroids H fuel count g = some g1) := by
  constructor
  · intro g1 h
    obtain ⟨new, r, heq, hlen, hall⟩ := Game.createAsteroidsLoop_some H fuel count.toNat g g1 h
    refine ⟨new, by rw [heq], hlen, fun h0 => ?_, fun a ha => ?_, by rw [heq]⟩
    · rw [hlen]
      exact Int.toNat_of_nonneg h0
    · exact ⟨(hall a ha).1, not_lt.mp (hall a ha).2.2⟩
  · intro hs
    obtain ⟨new, r, heq, -, -⟩ := Game.createAsteroidsLoop_eq H fuel count.toNat g hs
    exact ⟨_, heq⟩

/-- C16 at a concrete input: createAsteroids(5) on the sample game returns and
leaves 5 asteroids, all large. -/
theorem C16_createAsteroids_witness :
    ∃ g1, Game.createAsteroids (sampleHost Real.sqrt Real.cos Real.sin Real.pi) 1 5
        (sampleGame : Game ℝ) = some g1 ∧
      g1.asteroids.length = 5 ∧ ∀ a ∈ g1.asteroids, a.size = Size.large := by
  obtain ⟨g1, h⟩ := (C16_createAsteroids (sampleHost Real.sqrt Real.cos Real.sin Real.pi) 1 5
    (sampleGame : Game ℝ)).2 (sample_samplingEnds_at _ rfl rfl)
  obtain ⟨new, hn, hl, -, hall, -⟩ :=
    (C16_createAsteroids (sampleHost Real.sqrt Real.cos Real.sin Real.pi) 1 5
      (sampleGame : Game ℝ)).1 g1 h
  have hn1 : g1.asteroids = new := by
    rw [hn]
    rfl
  refine ⟨g1, h, ?_, ?_⟩
  · rw [hn1, hl]
    rfl
  · intro a ha
    rw [hn1] at ha
    exact (hall a ha).1

/-- C17 fails on the code: Player.update has one block of statements for the
arrow keys and one for the WASD keys.  For a fresh ship, heading 0 and thrust
0.5: with the left arrow alone the heading becomes -0.1, with the up arrow
alone the velocity becomes one impulse (0.5, 0) times 0.99; with the left arrow
and the key a together the heading becomes -0.2, and with the up arrow and the
key w together the velocity is two impulses times 0.99. -/
theorem C17_both_keys_double :
    (Player.update (sampleHost Real.sqrt Real.cos Real.sin Real.pi) (keysHeld ["arrowleft"])
      800 600 (Player.constructor 400 300) 0).1.angle = -(1 / 10) ∧
    (Player.update (sampleHost Real.sqrt Real.cos Real.sin Real.pi) (keysHeld ["arrowleft", "a"])
      800 600 (Player.constructor 400 300) 0).1.angle = -(2 / 10) ∧
    (Player.update (sampleHost Real.sqrt Real.cos Real.sin Real.pi) (keysHeld ["arrowup"])
      800 600 (Player.constructor 400 300) 0).1.velocity.x = 1 / 2 * (99 / 100) ∧
    (Player.update (sampleHost Real.sqrt Real.cos Real.sin Real.pi) (keysHeld ["arrowup", "w"])
      800 600 (Player.constructor 400 300) 0).1.velocity.x = 2 * (1 / 2) * (99 / 100) := by
  refine ⟨?_, ?_, ?_, ?_⟩ <;>
    simp [Player.update, Player.expireBoost, Player.boostTimeTruthy, Player.turn,
      Player.accelerate, Player.move, Player.wrapX, Player.wrapY, Player.constructor,
      keysHeld, sampleHost] <;>
    norm_num

/-- C18 fails on the code: with the string abc stored, loadHighScore returns
parseInt of it, which is NaN (none), not 0 and not an integer.  With no entry,
an empty entry or a storage that throws it returns 0, and with the string 42 it
returns 42. -/
theorem C18_corrupt_high_score_is_NaN :
    Game.loadHighScore (corruptSample : Game ℝ) = none ∧
    Game.loadHighScore (sampleGame : Game ℝ) = some 0 ∧
    Game.loadHighScore { (sampleGame : Game ℝ) with
      storage := { available := true, asteroidGameSettings := none,
                   asteroidGameHighScore := some "" } } = some 0 ∧
    Game.loadHighScore { (sampleGame : Game ℝ) with
      storage := { available := false, asteroidGameSettings := none,
                   asteroidGameHighScore := some "abc" } } = some 0 ∧
    Game.loadHighScore { (sampleGame : Game ℝ) with
      storage := { available := true, asteroidGameSettings := none,
                   asteroidGameHighScore := some "42" } } = some 42 := by
  refine ⟨?_, ?_, ?_, ?_, ?_⟩ <;> decide

/-- C19 fails on the code: in the sample with a small and a large asteroid and
one bullet at the centre of each, both overlapping pairs are present when
checkCollisions starts; the first bullet destroys the small asteroid and is
spliced out, the second bullet moves to index 0 and is never visited, and the
pass ends with the second bullet and the large asteroid, still overlapping,
both in their collections. -/
theorem C19_overlapping_pair_survives :
    (skipSample (sampleHost Real.sqrt Real.cos Real.sin Real.pi)).bullets =
      [Bullet.constructor 100 100 10 0, Bullet.constructor 600 100 10 0] ∧
    (skipSample (sampleHost Real.sqrt Real.cos Real.sin Real.pi)).asteroids =
      [(Asteroid.constructor (sampleHost Real.sqrt Real.cos Real.sin Real.pi)
          100 100 Size.small 0).1,
       (Asteroid.constructor (sampleHost Real.sqrt Real.cos Real.sin Real.pi)
          600 100 Size.large 12).1] ∧
    bulletOverlaps (sampleHost Real.sqrt Real.cos Real.sin Real.pi)
      (Bullet.constructor 600 100 10 0)
      (Asteroid.constructor (sampleHost Real.sqrt Real.cos Real.sin Real.pi)
        600 100 Size.large 12).1 ∧
    (Game.checkCollisions (sampleHost Real.sqrt Real.cos Real.sin Real.pi)
      (skipSample (sampleHost Real.sqrt Real.cos Real.sin Real.pi))).bullets =
      [Bullet.constructor 600 100 10 0] ∧
    (Game.checkCollisions (sampleHost Real.sqrt Real.cos Real.sin Real.pi)
      (skipSample (sampleHost Real.sqrt Real.cos Real.sin Real.pi))).asteroids =
      [(Asteroid.constructor (sampleHost Real.sqrt Real.cos Real.sin Real.pi)
          600 100 Size.large 12).1] := by
  have hov : Game.distance (sampleHost Real.sqrt Real.cos Real.sin Real.pi)
      (Bullet.constructor (100 : ℝ) 100 10 0).x (Bullet.constructor (100 : ℝ) 100 10 0).y
      (Asteroid.constructor (sampleHost Real.sqrt Real.cos Real.sin Real.pi)
        100 100 Size.small 0).1.x
      (Asteroid.constructor (sampleHost Real.sqrt Real.cos Real.sin Real.pi)
        100 100 Size.small 0).1.y <
      (Asteroid.constructor (sampleHost Real.sqrt Real.cos Real.sin Real.pi)
        100 100 Size.small 0).1.radius := by
    show Game.distance _ 100 100 100 100 < Asteroid.radiusOf Size.small
    rw [sample_distance_zero]
    simp [Asteroid.radiusOf]
  obtain ⟨-, hb, ha⟩ := Game.checkProjectiles_skip
    (sampleHost Real.sqrt Real.cos Real.sin Real.pi)
    (skipSample (sampleHost Real.sqrt Real.cos Real.sin Real.pi))
    (Bullet.constructor 100 100 10 0) (Bullet.constructor 600 100 10 0) _ _ rfl rfl rfl hov
  obtain ⟨-, -, -, -, hsb⟩ := Game.checkShip_frame
    (sampleHost Real.sqrt Real.cos Real.sin Real.pi)
    (Game.checkProjectiles (sampleHost Real.sqrt Real.cos Real.sin Real.pi)
      (skipSample (sampleHost Real.sqrt Real.cos Real.sin Real.pi)))
  refine ⟨rfl, rfl, ?_, ?_, ?_⟩
  · show Game.distance _ 600 100 600 100 < Asteroid.radiusOf Size.large
    rw [sample_distance_zero_second]
    norm_num [Asteroid.radiusOf]
  · show (Game.checkShip _ _).bullets = _
    rw [hsb, hb]
  · rw [Game.checkCollisions_asteroids, ha]

/-- C20: for a running state whose level and combo counter are non-negative
(they start at 1 and 0 and are only incremented or reset to those values) and
whose sampling loops end, update returns a state with a non-empty asteroid
collection, a level that is the former one or one more, a kill score at least
the former one, and a combo counter that is again non-negative. -/
theorem C20_update_invariants (H : Host α) (fuel : Nat) (g : Game α)
    (hrun : g.gameOver = false ∧ g.paused = false) (hlevel : 0 ≤ g.level)
    (hcombo : 0 ≤ g.comboCount)
    (hs : Game.samplingEnds H fuel (Game.updateEntities H g)) :
    ∃ g1, Game.update H fuel g = some g1 ∧ g1.asteroids ≠ [] ∧
      g.level ≤ g1.level ∧ g1.level ≤ g.level + 1 ∧ g.score ≤ g1.score ∧
      0 ≤ g1.comboCount := by
  have hcnt := Game.getAsteroidCount_eq g
  have hw := Game.afterReset_sameWorld H g
  have hc := (Game.updateEntities_frame H g).1
  have hra := (Game.resetCombo_frame (Game.tickNow H g) (Game.updateToCollisions H g)).2.1
  obtain ⟨hsc1, hcc1⟩ := Game.updateToCollisions_score H g hcombo
  obtain ⟨hrs, hrc⟩ := Game.resetCombo_score (Game.tickNow H g) (Game.updateToCollisions H g)
  have hlevel1 : (Game.resetCombo (Game.tickNow H g) (Game.updateToCollisions H g)).level =
      g.level := hw.2.2.2.1.trans hc.2.2.1
  have hset : (Game.resetCombo (Game.tickNow H g) (Game.updateToCollisions H g)).settings =
      g.settings := hw.2.2.2.2.1.trans hc.2.2.2.1
  have hcount : (Game.resetCombo (Game.tickNow H g)
      (Game.updateToCollisions H g)).getAsteroidCount = g.getAsteroidCount := by
    unfold Game.getAsteroidCount
    rw [hset]
  rw [Game.update_running H fuel g hrun]
  by_cases he : (Game.resetCombo (Game.tickNow H g) (Game.updateToCollisions H g)).asteroids = []
  · obtain ⟨new, r, heq, hlen, -⟩ := Game.levelUp_empty H fuel _ he
      (Game.samplingEnds_congr H (Game.updateEntities H g) _ fuel hw.1 hw.2.1 hw.2.2.1 hs)
    rw [heq]
    rw [hlevel1, hcount] at hlen
    have h3 : 3 ≤ g.getAsteroidCount := by
      rw [hcnt]; cases g.settings.difficulty <;> simp
    have h2 : 0 ≤ Int.fdiv (g.level + 1) 2 := by
      rw [Int.fdiv_eq_ediv _ (by norm_num : (0 : Int) ≤ 2)]
      omega
    have hpos : 0 < new.length := by
      rw [hlen]
      omega
    refine ⟨_, rfl, ?_, ?_, ?_, ?_, ?_⟩
    · show List.map _ new ≠ []
      intro hnil
      rw [List.map_eq_nil_iff] at hnil
      rw [hnil] at hpos
      exact absurd hpos (lt_irrefl 0)
    · show g.level ≤ (Game.resetCombo _ _).level + 1
      rw [hlevel1]
      omega
    · show (Game.resetCombo _ _).level + 1 ≤ g.level + 1
      rw [hlevel1]
    · show g.score ≤ (Game.resetCombo _ _).score
      rw [hrs]
      exact hsc1
    · exact hrc hcc1
  · rw [Game.levelUp_nonempty H fuel _ he]
    refine ⟨_, rfl, ?_, ?_, ?_, ?_, ?_⟩
    · show List.map _ _ ≠ []
      intro hnil
      rw [List.map_eq_nil_iff] at hnil
      exact he hnil
    · show g.level ≤ (Game.resetCombo _ _).level
      rw [hlevel1]
    · show (Game.resetCombo _ _).level ≤ g.level + 1
      rw [hlevel1]
      omega
    · show g.score ≤ (Game.resetCombo _ _).score
      rw [hrs]
      exact hsc1
    · exact hrc hcc1

/-- C20 at a concrete input: the collision sample, in which a hit occurs. -/
theorem C20_update_invariants_witness :
    ∃ g1, Game.update (sampleHost Real.sqrt Real.cos Real.sin Real.pi) 1
        (collisionSample (sampleHost Real.sqrt Real.cos Real.sin Real.pi)) = some g1 ∧
      g1.asteroids ≠ [] ∧ 1 ≤ g1.level ∧ g1.level ≤ 2 ∧ 0 ≤ g1.score :=  by
  obtain ⟨g1, h1, h2, h3, h4, h5, -⟩ := C20_update_invariants
    (sampleHost Real.sqrt Real.cos Real.sin Real.pi) 1
    (collisionSample (sampleHost Real.sqrt Real.cos Real.sin Real.pi)) ⟨rfl, rfl⟩
    (by decide) (by decide) (sample_samplingEnds _ rfl rfl rfl rfl)
  exact ⟨g1, h1, h2, h3, h4, h5⟩

end Specification

end AsteroidGame
